import Mathlib

/-!
# DTEK0068 exercises: the W07E01 LCD dashboard firmware

A shallow embedding of the drivers and task bodies of `src/W07E01_LCD.X`
(`adc.c`, `lcd.c`, `backlight.c`, `dummy.c`, `uart.c`) and of the main loops,
interrupt routines and glyph tables of the precursor exercises (`W02E01`,
`W03E01`, `W04E01`, `W06E01`), followed by theorems about them.

Conventions.
* 8-bit registers and `uint8_t` values are `Nat`, reduced `% 256` where the C
  code narrows; `uint16_t` and `size_t` values (16 bits on the AVR) are `Nat`,
  reduced `% 65536` where the C arithmetic can wrap.
* Peripheral registers are fields of a state record; every function of the
  source that touches hardware is a state transformer.
* Busy-wait loops take a fuel argument and return `none` when it runs out.
* C library functions (`strlen`, `strncat`, `memcpy`, `sprintf` with `%u`) act
  on the memory from their pointer argument onwards, a list of bytes.
-/

namespace DTEK0068

/-! ## Constants of the device header `avr/io.h` (ATmega4809) -/

/-- Modelled from the spec: the device header is not part of the repository;
`ADC_MUXPOS_AIN8_gc` is the multiplexer code of analog input 8 (PE0, LDR). -/
def ADC_MUXPOS_AIN8_gc : Nat := 0x08

/-- Modelled from the spec: the device header is not part of the repository;
`ADC_MUXPOS_AIN9_gc` is the multiplexer code of analog input 9 (PE1, NTC). -/
def ADC_MUXPOS_AIN9_gc : Nat := 0x09

/-- Modelled from the spec: the device header is not part of the repository;
`ADC_MUXPOS_AIN14_gc` is the multiplexer code of analog input 14 (PF4, POT). -/
def ADC_MUXPOS_AIN14_gc : Nat := 0x0E

/-- Modelled from the spec: the device header is not part of the repository;
internal reference, value `0x00` of the reference-selection field. -/
def ADC_REFSEL_INTREF_gc : Nat := 0x00

/-- Modelled from the spec: the device header is not part of the repository;
VDD reference, value `0x10` of the reference-selection field. -/
def ADC_REFSEL_VDDREF_gc : Nat := 0x10

/-- Modelled from the spec: the device header is not part of the repository;
mask `0x30` of the reference-selection field of `ADC0.CTRLC`. -/
def ADC_REFSEL_gm : Nat := 0x30

/-- Modelled from the spec: the device header is not part of the repository;
prescaler code for a division of the peripheral clock by 16. -/
def ADC_PRESC_DIV16_gc : Nat := 0x03

/-- Modelled from the spec: the device header is not part of the repository;
enable bit of `ADC0.CTRLA`. -/
def ADC_ENABLE_bm : Nat := 0x01

/-- Modelled from the spec: the device header is not part of the repository;
start-conversion bit of `ADC0.COMMAND`. -/
def ADC_STCONV_bm : Nat := 0x01

/-- Modelled from the spec: the device header is not part of the repository;
result-ready bit of `ADC0.INTFLAGS`. -/
def ADC_RESRDY_bm : Nat := 0x01

/-- Modelled from the spec: the device header is not part of the repository;
window-comparator bit of `ADC0.INTFLAGS`. -/
def ADC_WCMP_bm : Nat := 0x02

/-- Modelled from the spec: the device header is not part of the repository;
pin-control code that disables the digital input buffer. -/
def PORT_ISC_INPUT_DISABLE_gc : Nat := 0x04

/-- Modelled from the spec: the device header is not part of the repository;
code of the 2.5 V setting of the ADC0 reference field of `VREF.CTRLA`. -/
def VREF_ADC0REFSEL_2V5_gc : Nat := 0x20

/-- Modelled from the spec: the device header is not part of the repository;
`PIN0_bm` is the bit mask of pin 0 of a port. -/
def PIN0_bm : Nat := 0x01
/-- Modelled from the spec: the device header is not part of the repository;
`PIN1_bm` is the bit mask of pin 1 of a port. -/
def PIN1_bm : Nat := 0x02
/-- Modelled from the spec: the device header is not part of the repository;
`PIN3_bm` is the bit mask of pin 3 of a port. -/
def PIN3_bm : Nat := 0x08
/-- Modelled from the spec: the device header is not part of the repository;
`PIN4_bm` is the bit mask of pin 4 of a port. -/
def PIN4_bm : Nat := 0x10
/-- Modelled from the spec: the device header is not part of the repository;
`PIN5_bm` is the bit mask of pin 5 of a port. -/
def PIN5_bm : Nat := 0x20

/-! ## `adc.h`: channel numbers -/

/-- Channel number of the light-dependent resistor (`#define LDR 0`). -/
def LDR : Nat := 0
/-- Channel number of the thermistor (`#define NTC 1`). -/
def NTC : Nat := 1
/-- Channel number of the potentiometer (`#define POT 2`). -/
def POT : Nat := 2

/-! ## `adc.c`: state, hardware model, operations -/

/-- Operations of the ADC driver that are visible from outside the CPU:
mutex calls and accesses to ADC0 registers, with the value written or read. -/
inductive Op where
  | semTake
  | semGive
  | wrMUXPOS (v : Nat)
  | wrCTRLC (v : Nat)
  | wrCOMMAND (v : Nat)
  | rdINTFLAGS (v : Nat)
  | rdRES (v : Nat)
  deriving DecidableEq, Repr

/-- The analog world seen by the converter: for the `k`-th conversion started
since reset, how many status polls pass before it completes, and the value it
delivers under the multiplexer and `CTRLC` settings in force at its start. -/
structure Analog where
  latency : Nat → Nat
  sample : Nat → Nat → Nat → Nat

/-- Registers written by the ADC driver, the converter's internal state and
the log of operations. -/
structure AdcSys where
  PORTE_DIR : Nat
  PORTF_DIR : Nat
  PORTE_PIN0CTRL : Nat
  PORTE_PIN1CTRL : Nat
  PORTF_PIN4CTRL : Nat
  VREF_CTRLA : Nat
  ADC0_CTRLA : Nat
  ADC0_CTRLC : Nat
  ADC0_MUXPOS : Nat
  ADC0_RES : Nat
  /-- result-ready flag of `ADC0.INTFLAGS` -/
  resrdy : Bool
  /-- window-comparator flag of `ADC0.INTFLAGS` -/
  wcmp : Bool
  /-- polls left before the running conversion completes, if one is running -/
  busy : Option Nat
  /-- value the running conversion will deliver -/
  pending : Nat
  /-- number of conversions started since reset -/
  started : Nat
  /-- whether the mutex has been created -/
  mutexCreated : Bool
  trace : List Op
  deriving DecidableEq, Repr

/-- Register state after reset: all registers zero, converter idle. -/
def AdcSys.reset : AdcSys :=
  { PORTE_DIR := 0, PORTF_DIR := 0, PORTE_PIN0CTRL := 0, PORTE_PIN1CTRL := 0,
    PORTF_PIN4CTRL := 0, VREF_CTRLA := 0, ADC0_CTRLA := 0, ADC0_CTRLC := 0,
    ADC0_MUXPOS := 0, ADC0_RES := 0, resrdy := false, wcmp := false,
    busy := none, pending := 0, started := 0, mutexCreated := false, trace := [] }

/-- Append one operation to the log. -/
def AdcSys.log (s : AdcSys) (o : Op) : AdcSys := { s with trace := s.trace ++ [o] }

/-- Encoding of the two interrupt flags as the byte read from `ADC0.INTFLAGS`. -/
def intflagsOf (resrdy wcmp : Bool) : Nat :=
  (if resrdy then ADC_RESRDY_bm else 0) ||| (if wcmp then ADC_WCMP_bm else 0)

/-- Value read from `ADC0.INTFLAGS`. -/
def AdcSys.INTFLAGS (s : AdcSys) : Nat := intflagsOf s.resrdy s.wcmp

/-- The reference-selection field of `ADC0.CTRLC`. -/
def AdcSys.refsel (s : AdcSys) : Nat := s.ADC0_CTRLC &&& ADC_REFSEL_gm

/-- Clear bits `m` of an 8-bit direction register (a write to `DIRCLR`). -/
def dirclr (r m : Nat) : Nat := r &&& (0xFF - m)

/-- Embedding of `adc_init`. -/
def adc_init (s : AdcSys) : AdcSys :=
  let s := { s with mutexCreated := true }
  let s := { s with PORTE_DIR := dirclr s.PORTE_DIR PIN0_bm }
  let s := { s with PORTE_DIR := dirclr s.PORTE_DIR PIN1_bm }
  let s := { s with PORTF_DIR := dirclr s.PORTF_DIR PIN4_bm }
  let s := { s with PORTE_PIN0CTRL := (s.PORTE_PIN0CTRL ||| PORT_ISC_INPUT_DISABLE_gc) % 256 }
  let s := { s with PORTE_PIN1CTRL := (s.PORTE_PIN1CTRL ||| PORT_ISC_INPUT_DISABLE_gc) % 256 }
  let s := { s with PORTF_PIN4CTRL := (s.PORTF_PIN4CTRL ||| PORT_ISC_INPUT_DISABLE_gc) % 256 }
  let s := { s with VREF_CTRLA := (s.VREF_CTRLA ||| VREF_ADC0REFSEL_2V5_gc) % 256 }
  let s := { s with ADC0_CTRLC := (s.ADC0_CTRLC ||| ADC_PRESC_DIV16_gc) % 256 }
  { s with ADC0_CTRLA := (s.ADC0_CTRLA ||| ADC_ENABLE_bm) % 256 }

/-- Hardware: a write of `v` to `ADC0.COMMAND`. With the start bit set and the
converter idle, conversion number `started` begins under the current
multiplexer and `CTRLC` settings; the result has 10 bits. -/
def writeCOMMAND (w : Analog) (v : Nat) (s : AdcSys) : AdcSys :=
  let s := s.log (Op.wrCOMMAND v)
  if v &&& ADC_STCONV_bm = 0 then s
  else match s.busy with
    | some _ => s
    | none =>
      { s with busy := some (w.latency s.started),
               pending := w.sample s.started s.ADC0_MUXPOS s.ADC0_CTRLC % 1024,
               started := s.started + 1 }

/-- Hardware: progress of the converter between two status polls. -/
def hwTick (s : AdcSys) : AdcSys :=
  match s.busy with
  | none => s
  | some 0 => { s with busy := none, ADC0_RES := s.pending, resrdy := true }
  | some (n + 1) => { s with busy := some n }

/-- Hardware: a read of `ADC0.RES` returns the register and clears the
result-ready flag. -/
def readRES (s : AdcSys) : Nat × AdcSys :=
  (s.ADC0_RES, { (s.log (Op.rdRES s.ADC0_RES)) with resrdy := false })

/-- The loop `while(!(ADC0.INTFLAGS & ADC_RESRDY_bm)) ;` of `adc_converse`. -/
def adc_wait : Nat → AdcSys → Option AdcSys
  | 0, _ => none
  | fuel + 1, s =>
    let flags := s.INTFLAGS
    let s := s.log (Op.rdINTFLAGS flags)
    if flags &&& ADC_RESRDY_bm = 0 then adc_wait fuel (hwTick s) else some s

/-- Embedding of `adc_converse`. -/
def adc_converse (w : Analog) (fuel : Nat) (s : AdcSys) : Option (Nat × AdcSys) :=
  let s := writeCOMMAND w ADC_STCONV_bm s
  match adc_wait fuel s with
  | none => none
  | some s => some (readRES s)

/-- The `switch (input)` of `adc_read`: multiplexer and reference programming.
There is no `default` case. -/
def adc_select (input : Nat) (s : AdcSys) : AdcSys :=
  if input = LDR then
    let s := { (s.log (Op.wrMUXPOS ADC_MUXPOS_AIN8_gc)) with ADC0_MUXPOS := ADC_MUXPOS_AIN8_gc }
    let v := (s.ADC0_CTRLC ||| ADC_REFSEL_INTREF_gc) % 256
    { (s.log (Op.wrCTRLC v)) with ADC0_CTRLC := v }
  else if input = NTC then
    let s := { (s.log (Op.wrMUXPOS ADC_MUXPOS_AIN9_gc)) with ADC0_MUXPOS := ADC_MUXPOS_AIN9_gc }
    let v := (s.ADC0_CTRLC ||| ADC_REFSEL_INTREF_gc) % 256
    { (s.log (Op.wrCTRLC v)) with ADC0_CTRLC := v }
  else if input = POT then
    let s := { (s.log (Op.wrMUXPOS ADC_MUXPOS_AIN14_gc)) with ADC0_MUXPOS := ADC_MUXPOS_AIN14_gc }
    let v := (s.ADC0_CTRLC ||| ADC_REFSEL_VDDREF_gc) % 256
    { (s.log (Op.wrCTRLC v)) with ADC0_CTRLC := v }
  else s

/-- Embedding of `adc_read`, as one uninterrupted call. -/
def adc_read (w : Analog) (fuel : Nat) (input : Nat) (s : AdcSys) : Option (Nat × AdcSys) :=
  let s := s.log Op.semTake
  let s := adc_select input s
  match adc_converse w fuel s with
  | none => none
  | some (_, s) =>
    match adc_converse w fuel s with
    | none => none
    | some (final_result, s) =>
      let s := s.log Op.semGive
      some (final_result, s)

/-! ## `lcd.c`: pins, bus, driver -/

/-- Enable line of the display on port B (`#define LCD_E_PIN PIN3_bm`). -/
def LCD_E_PIN : Nat := PIN3_bm
/-- Register-select line of the display on port B (`#define LCD_RS_PIN PIN4_bm`). -/
def LCD_RS_PIN : Nat := PIN4_bm
/-- Scroll speed in characters per second (`#define SCROLL_SPEED_CPS 5`). -/
def SCROLL_SPEED_CPS : Int := 5
/-- The banner (`#define MANUFACTURER_TEXT`). -/
def MANUFACTURER_TEXT : String := " DTEK0068 Embedded Microprocessor Systems "

/-- One byte latched by the display: the register-select level (`false` =
instruction, `true` = data) and the level of the eight data lines. -/
structure BusWrite where
  rs : Bool
  data : Nat
  deriving DecidableEq, Repr

/-- Output registers of the two LCD ports and the bytes the display has latched. -/
structure Lcd where
  VPORTB_OUT : Nat
  VPORTD_OUT : Nat
  bus : List BusWrite
  deriving DecidableEq, Repr

/-- Embedding of the macro `LCD_ENABLE_PULSE`: raise E, hold, lower E. The
display latches the register-select and data lines on the falling edge. -/
def LCD_ENABLE_PULSE (s : Lcd) : Lcd :=
  let s := { s with VPORTB_OUT := (s.VPORTB_OUT ||| LCD_E_PIN) % 256 }
  let s := { s with bus := s.bus ++ [BusWrite.mk (s.VPORTB_OUT &&& LCD_RS_PIN != 0) s.VPORTD_OUT] }
  { s with VPORTB_OUT := s.VPORTB_OUT &&& (0xFF - LCD_E_PIN) }

/-- Embedding of the macro `LCD_CMD_SEND`. -/
def LCD_CMD_SEND (byte : Nat) (s : Lcd) : Lcd :=
  let s := { s with VPORTB_OUT := s.VPORTB_OUT &&& (0xFF - LCD_RS_PIN) }
  let s := { s with VPORTD_OUT := byte % 256 }
  LCD_ENABLE_PULSE s

/-- Embedding of the macro `LCD_DATA_SEND`. -/
def LCD_DATA_SEND (byte : Nat) (s : Lcd) : Lcd :=
  let s := { s with VPORTB_OUT := (s.VPORTB_OUT ||| LCD_RS_PIN) % 256 }
  let s := { s with VPORTD_OUT := byte % 256 }
  LCD_ENABLE_PULSE s

/-- Embedding of `lcd_write`. The argument is the memory from `str` onwards;
the loop stops at the first zero byte (or where the modelled memory ends). -/
def lcd_write : List Nat → Lcd → Lcd
  | [], s => s
  | c :: str, s => if c = 0 then s else lcd_write str (LCD_DATA_SEND c s)

/-- Embedding of `lcd_cursor_set`. -/
def lcd_cursor_set (x y : Nat) (s : Lcd) : Lcd :=
  let y := if y > 0x0F then 0x0F else y
  LCD_CMD_SEND (0x80 ||| ((x &&& 0x01) <<< 6) ||| y) s

/-- Number of data bytes (RS = 1) among the bytes the display has latched. -/
def dataCount (bus : List BusWrite) : Nat := (bus.filter (fun b => b.rs)).length

/-! ## `lcd.c`: messages, C strings, the marshaller and the scroller -/

/-- Message format of `lcd_msg_queue`: line number and the 17 bytes of `text`. -/
structure LCD_message where
  line_num : Nat
  text : List Nat
  deriving DecidableEq, Repr

/-- C library `strlen` on the memory from the pointer onwards: the number of
bytes before the first zero byte (or before the modelled memory ends). -/
def strlen : List Nat → Nat
  | [] => 0
  | c :: str => if c = 0 then 0 else strlen str + 1

/-- Store the bytes `bs` into `mem` from offset `k` on. -/
def storeBytes : List Nat → Nat → List Nat → List Nat
  | mem, _, [] => mem
  | mem, k, b :: bs => storeBytes (mem.set k b) (k + 1) bs

/-- C library `strncat(dest, src, n)`: append at most `n` bytes of `src`,
stopping at a zero byte, to the string at `dest`, then a terminating zero. -/
def strncat (dest src : List Nat) (n : Nat) : List Nat :=
  storeBytes dest (strlen dest) ((src.take n).takeWhile (fun c => c != 0) ++ [0])

/-- C library `memcpy(dest, src, n)`: `src` is the memory from the source
pointer onwards. -/
def memcpy (dest src : List Nat) (n : Nat) : List Nat :=
  storeBytes dest 0 (src.take n)

/-- The local array `char space[1] = " "` of `lcd_control`. -/
def space : List Nat := [32]

/-- The padding loop of `lcd_control`,
`while (strlen(msg.text) < 16) strncat(msg.text, space, 1);`,
on the memory from `msg.text` onwards. -/
def lcd_pad : Nat → List Nat → Option (List Nat)
  | 0, _ => none
  | fuel + 1, text => if strlen text < 16 then lcd_pad fuel (strncat text space 1) else some text

/-- One pass of the loop of `lcd_control` for a received message. `beyond` is
the memory that follows `msg.text` in the task's stack frame; it is read or
written only if the text has no terminator within its 17 bytes. -/
def lcd_control_iter (fuel : Nat) (msg : LCD_message) (beyond : List Nat) (s : Lcd) :
    Option Lcd :=
  let s := lcd_cursor_set msg.line_num 0 s
  match lcd_pad fuel (msg.text ++ beyond) with
  | none => none
  | some mem => some (lcd_write mem s)

/-- The array `char man_text[] = MANUFACTURER_TEXT` of `lcd_scrolling_text`,
with its terminating zero. -/
def man_text : List Nat := MANUFACTURER_TEXT.toList.map Char.toNat ++ [0]

/-- Loop variables of `lcd_scrolling_text`: the `size_t` index `i` and the
`int8_t` direction `scroll_dir`. -/
structure ScrollState where
  i : Nat
  scroll_dir : Int
  deriving DecidableEq, Repr

/-- The statement `size_t max_index = text_length - 16;` (16-bit `size_t`). -/
def max_index (text_length : Nat) : Nat := (text_length + 65536 - 16) % 65536

/-- The direction update at the head of the scroll loop body. -/
def scroll_turn (text_length : Nat) (st : ScrollState) : ScrollState :=
  if st.i = max_index text_length then { st with scroll_dir := -1 }
  else if st.i = 0 then { st with scroll_dir := 1 }
  else st

/-- The loop increment `i += scroll_dir`: the `int8_t` is converted to the
16-bit unsigned `size_t` and the sum wraps modulo 65536. -/
def scroll_advance (st : ScrollState) : ScrollState :=
  { st with i := (((st.i : Int) + st.scroll_dir) % 65536).toNat }

/-- One iteration of `for (;; i += scroll_dir)`: body, then increment. -/
def scroll_iter (text_length : Nat) (st : ScrollState) : ScrollState :=
  scroll_advance (scroll_turn text_length st)

/-- Loop variables at the head of iteration `k` (`i = 0`, `scroll_dir = 1`
at the head of iteration 0). -/
def scroll_head (text_length : Nat) : Nat → ScrollState
  | 0 => { i := 0, scroll_dir := 1 }
  | k + 1 => scroll_iter text_length (scroll_head text_length k)

/-- Loop variables of iteration `k` at the `memcpy` that builds the message:
after the direction update of that iteration. -/
def scroll_send (text_length : Nat) (k : Nat) : ScrollState :=
  scroll_turn text_length (scroll_head text_length k)

/-- The message iteration `k` sends: `memcpy(msg.text, &man_text[i], 16)` into
the task's local `msg`, whose `line_num` is 1 and whose `text` is never
initialised (`junk` is what the stack held). -/
def scroll_msg (banner : List Nat) (junk : List Nat) (i : Nat) : LCD_message :=
  { line_num := 1, text := memcpy junk (banner.drop i) 16 }

/-! ## `backlight.c`: the regulator and the gate -/

/-- Operations on the backlight that the two tasks perform. -/
inductive BlOp where
  | suspend
  | resume
  | wrCCMPH (v : Nat)
  deriving DecidableEq, Repr

/-- The compare-high register of TCB3, the scheduler state of the regulator
task `bl_adj`, the regulator's local `brightness` with its position in the
loop body, and the log of operations. -/
structure BlSys where
  TCB3_CCMPH : Nat
  /-- task `bl_adj` is suspended (`vTaskSuspend` / `vTaskResume`) -/
  bl_adj_suspended : Bool
  /-- the regulator's local variable `brightness` -/
  brightness : Nat
  /-- the regulator has assigned `brightness` and not yet written the register -/
  bl_adj_at_write : Bool
  ops : List BlOp
  deriving DecidableEq, Repr

/-- The statement `brightness = adc_read(LDR) / 4;` with its narrowing to
`uint8_t`, given what `adc_read(LDR)` returned. -/
def backlight_sample (ldr_reading : Nat) (s : BlSys) : BlSys :=
  { s with brightness := (ldr_reading / 4) % 256, bl_adj_at_write := true }

/-- The statement `TCB3.CCMPH = brightness;`. -/
def backlight_write (s : BlSys) : BlSys :=
  { s with TCB3_CCMPH := s.brightness, bl_adj_at_write := false,
           ops := s.ops ++ [BlOp.wrCCMPH s.brightness] }

/-- One pass of the loop of `backlight_auto_adjust`, given what
`adc_read(LDR)` returned. -/
def backlight_auto_adjust_iter (ldr_reading : Nat) (s : BlSys) : BlSys :=
  backlight_write (backlight_sample ldr_reading s)

/-- Kernel call `vTaskSuspend(bl_adj_handle)`. -/
def vTaskSuspend_bl_adj (s : BlSys) : BlSys :=
  { s with bl_adj_suspended := true, ops := s.ops ++ [BlOp.suspend] }

/-- Kernel call `vTaskResume(bl_adj_handle)`. -/
def vTaskResume_bl_adj (s : BlSys) : BlSys :=
  { s with bl_adj_suspended := false, ops := s.ops ++ [BlOp.resume] }

/-- One pass of the loop of `backlight_control`; `notified` tells whether
`ulTaskNotifyTake` returned a non-zero count (`false`: the 10 s ran out). -/
def backlight_control_iter (notified : Bool) (s : BlSys) : BlSys :=
  if notified = false then
    let s := vTaskSuspend_bl_adj s
    { s with TCB3_CCMPH := 0x00, ops := s.ops ++ [BlOp.wrCCMPH 0x00] }
  else
    vTaskResume_bl_adj s

/-- Steps of the gate and the regulator as the scheduler interleaves them. -/
inductive BlStep where
  | gateTimeout
  | gateNotified
  | regSample (ldr_reading : Nat)
  | regWrite
  deriving DecidableEq, Repr

/-- Effect of one step. A suspended regulator does not run: its steps leave
the state as it is; its two statements alternate. -/
def blStep (e : BlStep) (s : BlSys) : BlSys :=
  match e with
  | BlStep.gateTimeout => backlight_control_iter false s
  | BlStep.gateNotified => backlight_control_iter true s
  | BlStep.regSample ldr_reading =>
    if s.bl_adj_suspended || s.bl_adj_at_write then s else backlight_sample ldr_reading s
  | BlStep.regWrite =>
    if s.bl_adj_suspended || !s.bl_adj_at_write then s else backlight_write s

/-- Effect of a sequence of steps. -/
def blRun : List BlStep → BlSys → BlSys
  | [], s => s
  | e :: es, s => blRun es (blStep e s)

/-! ## `dummy.c`: the activity task -/

/-- Embedding of the macro `DIFFERENCE(a,b)` on `uint16_t` operands: the
subtraction is done in the 16-bit `unsigned int`. -/
def DIFFERENCE (a b : Nat) : Nat :=
  if a > b then (a + 65536 - b) % 65536 else (b + 65536 - a) % 65536

/-- The output register of port F, the local `prev_pot_reading` of the task
and the notification count of the task `bl_ctrl`. -/
structure DummySys where
  PORTF_OUT : Nat
  prev_pot_reading : Nat
  bl_ctrl_notifications : Nat
  deriving DecidableEq, Repr

/-- One pass of the loop of `dummy`, given what `adc_read(NTC)` and
`adc_read(POT)` returned. -/
def dummy_iter (ntc_reading pot_reading : Nat) (s : DummySys) : DummySys :=
  let s :=
    if ntc_reading > pot_reading then { s with PORTF_OUT := s.PORTF_OUT &&& (0xFF - PIN5_bm) }
    else { s with PORTF_OUT := (s.PORTF_OUT ||| PIN5_bm) % 256 }
  if DIFFERENCE pot_reading s.prev_pot_reading ≥ 10 then
    { s with bl_ctrl_notifications := s.bl_ctrl_notifications + 1,
             prev_pot_reading := pot_reading }
  else s

/-- An analog world used in examples: conversion `k` takes `k % 3` polls and
delivers `100 * k + mux`. -/
def demoAnalog : Analog := { latency := fun k => k % 3, sample := fun k mux _ => 100 * k + mux }

/-- The operations one conversion is expected to perform: start it, poll the
flags `lat + 1` times without success and once with success, read the result. -/
def spec_conversion_ops (lat : Nat) (wcmp : Bool) (r : Nat) : List Op :=
  [Op.wrCOMMAND ADC_STCONV_bm] ++ List.replicate (lat + 1) (Op.rdINTFLAGS (intflagsOf false wcmp))
    ++ [Op.rdINTFLAGS (intflagsOf true wcmp), Op.rdRES r]

/-- The multiplexer input the specification assigns to a channel. -/
def spec_mux (input : Nat) : Nat :=
  if input = LDR then ADC_MUXPOS_AIN8_gc else if input = NTC then ADC_MUXPOS_AIN9_gc
  else ADC_MUXPOS_AIN14_gc

/-- The reference the specification assigns to a channel. -/
def spec_ref (input : Nat) : Nat :=
  if input = POT then ADC_REFSEL_VDDREF_gc else ADC_REFSEL_INTREF_gc

/-- The value the switch of `adc_read` writes to `ADC0.CTRLC` for a channel:
the register or-ed with the channel's reference code. -/
def spec_ctrlc (input : Nat) (s : AdcSys) : Nat := (s.ADC0_CTRLC ||| spec_ref input) % 256

/-! ## `lcd.c`: the start of the scroller, and the ADC reporter -/

/-- What `lcd_scrolling_text` has done when it reaches the scroll loop or is
deleted: the messages passed to `xQueueSend`, whether `vTaskDelete(NULL)` was
called, how many bytes `memcpy` read from `man_text`, and whether the scroll
loop was entered. -/
structure ScrollerStart where
  sent : List LCD_message
  deleted : Bool
  src_read : Nat
  entered_loop : Bool
  deriving DecidableEq, Repr

/-- The part of `lcd_scrolling_text` before the scroll loop. `arr` is the array
`man_text` (the banner and its terminating zero), `after` the memory that
follows the array, `junk` the uninitialised content of `msg.text`, `speed` the
value of `SCROLL_SPEED_CPS`. The task does not run on after `vTaskDelete`. -/
def lcd_scrolling_text_start (arr after junk : List Nat) (speed : Int) : ScrollerStart :=
  let line_num := 1
  let text_length := strlen arr
  if text_length ≤ 16 ∨ speed ≤ 0 then
    let text := memcpy junk (arr ++ after) 16
    { sent := [{ line_num := line_num, text := text }], deleted := true, src_read := 16,
      entered_loop := false }
  else
    { sent := [], deleted := false, src_read := 0, entered_loop := true }

/-- Bytes of a string literal of the source (without the terminating zero). -/
def cstr (s : String) : List Nat := s.toList.map Char.toNat

/-- C library conversion `%u`, digit loop: the decimal digits of `n`, most
significant first, as ASCII codes, in front of `acc`. -/
def fmt_u_aux : Nat → Nat → List Nat → List Nat
  | 0, _, acc => acc
  | fuel + 1, n, acc =>
    if n < 10 then (48 + n) :: acc else fmt_u_aux fuel (n / 10) ((48 + n % 10) :: acc)

/-- C library conversion `%u` of a 16-bit `unsigned int` argument (at most
five digits). -/
def fmt_u (n : Nat) : List Nat := fmt_u_aux 5 (n % 65536) []

/-- C library `sprintf`, the characters produced for a format whose only
directives are `%u` (ASCII 37, 117), each consuming one argument. -/
def sprintf_out : List Nat → List Nat → List Nat
  | [], _ => []
  | [c], _ => [c]
  | c :: d :: fmt, [] => c :: sprintf_out (d :: fmt) []
  | c :: d :: fmt, a :: args =>
    if c = 37 ∧ d = 117 then fmt_u a ++ sprintf_out fmt args
    else c :: sprintf_out (d :: fmt) (a :: args)

/-- C library `sprintf(str, format, ...)`: the characters and a terminating
zero are stored from `str` on, however long they are. `mem` is the memory from
`str` onwards. -/
def sprintf (mem fmt args : List Nat) : List Nat :=
  storeBytes mem 0 (sprintf_out fmt args ++ [0])

/-- The format string `lcd_adc_report` uses for a channel. -/
def lcd_adc_report_format (input : Nat) : List Nat :=
  if input = LDR then cstr "LDR value: %u "
  else if input = NTC then cstr "NTC value: %u "
  else cstr "POT value: %u"

/-- The formatting step of `lcd_adc_report` for one channel, given what
`adc_read` returned: `sprintf(msg.text, format, reading)` on the task's local
`msg` (`line_num` 0). `beyond` is the memory that follows `msg.text`; the
result is the message and that memory afterwards. -/
def lcd_adc_report_msg (input reading : Nat) (text beyond : List Nat) :
    LCD_message × List Nat :=
  let mem := sprintf (text ++ beyond) (lcd_adc_report_format input) [reading]
  ({ line_num := 0, text := mem.take text.length }, mem.drop text.length)

/-- Value of a string of decimal digits; `none` if it is empty or holds
another character. -/
def spec_parse_decimal (cs : List Nat) : Option Nat :=
  if cs ≠ [] ∧ cs.all (fun c => 48 ≤ c ∧ c ≤ 57) then
    some (cs.foldl (fun acc c => acc * 10 + (c - 48)) 0)
  else none

/-- Parser of the upper-line text of the LDR channel: the decimal number
between the prefix "LDR value: " and the trailing space. -/
def spec_parse_LDR (text : List Nat) : Option Nat :=
  if text.take 11 = cstr "LDR value: " ∧ text.getLast? = some 32 then
    spec_parse_decimal ((text.drop 11).dropLast)
  else none

/-- The decimal digits of `n` as ASCII codes, most significant first ("0" for
zero), from the positional digits of the number. -/
def spec_decimal (n : Nat) : List Nat :=
  if n = 0 then [48] else (Nat.digits 10 n).reverse.map (fun d => 48 + d)

/-- The label in front of the number in the upper-line text of a channel. -/
def spec_label (input : Nat) : List Nat :=
  if input = LDR then cstr "LDR value: " else if input = NTC then cstr "NTC value: "
  else cstr "POT value: "

/-- What follows the number in the upper-line text of a channel: one space for
LDR and NTC, nothing for POT. -/
def spec_tail (input : Nat) : List Nat := if input = POT then [] else [32]

/-! ## `uart.c`: the serial transmitter and the reporter -/

/-- Modelled from the spec: the device header is not part of the repository;
`USART_DREIF_bm` is the data-register-empty flag of `USART0.STATUS`. -/
def USART_DREIF_bm : Nat := 0x20

/-- The serial line seen by the transmitter: how many status polls the `k`-th
byte written keeps the data register full. -/
structure SerialLine where
  latency : Nat → Nat

/-- State of USART0 as the transmit loop sees it. -/
structure Usart where
  /-- data-register-empty flag of `USART0.STATUS` -/
  dreif : Bool
  /-- polls left before the data register empties -/
  tx_wait : Nat
  /-- number of bytes accepted so far -/
  written : Nat
  /-- bytes accepted by the transmitter, in order -/
  wire : List Nat
  deriving DecidableEq, Repr

/-- Value read from `USART0.STATUS` (the bits the driver looks at). -/
def Usart.STATUS (u : Usart) : Nat := if u.dreif then USART_DREIF_bm else 0

/-- Hardware: progress of the transmitter between two status polls. -/
def usartTick (u : Usart) : Usart :=
  if u.dreif then u
  else match u.tx_wait with
    | 0 => { u with dreif := true }
    | n + 1 => { u with tx_wait := n }

/-- Hardware: a write of `c` to `USART0.TXDATAL`. With the data register empty
the byte is accepted and the register stays full for a while; otherwise the
byte is lost. -/
def writeTXDATAL (w : SerialLine) (c : Nat) (u : Usart) : Usart :=
  if u.dreif then
    { u with wire := u.wire ++ [c % 256], dreif := false, tx_wait := w.latency u.written,
             written := u.written + 1 }
  else u

/-- The loop `while (!(USART0.STATUS & USART_DREIF_bm)) ;`. -/
def usart_wait : Nat → Usart → Option Usart
  | 0, _ => none
  | fuel + 1, u =>
    if u.STATUS &&& USART_DREIF_bm = 0 then usart_wait fuel (usartTick u) else some u

/-- The loop `for (size_t i = 0; i < strlen(msg_string); i++)` that transmits
a string byte by byte, from index `i` on. The first argument bounds the polls
of each wait, the second the number of iterations. -/
def uart_send_loop (w : SerialLine) (pollFuel : Nat) : Nat → Nat → List Nat → Usart → Option Usart
  | 0, _, _, _ => none
  | loopFuel + 1, i, msg_string, u =>
    if i < strlen msg_string then
      match usart_wait pollFuel u with
      | none => none
      | some u => uart_send_loop w pollFuel loopFuel (i + 1) msg_string
          (writeTXDATAL w (msg_string.getD i 0) u)
    else some u

/-- The format string of `uart_send_reports`. -/
def uart_report_format : List Nat :=
  cstr "LDR Value: %u\r\nNTC Value: %u\r\nPOT Value: %u\r\n\n"

/-- One pass of the loop of `uart_send_reports`, given what the three calls of
`adc_read` returned. `msg_string` is the content of the 60-byte local array
before the pass, `beyond` the memory after it. -/
def uart_send_reports_iter (w : SerialLine) (fuel : Nat)
    (ldr_reading ntc_reading pot_reading : Nat) (msg_string beyond : List Nat) (u : Usart) :
    Option Usart :=
  let mem := sprintf (msg_string ++ beyond) uart_report_format
    [ldr_reading, ntc_reading, pot_reading]
  uart_send_loop w fuel fuel 0 mem u

/-- Whether every line feed (10) in the bytes is immediately preceded by a
carriage return (13); `prev` is the byte before the first one. -/
def lf_follows_cr_from (prev : Nat) : List Nat → Bool
  | [] => true
  | c :: cs => (c != 10 || prev == 13) && lf_follows_cr_from c cs

/-- Whether every line feed in the bytes is immediately preceded by a carriage
return. -/
def lf_follows_cr (bs : List Nat) : Bool := lf_follows_cr_from 0 bs

/-- The report of the serial reporter for three readings: three lines, each a
label, the decimal digits of the reading, carriage return and line feed; then
one more line feed. -/
def spec_report (ldr ntc pot : Nat) : List Nat :=
  cstr "LDR Value: " ++ spec_decimal ldr ++ [13, 10]
    ++ (cstr "NTC Value: " ++ spec_decimal ntc ++ [13, 10])
    ++ (cstr "POT Value: " ++ spec_decimal pot ++ [13, 10])
    ++ [10]

/-- A serial line used in examples: byte `k` keeps the data register full for
`k % 4` polls. -/
def demoLine : SerialLine := { latency := fun k => k % 4 }

/-! ## Seven-segment glyph tables of the precursor exercises -/

/-- The array `led_configurations` of `W02E01_FakeBomb.X/main.c`. -/
def W02_led_configurations : List Nat :=
  [0b00111111, 0b00000110, 0b01011011, 0b01001111, 0b01100110,
   0b01101101, 0b01111101, 0b00000111, 0b01111111, 0b01101111]

/-- The array `led_configurations` of `W03E01_FakeBombV2.X/main.c`. -/
def W03_led_configurations : List Nat :=
  [0b00111111, 0b00000110, 0b01011011, 0b01001111, 0b01100110,
   0b01101101, 0b01111101, 0b00000111, 0b01111111, 0b01101111]

/-- The array `led_configurations` of `W04E01_Dino_game_player.X/main.c`. -/
def W04_led_configurations : List Nat :=
  [0b00111111, 0b00000110, 0b01011011, 0b01001111, 0b01100110,
   0b01101101, 0b01111101, 0b00000111, 0b01111111, 0b01101111,
   0b01110111]

/-- The array `led_configurations` of `W06E01_Scoreboard.X/main.c`. -/
def W06_led_configurations : List Nat :=
  [0b00111111, 0b00000110, 0b01011011, 0b01001111, 0b01100110,
   0b01101101, 0b01111101, 0b00000111, 0b01111111, 0b01101111,
   0b01111001]

/-- The glyph mapping of the specification on its domain: the symbols
0..9 (numbered 0..9), A (numbered 10) and E (numbered 11), read from the
tables of the exercises; `none` outside the domain. -/
def spec_glyph (sym : Nat) : Option Nat :=
  if sym < 10 then W06_led_configurations.get? sym
  else if sym = 10 then W04_led_configurations.get? 10
  else if sym = 11 then W06_led_configurations.get? 10
  else none

/-- An array read `table[i]` with a signed index; outside the array the model
yields 0. -/
def glyphAt (table : List Nat) (i : Int) : Nat :=
  if 0 ≤ i then table.getD i.toNat 0 else 0

/-! ## `W06E01_Scoreboard.X/main.c`: the scoreboard -/

/-- Kernel call `xQueueSend(queue, &item, 10)` on a queue created with room
for 10 items: the item is appended, or dropped if the queue is still full when
the 10 ticks have passed. -/
def xQueueSend10 (queue : List Nat) (item : Nat) : List Nat :=
  if queue.length < 10 then queue ++ [item] else queue

/-- The two queues of the scoreboard, the segment port and the transmitter. -/
structure W06 where
  queue_A : List Nat
  queue_B : List Nat
  PORTC_OUT : Nat
  usart : Usart
  deriving DecidableEq, Repr

/-- The computation of `digit` in `usart_receive` from the byte read from
`USART0.RXDATAL`: the subtraction is narrowed to `uint8_t`. -/
def usart_receive_digit (rxdata : Nat) : Nat :=
  let digit := (rxdata + 256 - 48) % 256
  if digit > 9 then 10 else digit

/-- One pass of the loop of `usart_receive` for a received byte. -/
def usart_receive_iter (rxdata : Nat) (s : W06) : W06 :=
  let digit := usart_receive_digit rxdata
  let s := { s with queue_A := xQueueSend10 s.queue_A digit }
  { s with queue_B := xQueueSend10 s.queue_B digit }

/-- The message `usart_send` selects for a digit, as a C string with its
terminating zero. -/
def usart_send_msg_string (digit : Nat) : List Nat :=
  (if digit = 10 then cstr "Error! Not a valid digit.\r\n" else cstr "Number received!\r\n")
    ++ [0]

/-- One pass of the loop of `usart_send`. -/
def usart_send_iter (w : SerialLine) (fuel : Nat) (s : W06) : Option W06 :=
  match s.queue_A with
  | [] => some s
  | digit :: queue =>
    let s := { s with queue_A := queue }
    match uart_send_loop w fuel fuel 0 (usart_send_msg_string digit) s.usart with
    | none => none
    | some u => some { s with usart := u }

/-- One pass of the loop of `display_score`. -/
def display_score_iter (s : W06) : W06 :=
  match s.queue_B with
  | [] => s
  | digit :: queue =>
    { s with queue_B := queue, PORTC_OUT := glyphAt W06_led_configurations digit }

/-- State of the scoreboard when the scheduler starts: both queues empty, the
segment port at its reset value, the transmitter idle. -/
def W06.init : W06 :=
  { queue_A := [], queue_B := [], PORTC_OUT := 0,
    usart := { dreif := true, tx_wait := 0, written := 0, wire := [] } }

/-- Steps of the scoreboard, in the order the scheduler lets the three tasks
run: a pass of `usart_receive` for a received byte, a pass of `usart_send`, a
pass of `display_score`. The two queue sends of `usart_receive` are one step:
`display_score` touches neither `queue_A` nor the transmitter and `usart_send`
touches neither `queue_B` nor the segment port, so a pass of one of them that
runs between the two sends has the effect of the same pass before the first
send (`display_score`) or after the second (`usart_send`). A send that blocks
takes its place in the order where it succeeds or times out. -/
inductive W06Step where
  | receive (rxdata : Nat)
  | send
  | display
  deriving DecidableEq, Repr

/-- Effect of one step of the scoreboard. -/
def w06_step (w : SerialLine) (fuel : Nat) : W06Step → W06 → Option W06
  | W06Step.receive rxdata, s => some (usart_receive_iter rxdata s)
  | W06Step.send, s => usart_send_iter w fuel s
  | W06Step.display, s => some (display_score_iter s)

/-- Effect of a sequence of steps of the scoreboard. -/
def w06_run (w : SerialLine) (fuel : Nat) : List W06Step → W06 → Option W06
  | [], s => some s
  | e :: es, s =>
    match w06_step w fuel e s with
    | none => none
    | some s => w06_run w fuel es s

/-! ## `W02E01_FakeBomb.X/main.c` and `W03E01_FakeBombV2.X/main.c`: the countdowns

The main loop advances in steps between which an interrupt routine can run:
the test of the running flag (in W03 the read of `g_running` and the read of
`g_clockticks` are separate steps), and the rest of the pass. An interrupt
routine that runs inside the rest of the pass only writes `g_running` or
`g_clockticks`, which that part does not read: its effect is that of the same
routine right after it. -/

/-- Narrowing of an integer to the 16-bit `int` of the AVR. -/
def wrap_int16 (x : Int) : Int := (x + 32768) % 65536 - 32768

/-- Position of the main loop of W02: at the head of the loop, or past the
test `if (g_running)` with its outcome. -/
inductive W02Pc where
  | head
  | decided (taken : Bool)
  deriving DecidableEq, Repr

/-- Variables and port of the W02 countdown, with the position of the main
loop, the time spent in `_delay_ms`, the log of writes to `PORTC.OUT` (time in
ms, value) and the log of indices used on `led_configurations`. -/
structure W02 where
  g_running : Int
  number : Int
  PORTC_OUT : Nat
  elapsed_ms : Nat
  shown : List (Nat × Nat)
  indexed : List Int
  pc : W02Pc
  deriving DecidableEq, Repr

/-- State of W02 when `main` reaches its loop: `g_running = 1`, `number = 10`. -/
def W02.init : W02 :=
  { g_running := 1, number := 10, PORTC_OUT := 0, elapsed_ms := 0, shown := [], indexed := [],
    pc := W02Pc.head }

/-- Embedding of `ISR(PORTA_PORT_vect)` of W02. -/
def w02_port_isr (s : W02) : W02 := { s with g_running := 0 }

/-- The body of `if (g_running) { ... }` in the loop of `main` of W02:
decrement, display, then wait one second or clear the flag. -/
def w02_decrement (s : W02) : W02 :=
  let number := wrap_int16 (s.number - 1)
  let v := glyphAt W02_led_configurations number
  let s := { s with number := number, PORTC_OUT := v,
                    shown := s.shown ++ [(s.elapsed_ms, v)],
                    indexed := s.indexed ++ [number] }
  if number > 0 then { s with elapsed_ms := s.elapsed_ms + 1000 }
  else { s with g_running := 0 }

/-- The statement `if (number == 0) { ... }` of the loop of `main` of W02. -/
def w02_blink (s : W02) : W02 :=
  if s.number = 0 then
    let s := { s with elapsed_ms := s.elapsed_ms + 333 }
    let v := s.PORTC_OUT ^^^ glyphAt W02_led_configurations 0
    { s with PORTC_OUT := v, shown := s.shown ++ [(s.elapsed_ms, v)],
             indexed := s.indexed ++ [0] }
  else s

/-- The next step of the main loop of W02: at the head, the test
`if (g_running)`; past the test, the rest of the pass. -/
def w02_main (s : W02) : W02 :=
  match s.pc with
  | W02Pc.head => { s with pc := W02Pc.decided (decide (s.g_running ≠ 0)) }
  | W02Pc.decided taken =>
    { (w02_blink (if taken then w02_decrement s else s)) with pc := W02Pc.head }

/-- Steps of W02: the next step of the main loop, or the port-edge interrupt. -/
inductive W02Step where
  | main
  | wire
  deriving DecidableEq, Repr

/-- Effect of one step of W02. -/
def w02_step (e : W02Step) (s : W02) : W02 :=
  match e with
  | W02Step.main => w02_main s
  | W02Step.wire => w02_port_isr s

/-- Effect of a sequence of steps of W02. -/
def w02_run : List W02Step → W02 → W02
  | [], s => s
  | e :: es, s => w02_run es (w02_step e s)

/-- Position of the main loop of W03: at the head of the loop, past the read
of `g_running` (found set) and before the read of `g_clockticks`, or past the
whole test with its outcome. -/
inductive W03Pc where
  | head
  | flag_seen
  | decided (taken : Bool)
  deriving DecidableEq, Repr

/-- Variables and ports of the W03 countdown, with the position of the main
loop, the number of periodic interrupts so far, the log of writes to
`PORTC.OUT` (interrupt count, value) and the log of indices used on
`led_configurations`. -/
structure W03 where
  g_running : Nat
  g_clockticks : Nat
  number : Nat
  PORTC_OUT : Nat
  PORTF_OUT : Nat
  ticks : Nat
  shown : List (Nat × Nat)
  indexed : List Nat
  pc : W03Pc
  deriving DecidableEq, Repr

/-- State of W03 when `main` reaches its loop: `g_running = 1`,
`g_clockticks = 0`, `number = 10`, PF5 high. -/
def W03.init : W03 :=
  { g_running := 1, g_clockticks := 0, number := 10, PORTC_OUT := 0, PORTF_OUT := PIN5_bm,
    ticks := 0, shown := [], indexed := [], pc := W03Pc.head }

/-- Embedding of `ISR(RTC_PIT_vect)` of W03 (every 125 ms). -/
def w03_pit_isr (s : W03) : W03 :=
  { s with g_clockticks := ((s.g_clockticks + 1) % 256) % 8, ticks := s.ticks + 1 }

/-- Embedding of `ISR(PORTA_PORT_vect)` of W03. -/
def w03_port_isr (s : W03) : W03 := { s with g_running := 0 }

/-- The body of `if (g_running && (g_clockticks == 0)) { ... }` in the loop of
`main` of W03: decrement, display, clear the flag at zero. -/
def w03_decrement (s : W03) : W03 :=
  let number := (s.number + 255) % 256
  let v := glyphAt W03_led_configurations number
  let s := { s with number := number, PORTC_OUT := v,
                    shown := s.shown ++ [(s.ticks, v)],
                    indexed := s.indexed ++ [number] }
  if number = 0 then { s with g_running := 0 } else s

/-- The statement `if (number == 0) { PORTF.OUTTGL = PIN5_bm; }` of the loop of
`main` of W03. -/
def w03_blink (s : W03) : W03 :=
  if s.number = 0 then { s with PORTF_OUT := s.PORTF_OUT ^^^ PIN5_bm } else s

/-- The next step of the main loop of W03: at the head, the read of
`g_running` (the `&&` skips the second read when it is 0); then the read of
`g_clockticks`; past the test, the rest of the pass up to `sleep_mode()`.
Sleeping only delays the next step. -/
def w03_main (s : W03) : W03 :=
  match s.pc with
  | W03Pc.head =>
    if s.g_running ≠ 0 then { s with pc := W03Pc.flag_seen }
    else { s with pc := W03Pc.decided false }
  | W03Pc.flag_seen => { s with pc := W03Pc.decided (decide (s.g_clockticks = 0)) }
  | W03Pc.decided taken =>
    { (w03_blink (if taken then w03_decrement s else s)) with pc := W03Pc.head }

/-- Steps of W03: the next step of the main loop, the periodic interrupt or
the port-edge interrupt. -/
inductive W03Step where
  | main
  | pit
  | wire
  deriving DecidableEq, Repr

/-- Effect of one step of W03. -/
def w03_step (e : W03Step) (s : W03) : W03 :=
  match e with
  | W03Step.main => w03_main s
  | W03Step.pit => w03_pit_isr s
  | W03Step.wire => w03_port_isr s

/-- Effect of a sequence of steps of W03. -/
def w03_run : List W03Step → W03 → W03
  | [], s => s
  | e :: es, s => w03_run es (w03_step e s)

/-- The steps of W03 with no wire cut up to the pass after the `n`-th periodic
interrupt: the pass at power-up (three steps of the main loop), then each
interrupt wakes the processor for one pass. -/
def w03_uncut : Nat → List W03Step
  | 0 => [W03Step.main, W03Step.main, W03Step.main]
  | n + 1 => w03_uncut n ++ [W03Step.pit, W03Step.main, W03Step.main, W03Step.main]

/-- The time (or interrupt count) at which a value is first written to the
segment port, from a log of writes. -/
def first_shown (v : Nat) : List (Nat × Nat) → Option Nat
  | [] => none
  | (t, x) :: log => if x = v then some t else first_shown v log

/-! ## `adc.c`: tasks calling `adc_read` concurrently -/

/-- Position of a task inside one call of `adc_read`: before the mutex take,
before the switch, at the start, the wait loop and the result read of each of
the two conversions, before the mutex give, and after the return. -/
inductive AdcPc where
  | take
  | select
  | start1
  | wait1
  | read1
  | start2
  | wait2
  | read2
  | give
  | returned
  deriving DecidableEq, Repr

/-- A task calling `adc_read(input)`: its position and its local
`final_result`. -/
structure AdcCaller where
  input : Nat
  pc : AdcPc
  final_result : Nat
  deriving DecidableEq, Repr

/-- The ADC, the task holding the mutex (if any) and the calling tasks. -/
structure AdcShared where
  hw : AdcSys
  holder : Option Nat
  callers : Nat → AdcCaller

/-- Whether a position lies between the mutex take and the mutex give. -/
def AdcPc.holding (pc : AdcPc) : Bool :=
  match pc with
  | AdcPc.take => false
  | AdcPc.returned => false
  | _ => true

/-- One evaluation of the loop condition of `adc_converse` by a task, with the
converter's progress if the result is not ready. Yields the hardware and
whether the loop is left. -/
def adc_poll (hw : AdcSys) : AdcSys × Bool :=
  let flags := hw.INTFLAGS
  let hw := hw.log (Op.rdINTFLAGS flags)
  if flags &&& ADC_RESRDY_bm = 0 then (hwTick hw, false) else (hw, true)

/-- One step of task `tid` inside `adc_read`. A task waiting for a mutex that
another task holds does not advance. -/
def adc_caller_step (w : Analog) (tid : Nat) (st : AdcShared) : AdcShared :=
  let c := st.callers tid
  match c.pc with
  | AdcPc.take =>
    match st.holder with
    | some _ => st
    | none =>
      { hw := st.hw.log Op.semTake, holder := some tid,
        callers := Function.update st.callers tid { c with pc := AdcPc.select } }
  | AdcPc.select =>
    { st with hw := adc_select c.input st.hw,
              callers := Function.update st.callers tid { c with pc := AdcPc.start1 } }
  | AdcPc.start1 =>
    { st with hw := writeCOMMAND w ADC_STCONV_bm st.hw,
              callers := Function.update st.callers tid { c with pc := AdcPc.wait1 } }
  | AdcPc.wait1 =>
    { st with hw := (adc_poll st.hw).1,
              callers := Function.update st.callers tid
                { c with pc := if (adc_poll st.hw).2 then AdcPc.read1 else AdcPc.wait1 } }
  | AdcPc.read1 =>
    { st with hw := (readRES st.hw).2,
              callers := Function.update st.callers tid { c with pc := AdcPc.start2 } }
  | AdcPc.start2 =>
    { st with hw := writeCOMMAND w ADC_STCONV_bm st.hw,
              callers := Function.update st.callers tid { c with pc := AdcPc.wait2 } }
  | AdcPc.wait2 =>
    { st with hw := (adc_poll st.hw).1,
              callers := Function.update st.callers tid
                { c with pc := if (adc_poll st.hw).2 then AdcPc.read2 else AdcPc.wait2 } }
  | AdcPc.read2 =>
    { st with hw := (readRES st.hw).2,
              callers := Function.update st.callers tid
                { c with pc := AdcPc.give, final_result := (readRES st.hw).1 } }
  | AdcPc.give =>
    { hw := st.hw.log Op.semGive, holder := none,
      callers := Function.update st.callers tid { c with pc := AdcPc.returned } }
  | AdcPc.returned => st

/-- Effect of a schedule: the list names the task that runs each step. -/
def adc_schedule (w : Analog) : List Nat → AdcShared → AdcShared
  | [], st => st
  | tid :: sched, st => adc_schedule w sched (adc_caller_step w tid st)

/-- Tasks about to call `adc_read`, each with its channel, on given hardware
and a free mutex. -/
def AdcShared.start (hw : AdcSys) (inputs : Nat → Nat) : AdcShared :=
  { hw := hw, holder := none,
    callers := fun tid => { input := inputs tid, pc := AdcPc.take, final_result := 0 } }

/-- An analog world whose samples show the settings they were taken with:
64 times the multiplexer code plus the reference field of `CTRLC`. -/
def probeAnalog : Analog :=
  { latency := fun _ => 0, sample := fun _ mux ctrlc => mux * 64 + (ctrlc &&& ADC_REFSEL_gm) }

/-- A schedule that alternates between task 0 and task 1 for `n` rounds. -/
def alternate : Nat → List Nat
  | 0 => []
  | n + 1 => 0 :: 1 :: alternate n

/-! ## `W04E01_Dino_game_player.X/main.c`: the threshold display -/

/-- Embedding of `adc0_read` of W04: start a conversion, wait for the result
flag, read the result (the body of `adc_converse` of W07). -/
def adc0_read (w : Analog) (fuel : Nat) (s : AdcSys) : Option (Nat × AdcSys) :=
  let s := writeCOMMAND w ADC_STCONV_bm s
  match adc_wait fuel s with
  | none => none
  | some s => some (readRES s)

/-- The two register assignments at the head of `trimpot_read` of W04:
`ADC0.MUXPOS = ADC_MUXPOS_AIN14_gc; ADC0.CTRLC = ADC_REFSEL_VDDREF_gc;`. -/
def trimpot_select (s : AdcSys) : AdcSys :=
  let s := { (s.log (Op.wrMUXPOS ADC_MUXPOS_AIN14_gc)) with ADC0_MUXPOS := ADC_MUXPOS_AIN14_gc }
  { (s.log (Op.wrCTRLC ADC_REFSEL_VDDREF_gc)) with ADC0_CTRLC := ADC_REFSEL_VDDREF_gc }

/-- Embedding of `trimpot_read` of W04: both registers are assigned, the first
conversion is discarded, the second is returned. -/
def trimpot_read (w : Analog) (fuel : Nat) (s : AdcSys) : Option (Nat × AdcSys) :=
  match adc0_read w fuel (trimpot_select s) with
  | none => none
  | some (_, s) => adc0_read w fuel s

/-- The converter, the local `threshold_value`, the segment port of W04 and
the log of indices used on `led_configurations`. -/
structure W04 where
  adc : AdcSys
  threshold_value : Nat
  PORTC_OUT : Nat
  indexed : List Nat
  deriving DecidableEq, Repr

/-- The statements `threshold_value = ...;` and
`PORTC.OUT = led_configurations[threshold_value / 100];` of the loop of `main`
of W04, given what `trimpot_read` returned (a `uint16_t`). -/
def w04_display (reading : Nat) (s : W04) : W04 :=
  let threshold_value := reading % 65536
  let index := threshold_value / 100
  { s with threshold_value := threshold_value,
           PORTC_OUT := glyphAt W04_led_configurations index,
           indexed := s.indexed ++ [index] }

/-- The head of the loop of `main` of W04: read the potentiometer and show its
hundreds. -/
def w04_loop_head (w : Analog) (fuel : Nat) (s : W04) : Option W04 :=
  match trimpot_read w fuel s.adc with
  | none => none
  | some (reading, adc) => some (w04_display reading { s with adc := adc })

/-! ## Lemmas on the ADC driver -/

theorem intflagsOf_false_and (wc : Bool) : intflagsOf false wc &&& ADC_RESRDY_bm = 0 := by
  cases wc <;> decide

theorem intflagsOf_true_and (wc : Bool) : intflagsOf true wc &&& ADC_RESRDY_bm ≠ 0 := by
  cases wc <;> decide

theorem adc_wait_done (n : Nat) : ∀ (fuel : Nat) (s : AdcSys), s.busy = some n → s.resrdy = false →
    n + 2 ≤ fuel →
    adc_wait fuel s = some { s with
      busy := none, ADC0_RES := s.pending, resrdy := true,
      trace := s.trace ++ List.replicate (n + 1) (Op.rdINTFLAGS (intflagsOf false s.wcmp))
        ++ [Op.rdINTFLAGS (intflagsOf true s.wcmp)] } := by
  induction n with
  | zero =>
    intro fuel s hb hr hf
    obtain ⟨f, rfl⟩ : ∃ f, fuel = f + 2 := ⟨fuel - 2, by omega⟩
    simp [adc_wait, AdcSys.INTFLAGS, AdcSys.log, hwTick, hb, hr, intflagsOf_false_and,
      intflagsOf_true_and]
  | succ n ih =>
    intro fuel s hb hr hf
    obtain ⟨f, rfl⟩ : ∃ f, fuel = f + 1 := ⟨fuel - 1, by omega⟩
    rw [adc_wait]
    simp only [AdcSys.INTFLAGS, hr, intflagsOf_false_and, if_true]
    rw [ih f _ (by simp [hwTick, AdcSys.log, hb]) (by simp [hwTick, AdcSys.log, hb, hr]) (by omega)]
    simp [hwTick, AdcSys.log, hb, List.replicate_succ]

theorem adc_converse_done (w : Analog) (fuel : Nat) (s : AdcSys) (hb : s.busy = none)
    (hr : s.resrdy = false) (hf : w.latency s.started + 2 ≤ fuel) :
    adc_converse w fuel s =
      some (w.sample s.started s.ADC0_MUXPOS s.ADC0_CTRLC % 1024,
        { s with
          ADC0_RES := w.sample s.started s.ADC0_MUXPOS s.ADC0_CTRLC % 1024,
          resrdy := false, busy := none,
          pending := w.sample s.started s.ADC0_MUXPOS s.ADC0_CTRLC % 1024,
          started := s.started + 1,
          trace := s.trace ++ spec_conversion_ops (w.latency s.started) s.wcmp
            (w.sample s.started s.ADC0_MUXPOS s.ADC0_CTRLC % 1024) }) := by
  unfold adc_converse
  have hw : adc_wait fuel (writeCOMMAND w ADC_STCONV_bm s) = _ :=
    adc_wait_done (w.latency s.started) fuel (writeCOMMAND w ADC_STCONV_bm s)
      (by simp [writeCOMMAND, AdcSys.log, hb, ADC_STCONV_bm])
      (by simp [writeCOMMAND, AdcSys.log, hb, hr, ADC_STCONV_bm]) hf
  simp only [hw]
  simp [readRES, writeCOMMAND, AdcSys.log, hb, ADC_STCONV_bm, spec_conversion_ops]

/-- The `LDR` case of the switch leaves `ADC0.CTRLC` as it was: or-ing the
register with `ADC_REFSEL_INTREF_gc = 0` clears no bit of the reference field. -/
theorem adc_select_LDR_CTRLC (s : AdcSys) :
    (adc_select LDR s).ADC0_CTRLC = s.ADC0_CTRLC % 256 := by
  simp [adc_select, AdcSys.log, ADC_REFSEL_INTREF_gc]

theorem adc_select_channel (input : Nat) (s : AdcSys)
    (hin : input = LDR ∨ input = NTC ∨ input = POT) :
    adc_select input s = { s with
      ADC0_MUXPOS := spec_mux input, ADC0_CTRLC := spec_ctrlc input s,
      trace := s.trace ++ [Op.wrMUXPOS (spec_mux input), Op.wrCTRLC (spec_ctrlc input s)] } := by
  rcases hin with h | h | h <;> subst h <;>
    simp [adc_select, AdcSys.log, spec_mux, spec_ctrlc, spec_ref, LDR, NTC, POT]

/-! ## Theorems on the ADC driver -/

/-- C1: evaluation of the code at the failing input. From the state `adc_init`
leaves after reset, `adc_read(POT)` followed by `adc_read(LDR)` both return;
when the second call has started its conversions the multiplexer holds AIN8,
but the reference field of `ADC0.CTRLC` still holds `ADC_REFSEL_VDDREF_gc`
(0x10), not the internal reference (0x00) the claim requires for LDR. -/
theorem adc_read_LDR_after_POT_reference :
    ∃ r1 r2, adc_read demoAnalog 8 POT (adc_init AdcSys.reset) = some r1 ∧
      adc_read demoAnalog 8 LDR r1.2 = some r2 ∧
      r1.2.refsel = ADC_REFSEL_VDDREF_gc ∧
      r2.2.ADC0_MUXPOS = ADC_MUXPOS_AIN8_gc ∧
      Op.wrCTRLC 0x13 ∈ r2.2.trace.drop r1.2.trace.length ∧
      r2.2.refsel = ADC_REFSEL_VDDREF_gc ∧
      r2.2.refsel ≠ ADC_REFSEL_INTREF_gc := by
  refine ⟨_, _, rfl, rfl, ?_, ?_, ?_, ?_, ?_⟩ <;> decide

/-- C2: one call of `adc_read` for a channel, entered with the converter idle
and given enough polls, returns, and its operations are, in order: take the
mutex, write the multiplexer, write `CTRLC`, two conversions (start, polls,
result read), give the mutex. The value returned is the result read in the
second conversion; exactly two conversions are started. -/
theorem adc_read_operation_order (w : Analog) (fuel input : Nat) (s : AdcSys)
    (hin : input = LDR ∨ input = NTC ∨ input = POT)
    (hb : s.busy = none) (hr : s.resrdy = false)
    (hf1 : w.latency s.started + 2 ≤ fuel) (hf2 : w.latency (s.started + 1) + 2 ≤ fuel) :
    ∃ s', adc_read w fuel input s =
        some (w.sample (s.started + 1) (spec_mux input) (spec_ctrlc input s) % 1024, s') ∧
      s'.trace = s.trace ++ [Op.semTake, Op.wrMUXPOS (spec_mux input),
          Op.wrCTRLC (spec_ctrlc input s)]
        ++ spec_conversion_ops (w.latency s.started) s.wcmp
            (w.sample s.started (spec_mux input) (spec_ctrlc input s) % 1024)
        ++ spec_conversion_ops (w.latency (s.started + 1)) s.wcmp
            (w.sample (s.started + 1) (spec_mux input) (spec_ctrlc input s) % 1024)
        ++ [Op.semGive] ∧
      s'.started = s.started + 2 ∧ s'.busy = none ∧ s'.resrdy = false := by
  have h1 := adc_converse_done w fuel (adc_select input (s.log Op.semTake))
    (by rw [adc_select_channel input _ hin]; simp [AdcSys.log, hb])
    (by rw [adc_select_channel input _ hin]; simp [AdcSys.log, hr])
    (by rw [adc_select_channel input _ hin]; simpa [AdcSys.log] using hf1)
  rw [adc_select_channel input _ hin] at h1
  simp only [adc_read, adc_select_channel input _ hin, h1]
  rw [adc_converse_done w fuel _ (by simp) (by simp) (by simpa [AdcSys.log] using hf2)]
  simp [AdcSys.log, spec_ctrlc]

/-- Witness of C2: `adc_read(POT)` on the state `adc_init` leaves after reset. -/
theorem adc_read_operation_order_witness :
    (POT = LDR ∨ POT = NTC ∨ POT = POT) ∧
      (adc_init AdcSys.reset).busy = none ∧ (adc_init AdcSys.reset).resrdy = false ∧
      demoAnalog.latency (adc_init AdcSys.reset).started + 2 ≤ 8 ∧
      demoAnalog.latency ((adc_init AdcSys.reset).started + 1) + 2 ≤ 8 ∧
      ∃ s', adc_read demoAnalog 8 POT (adc_init AdcSys.reset) = some (114, s') ∧
        s'.trace = [Op.semTake, Op.wrMUXPOS 0x0E, Op.wrCTRLC 0x13,
          Op.wrCOMMAND 1, Op.rdINTFLAGS 0, Op.rdINTFLAGS 1, Op.rdRES 14,
          Op.wrCOMMAND 1, Op.rdINTFLAGS 0, Op.rdINTFLAGS 0, Op.rdINTFLAGS 1, Op.rdRES 114,
          Op.semGive] ∧
        s'.started = 2 ∧ s'.busy = none ∧ s'.resrdy = false :=
  ⟨by decide, by decide, by decide, by decide, by decide,
    adc_read_operation_order demoAnalog 8 POT (adc_init AdcSys.reset)
      (by decide) (by decide) (by decide) (by decide) (by decide)⟩

/-! ## Lemmas and theorems on the LCD driver -/

theorem byte_mod (x : Nat) : x % 256 = x &&& 255 := (Nat.and_pow_two_sub_one_eq_mod x 8).symm

theorem rs_low_after_clear (out : Nat) :
    ((((out &&& (0xFF - LCD_RS_PIN)) ||| LCD_E_PIN) % 256) &&& LCD_RS_PIN != 0) = false := by
  have h : (((out &&& 239) ||| 8) % 256) &&& 16 = 0 := by
    rw [byte_mod, Nat.and_assoc, Nat.and_distrib_right, Nat.and_assoc]
    simp [(by decide : (255 &&& 16 : Nat) = 16), (by decide : (239 &&& 16 : Nat) = 0),
      (by decide : (8 &&& 16 : Nat) = 0)]
  simp [LCD_RS_PIN, LCD_E_PIN, PIN3_bm, PIN4_bm, h]

theorem rs_high_after_set (out : Nat) :
    ((((out ||| LCD_RS_PIN) % 256 ||| LCD_E_PIN) % 256) &&& LCD_RS_PIN != 0) = true := by
  have h : (((out ||| 16) % 256 ||| 8) % 256) &&& 16 = 16 := by
    rw [byte_mod, byte_mod, Nat.and_assoc, Nat.and_distrib_right, Nat.and_assoc,
      Nat.and_distrib_right]
    simp only [(by decide : (255 &&& 16 : Nat) = 16), (by decide : (16 &&& 16 : Nat) = 16),
      (by decide : (8 &&& 16 : Nat) = 0)]
    apply Nat.eq_of_testBit_eq
    intro i
    simp
  simp [LCD_RS_PIN, LCD_E_PIN, PIN3_bm, PIN4_bm, h]

theorem LCD_CMD_SEND_bus (byte : Nat) (s : Lcd) :
    (LCD_CMD_SEND byte s).bus = s.bus ++ [BusWrite.mk false (byte % 256)] := by
  simp [LCD_CMD_SEND, LCD_ENABLE_PULSE, rs_low_after_clear]

theorem LCD_DATA_SEND_bus (byte : Nat) (s : Lcd) :
    (LCD_DATA_SEND byte s).bus = s.bus ++ [BusWrite.mk true (byte % 256)] := by
  simp [LCD_DATA_SEND, LCD_ENABLE_PULSE, rs_high_after_set]

theorem lcd_cursor_set_bus (x y : Nat) (s : Lcd) :
    (lcd_cursor_set x y s).bus = s.bus ++
      [BusWrite.mk false ((0x80 ||| ((x &&& 0x01) <<< 6) ||| (if y > 0x0F then 0x0F else y)) % 256)] := by
  rw [lcd_cursor_set, LCD_CMD_SEND_bus]

/-- C5: for all `x` and `y` (in particular all 8-bit ones), `lcd_cursor_set(x, y)` makes the display latch
exactly one byte, as an instruction (RS = 0), equal to
`0x80 | ((x & 1) << 6) | min(y, 15)`; bits 4 and 5 of that byte are clear, and
for `y = 0xFF` the byte is `0x80 | ((x & 1) << 6) | 15`, column 15. -/
theorem lcd_cursor_set_command (x y : Nat) (s : Lcd) :
    (lcd_cursor_set x y s).bus
        = s.bus ++ [BusWrite.mk false (0x80 ||| ((x &&& 1) <<< 6) ||| min y 15)] ∧
      (0x80 ||| ((x &&& 1) <<< 6) ||| min y 15) &&& 0x30 = 0 ∧
      (lcd_cursor_set x 0xFF s).bus
        = s.bus ++ [BusWrite.mk false (0x80 ||| ((x &&& 1) <<< 6) ||| 15)] := by
  have hyc : (if y > 0x0F then 0x0F else y) = min y 15 := by
    split <;> omega
  have hm : min y 15 ≤ 15 := Nat.min_le_right y 15
  have hx1 : x &&& 1 = 0 ∨ x &&& 1 = 1 := by
    rw [Nat.and_one_is_mod]; omega
  refine ⟨?_, ?_, ?_⟩
  · rw [lcd_cursor_set_bus, hyc]
    generalize min y 15 = c at hm
    rcases hx1 with h | h <;> rw [h] <;> interval_cases c <;> rfl
  · generalize min y 15 = c at hm
    rcases hx1 with h | h <;> rw [h] <;> interval_cases c <;> rfl
  · rw [lcd_cursor_set_bus]
    rcases hx1 with h | h <;> rw [h] <;> rfl

/-- Line 1 with column argument `0xFF`: the display latches the instruction `0xCF`. -/
theorem lcd_cursor_set_line1_col255 :
    (lcd_cursor_set 1 0xFF ⟨0, 0, []⟩).bus = [BusWrite.mk false 0xCF] := by decide

/-! ## `lcd.c`: the marshaller -/

theorem strlen_append_zero (t rest : List Nat) (hnz : ∀ c ∈ t, c ≠ 0) :
    strlen (t ++ 0 :: rest) = t.length := by
  induction t with
  | nil => simp [strlen]
  | cons c t ih =>
    have hc : c ≠ 0 := hnz c (by simp)
    have ht : ∀ d ∈ t, d ≠ 0 := fun d hd => hnz d (by simp [hd])
    simp [strlen, hc, ih ht]

theorem storeBytes_at (pre src dst : List Nat) (h : src.length ≤ dst.length) :
    storeBytes (pre ++ dst) pre.length src = pre ++ src ++ dst.drop src.length := by
  induction src generalizing pre dst with
  | nil => simp [storeBytes]
  | cons b bs ih =>
    cases dst with
    | nil => simp at h
    | cons d ds =>
      have hlen : bs.length ≤ ds.length := by simpa using h
      have hset : (pre ++ d :: ds).set pre.length b = (pre ++ [b]) ++ ds := by
        simp [List.set_append]
      rw [storeBytes, hset]
      have := ih (pre ++ [b]) ds hlen
      simp only [List.length_append, List.length_singleton] at this
      rw [this]
      simp

theorem strncat_space (t rest : List Nat) (r : Nat) (hnz : ∀ c ∈ t, c ≠ 0) :
    strncat (t ++ 0 :: r :: rest) space 1 = (t ++ [32]) ++ 0 :: rest := by
  unfold strncat
  rw [strlen_append_zero t _ hnz]
  have := storeBytes_at t [32, 0] (0 :: r :: rest) (by simp)
  simpa [space] using this

theorem lcd_pad_terminated (rest : List Nat) : ∀ (t beyond : List Nat) (fuel : Nat),
    (∀ c ∈ t, c ≠ 0) → t.length + rest.length = 16 → rest.length < fuel →
    lcd_pad fuel (t ++ 0 :: (rest ++ beyond))
      = some (t ++ List.replicate rest.length 32 ++ 0 :: beyond) := by
  induction rest with
  | nil =>
    intro t beyond fuel hnz hlen hfuel
    obtain ⟨f, rfl⟩ : ∃ f, fuel = f + 1 := ⟨fuel - 1, by simp at hfuel; omega⟩
    have h16 : t.length = 16 := by simpa using hlen
    simp [lcd_pad, strlen_append_zero t _ hnz, h16]
  | cons r rest ih =>
    intro t beyond fuel hnz hlen hfuel
    obtain ⟨f, rfl⟩ : ∃ f, fuel = f + 1 := ⟨fuel - 1, by simp at hfuel; omega⟩
    have hlt : t.length < 16 := by simp at hlen; omega
    have hnz2 : ∀ c ∈ t ++ [32], c ≠ 0 := by
      intro c hc
      rcases List.mem_append.1 hc with h | h
      · exact hnz c h
      · simp at h; omega
    rw [lcd_pad]
    simp only [strlen_append_zero t _ hnz, hlt, if_true, List.cons_append]
    rw [strncat_space t (rest ++ beyond) r hnz,
      ih (t ++ [32]) beyond f hnz2 (by simp at hlen ⊢; omega) (by simp at hfuel; omega)]
    simp [List.replicate_succ]

theorem lcd_write_terminated (t : List Nat) : ∀ (rest : List Nat) (s : Lcd),
    (∀ c ∈ t, c ≠ 0) →
    (lcd_write (t ++ 0 :: rest) s).bus = s.bus ++ t.map (fun c => BusWrite.mk true (c % 256)) := by
  induction t with
  | nil => intro rest s _; simp [lcd_write]
  | cons c t ih =>
    intro rest s hnz
    have hc : c ≠ 0 := hnz c (by simp)
    have ht : ∀ d ∈ t, d ≠ 0 := fun d hd => hnz d (by simp [hd])
    simp [lcd_write, hc, ih rest _ ht, LCD_DATA_SEND_bus]

/-- A message whose text is terminated within its 17 bytes makes one pass of
`lcd_control` return and send exactly 16 data bytes: the text, then spaces. -/
theorem lcd_control_iter_terminated (t rest beyond : List Nat) (line fuel : Nat) (s : Lcd)
    (hnz : ∀ c ∈ t, c ≠ 0) (hlen : t.length + 1 + rest.length = 17) (hfuel : 17 ≤ fuel) :
    ∃ s', lcd_control_iter fuel ⟨line, t ++ 0 :: rest⟩ beyond s = some s' ∧
      s'.bus = (lcd_cursor_set line 0 s).bus
        ++ (t ++ List.replicate (16 - t.length) 32).map (fun c => BusWrite.mk true (c % 256)) ∧
      dataCount s'.bus = dataCount s.bus + 16 := by
  have hpad := lcd_pad_terminated rest t beyond fuel hnz (by omega) (by omega)
  have hr : rest.length = 16 - t.length := by omega
  have hnz2 : ∀ c ∈ t ++ List.replicate rest.length 32, c ≠ 0 := by
    intro c hc
    rcases List.mem_append.1 hc with h | h
    · exact hnz c h
    · have := List.eq_of_mem_replicate h; omega
  refine ⟨lcd_write (t ++ List.replicate rest.length 32 ++ 0 :: beyond)
    (lcd_cursor_set line 0 s), ?_, ?_, ?_⟩
  · simp only [lcd_control_iter, List.append_assoc, List.cons_append]
    rw [hpad]
    simp
  · rw [lcd_write_terminated _ beyond _ hnz2, hr]
  · rw [lcd_write_terminated _ beyond _ hnz2, lcd_cursor_set_bus]
    simp [dataCount, List.filter_append, List.filter_map, Function.comp_def]
    omega

/-- C4: for a text `t` of `n <= 16` non-zero bytes followed by its terminator
inside the 17-byte field, the padding loop of `lcd_control` returns (17 units
of fuel suffice) and leaves `t`, then `16 - n` spaces, then the terminator at
offset 16; the result has string length 16, a text of length 16 is left as it
was, and the memory after the field is left as it was. -/
theorem lcd_pad_spec (t rest beyond : List Nat) (fuel : Nat)
    (hnz : ∀ c ∈ t, c ≠ 0) (hlen : t.length + 1 + rest.length = 17) (hfuel : 17 ≤ fuel) :
    lcd_pad fuel ((t ++ 0 :: rest) ++ beyond)
        = some ((t ++ List.replicate (16 - t.length) 32 ++ [0]) ++ beyond) ∧
      (t ++ List.replicate (16 - t.length) 32 ++ [0]).length = 17 ∧
      strlen ((t ++ List.replicate (16 - t.length) 32 ++ [0]) ++ beyond) = 16 ∧
      (t.length = 16 → t ++ List.replicate (16 - t.length) 32 ++ [0] = t ++ 0 :: rest) := by
  have hpad := lcd_pad_terminated rest t beyond fuel hnz (by omega) (by omega)
  have hr : rest.length = 16 - t.length := by omega
  have hnz2 : ∀ c ∈ t ++ List.replicate (16 - t.length) 32, c ≠ 0 := by
    intro c hc
    rcases List.mem_append.1 hc with h | h
    · exact hnz c h
    · have := List.eq_of_mem_replicate h; omega
  refine ⟨?_, ?_, ?_, ?_⟩
  · rw [← hr]
    simpa using hpad
  · simp; omega
  · have := strlen_append_zero _ beyond hnz2
    simp only [List.append_assoc, List.singleton_append, List.length_append,
      List.length_replicate] at this ⊢
    rw [this]; omega
  · intro h16
    have hrest : rest = [] := List.eq_nil_of_length_eq_zero (by omega)
    simp [h16, hrest]

/-- Witness of C4: the text "AB" in a field whose other bytes hold leftovers. -/
theorem lcd_pad_spec_witness :
    (∀ c ∈ [65, 66], c ≠ 0) ∧
      [65, 66].length + 1 + [1, 2, 3, 4, 5, 6, 7, 8, 9, 10, 11, 12, 13, 14].length = 17 ∧
      17 ≤ 17 ∧
      lcd_pad 17 (([65, 66] ++ 0 :: [1, 2, 3, 4, 5, 6, 7, 8, 9, 10, 11, 12, 13, 14]) ++ [7, 7])
        = some (([65, 66] ++ List.replicate (16 - [65, 66].length) 32 ++ [0]) ++ [7, 7]) ∧
      ([65, 66] ++ List.replicate (16 - [65, 66].length) 32 ++ [0]).length = 17 ∧
      strlen (([65, 66] ++ List.replicate (16 - [65, 66].length) 32 ++ [0]) ++ [7, 7]) = 16 ∧
      ([65, 66].length = 16 → [65, 66] ++ List.replicate (16 - [65, 66].length) 32 ++ [0]
        = [65, 66] ++ 0 :: [1, 2, 3, 4, 5, 6, 7, 8, 9, 10, 11, 12, 13, 14]) :=
  ⟨by decide, by decide, by decide,
    lcd_pad_spec [65, 66] [1, 2, 3, 4, 5, 6, 7, 8, 9, 10, 11, 12, 13, 14] [7, 7] 17
      (by decide) (by decide) (by decide)⟩

/-- C3: evaluation of the code at the failing input. The scroller's first
message is built by a 16-byte `memcpy` into a `text` field that is never
initialised; where the stack held `0xA5`, byte 16 of the text is `0xA5`, not a
terminator. For that message (with a zero byte right after the field in the
marshaller's frame) one pass of `lcd_control` sends 17 data bytes, not 16. -/
theorem lcd_control_scroller_message_width :
    (scroll_msg man_text (List.replicate 17 0xA5) 0).text
        = [32, 68, 84, 69, 75, 48, 48, 54, 56, 32, 69, 109, 98, 101, 100, 100, 0xA5] ∧
      (lcd_control_iter 17 (scroll_msg man_text (List.replicate 17 0xA5) 0) [0] ⟨0, 0, []⟩).map
        (fun s => dataCount s.bus) = some 17 := by
  constructor <;> decide

/-! ## `backlight.c` and `dummy.c` -/

/-- C6: for an LDR reading `L <= 1023`, one pass of the regulator writes
`L / 4` (integer division) to the compare-high register; that value is at most
255 and the narrowing to `uint8_t` leaves `L / 4` as it is. -/
theorem backlight_auto_adjust_writes_quarter (L : Nat) (s : BlSys) (hL : L ≤ 1023) :
    (backlight_auto_adjust_iter L s).TCB3_CCMPH = L / 4 ∧
      (backlight_auto_adjust_iter L s).ops = s.ops ++ [BlOp.wrCCMPH (L / 4)] ∧
      (backlight_auto_adjust_iter L s).TCB3_CCMPH ≤ 255 ∧
      (L / 4) % 256 = L / 4 := by
  have h : (L / 4) % 256 = L / 4 := by omega
  simp only [backlight_auto_adjust_iter, backlight_write, backlight_sample, h]
  refine ⟨trivial, trivial, ?_, trivial⟩
  omega

/-- Witness of C6: the largest reading. -/
theorem backlight_auto_adjust_writes_quarter_witness :
    1023 ≤ 1023 ∧
      (backlight_auto_adjust_iter 1023 ⟨0, false, 0, false, []⟩).TCB3_CCMPH = 1023 / 4 ∧
      (backlight_auto_adjust_iter 1023 ⟨0, false, 0, false, []⟩).ops
        = [] ++ [BlOp.wrCCMPH (1023 / 4)] ∧
      (backlight_auto_adjust_iter 1023 ⟨0, false, 0, false, []⟩).TCB3_CCMPH ≤ 255 ∧
      (1023 / 4) % 256 = 1023 / 4 :=
  ⟨by decide, backlight_auto_adjust_writes_quarter 1023 ⟨0, false, 0, false, []⟩ (by decide)⟩

theorem blRun_suspended (es : List BlStep) : ∀ (s : BlSys),
    (∀ e ∈ es, e ≠ BlStep.gateNotified) → s.bl_adj_suspended = true → s.TCB3_CCMPH = 0 →
    (blRun es s).bl_adj_suspended = true ∧ (blRun es s).TCB3_CCMPH = 0 := by
  induction es with
  | nil => intro s _ h1 h2; exact ⟨h1, h2⟩
  | cons e es ih =>
    intro s hes h1 h2
    have he : e ≠ BlStep.gateNotified := hes e (by simp)
    have hrest : ∀ e' ∈ es, e' ≠ BlStep.gateNotified := fun e' h => hes e' (by simp [h])
    rw [blRun]
    cases e with
    | gateTimeout =>
      exact ih _ hrest (by simp [blStep, backlight_control_iter, vTaskSuspend_bl_adj])
        (by simp [blStep, backlight_control_iter, vTaskSuspend_bl_adj])
    | gateNotified => exact absurd rfl he
    | regSample v => exact ih _ hrest (by simp [blStep, h1]) (by simp [blStep, h1, h2])
    | regWrite => exact ih _ hrest (by simp [blStep, h1]) (by simp [blStep, h1, h2])

/-- C7: a timeout step of the gate suspends the regulator and then writes 0 to
compare-high; a notification step resumes the regulator and writes nothing to
compare-high; and after a timeout step, through any sequence of steps of the
gate and the regulator that contains no notification step, the regulator is
suspended and compare-high is 0. -/
theorem backlight_gate_idle_invariant (s : BlSys) (es : List BlStep)
    (hes : ∀ e ∈ es, e ≠ BlStep.gateNotified) :
    ((blStep BlStep.gateTimeout s).bl_adj_suspended = true ∧
        (blStep BlStep.gateTimeout s).TCB3_CCMPH = 0 ∧
        (blStep BlStep.gateTimeout s).ops = s.ops ++ [BlOp.suspend, BlOp.wrCCMPH 0]) ∧
      ((blStep BlStep.gateNotified s).bl_adj_suspended = false ∧
        (blStep BlStep.gateNotified s).TCB3_CCMPH = s.TCB3_CCMPH ∧
        (blStep BlStep.gateNotified s).ops = s.ops ++ [BlOp.resume]) ∧
      ((blRun es (blStep BlStep.gateTimeout s)).bl_adj_suspended = true ∧
        (blRun es (blStep BlStep.gateTimeout s)).TCB3_CCMPH = 0) := by
  refine ⟨?_, ?_, ?_⟩
  · simp [blStep, backlight_control_iter, vTaskSuspend_bl_adj]
  · simp [blStep, backlight_control_iter, vTaskResume_bl_adj]
  · exact blRun_suspended es _ hes
      (by simp [blStep, backlight_control_iter, vTaskSuspend_bl_adj])
      (by simp [blStep, backlight_control_iter, vTaskSuspend_bl_adj])

/-- Witness of C7: the regulator has sampled 512 and not yet written when the
gate times out; afterwards it is scheduled twice and the gate times out again. -/
theorem backlight_gate_idle_invariant_witness :
    (∀ e ∈ [BlStep.regWrite, BlStep.regSample 100, BlStep.gateTimeout], e ≠ BlStep.gateNotified) ∧
      (blRun [BlStep.regWrite, BlStep.regSample 100, BlStep.gateTimeout]
        (blStep BlStep.gateTimeout ⟨77, false, 128, true, []⟩)).bl_adj_suspended = true ∧
      (blRun [BlStep.regWrite, BlStep.regSample 100, BlStep.gateTimeout]
        (blStep BlStep.gateTimeout ⟨77, false, 128, true, []⟩)).TCB3_CCMPH = 0 :=
  ⟨by decide,
    (backlight_gate_idle_invariant ⟨77, false, 128, true, []⟩
      [BlStep.regWrite, BlStep.regSample 100, BlStep.gateTimeout] (by decide)).2.2⟩

/-- C8: for 16-bit readings, one pass of the activity task gives the gate one
notification exactly when `|pot - prev| >= 10`, and none otherwise; the macro
`DIFFERENCE` equals `|pot - prev|` (no wrap-around); `prev_pot_reading`
becomes `pot` exactly when the pass notifies and is otherwise left as it was.
A change of exactly 10 notifies, a change of 9 does not. -/
theorem dummy_iter_deadband (ntc pot : Nat) (s : DummySys)
    (hpot : pot < 65536) (hprev : s.prev_pot_reading < 65536) :
    DIFFERENCE pot s.prev_pot_reading = ((pot : Int) - s.prev_pot_reading).natAbs ∧
      ((dummy_iter ntc pot s).bl_ctrl_notifications = s.bl_ctrl_notifications + 1 ↔
        10 ≤ ((pot : Int) - s.prev_pot_reading).natAbs) ∧
      ((dummy_iter ntc pot s).bl_ctrl_notifications = s.bl_ctrl_notifications ↔
        ((pot : Int) - s.prev_pot_reading).natAbs < 10) ∧
      (dummy_iter ntc pot s).prev_pot_reading
        = (if 10 ≤ ((pot : Int) - s.prev_pot_reading).natAbs then pot else s.prev_pot_reading) ∧
      (((pot : Int) - s.prev_pot_reading).natAbs = 10 →
        (dummy_iter ntc pot s).bl_ctrl_notifications = s.bl_ctrl_notifications + 1) ∧
      (((pot : Int) - s.prev_pot_reading).natAbs = 9 →
        (dummy_iter ntc pot s).bl_ctrl_notifications = s.bl_ctrl_notifications) := by
  have hd : DIFFERENCE pot s.prev_pot_reading = ((pot : Int) - s.prev_pot_reading).natAbs := by
    unfold DIFFERENCE
    split <;> omega
  have hnot : (dummy_iter ntc pot s).bl_ctrl_notifications
      = if 10 ≤ ((pot : Int) - s.prev_pot_reading).natAbs then s.bl_ctrl_notifications + 1
        else s.bl_ctrl_notifications := by
    unfold dummy_iter
    rw [← hd]
    by_cases h1 : ntc > pot <;> by_cases h2 : DIFFERENCE pot s.prev_pot_reading ≥ 10 <;>
      simp [h1, h2]
  have hprv : (dummy_iter ntc pot s).prev_pot_reading
      = if 10 ≤ ((pot : Int) - s.prev_pot_reading).natAbs then pot else s.prev_pot_reading := by
    unfold dummy_iter
    rw [← hd]
    by_cases h1 : ntc > pot <;> by_cases h2 : DIFFERENCE pot s.prev_pot_reading ≥ 10 <;>
      simp [h1, h2]
  refine ⟨hd, ?_, ?_, hprv, ?_, ?_⟩
  · rw [hnot]; split <;> omega
  · rw [hnot]; split <;> omega
  · intro h; rw [hnot]; simp [h]
  · intro h; rw [hnot]; simp [h]

/-- Witness of C8: the knob moves from 512 to 522, a change of exactly 10, or
to 521, a change of 9. -/
theorem dummy_iter_deadband_witness :
    522 < 65536 ∧ 521 < 65536 ∧ (DummySys.mk 0 512 0).prev_pot_reading < 65536 ∧
      (dummy_iter 300 522 ⟨0, 512, 0⟩).bl_ctrl_notifications = 0 + 1 ∧
      (dummy_iter 300 522 ⟨0, 512, 0⟩).prev_pot_reading = 522 ∧
      (dummy_iter 300 521 ⟨0, 512, 0⟩).bl_ctrl_notifications = 0 ∧
      (dummy_iter 300 521 ⟨0, 512, 0⟩).prev_pot_reading = 512 :=
  ⟨by decide, by decide, by decide,
    (dummy_iter_deadband 300 522 ⟨0, 512, 0⟩ (by decide) (by decide)).2.2.2.2.1 (by decide),
    (dummy_iter_deadband 300 522 ⟨0, 512, 0⟩ (by decide) (by decide)).2.2.2.1,
    (dummy_iter_deadband 300 521 ⟨0, 512, 0⟩ (by decide) (by decide)).2.2.2.2.2 (by decide),
    (dummy_iter_deadband 300 521 ⟨0, 512, 0⟩ (by decide) (by decide)).2.2.2.1⟩

/-! ## `lcd.c`: the scroller -/

theorem max_index_eq (L : Nat) (h16 : 16 < L) (hL : L < 65536) : max_index L = L - 16 := by
  unfold max_index; omega

theorem wrap_inc (i : Nat) (h : i + 1 < 65536) : (((i : Int) + 1) % 65536).toNat = i + 1 := by
  omega

theorem wrap_dec (i : Nat) (h0 : 0 < i) (h : i < 65536) :
    (((i : Int) + -1) % 65536).toNat = i - 1 := by
  omega

theorem scroll_iter_up (L i : Nat) (d : Int) (h16 : 16 < L) (hL : L < 65536)
    (hi : i < L - 16) (hd : i = 0 ∨ d = 1) :
    scroll_iter L ⟨i, d⟩ = ⟨i + 1, 1⟩ := by
  have hM := max_index_eq L h16 hL
  have hne : i ≠ max_index L := by omega
  have hw := wrap_inc i (by omega)
  rcases hd with h0 | h1
  · subst h0
    simp [scroll_iter, scroll_turn, scroll_advance, hne]
  · subst h1
    by_cases h0 : i = 0
    · subst h0; simp [scroll_iter, scroll_turn, scroll_advance, hne]
    · simp only [scroll_iter, scroll_turn, scroll_advance, hne, h0, if_false, hw]

theorem scroll_iter_down (L i : Nat) (d : Int) (h16 : 16 < L) (hL : L < 65536)
    (hi : 0 < i) (hiM : i ≤ L - 16) (hd : i = L - 16 ∨ d = -1) :
    scroll_iter L ⟨i, d⟩ = ⟨i - 1, -1⟩ := by
  have hM := max_index_eq L h16 hL
  have hw := wrap_dec i hi (by omega)
  by_cases hmax : i = max_index L
  · simp only [scroll_iter, scroll_turn, if_pos hmax, scroll_advance, hw]
  · have hd1 : d = -1 := by
      rcases hd with h | h
      · omega
      · exact h
    subst hd1
    have h0 : i ≠ 0 := by omega
    simp only [scroll_iter, scroll_turn, scroll_advance, hmax, h0, if_false, hw]

theorem scroll_turn_i (L : Nat) (st : ScrollState) : (scroll_turn L st).i = st.i := by
  unfold scroll_turn
  split
  · rfl
  · split <;> rfl

theorem scroll_head_up (L : Nat) (h16 : 16 < L) (hL : L < 65536) :
    ∀ k, k ≤ L - 16 → scroll_head L k = ⟨k, 1⟩ := by
  intro k
  induction k with
  | zero => intro _; rfl
  | succ k ih =>
    intro hk
    rw [scroll_head, ih (by omega)]
    exact scroll_iter_up L k 1 h16 hL (by omega) (Or.inr rfl)

theorem scroll_head_down (L : Nat) (h16 : 16 < L) (hL : L < 65536) :
    ∀ j, j + 1 ≤ L - 16 → scroll_head L (L - 16 + (j + 1)) = ⟨L - 16 - (j + 1), -1⟩ := by
  intro j
  induction j with
  | zero =>
    intro _
    show scroll_iter L (scroll_head L (L - 16)) = _
    rw [scroll_head_up L h16 hL (L - 16) (le_refl _)]
    exact scroll_iter_down L (L - 16) 1 h16 hL (by omega) (le_refl _) (Or.inl rfl)
  | succ j ih =>
    intro hj
    show scroll_iter L (scroll_head L (L - 16 + (j + 1))) = _
    rw [ih (by omega)]
    have := scroll_iter_down L (L - 16 - (j + 1)) (-1) h16 hL (by omega) (by omega) (Or.inr rfl)
    rw [this]
    congr 1

theorem scroll_head_two_max (L : Nat) (h16 : 16 < L) (hL : L < 65536) :
    scroll_head L (2 * (L - 16)) = ⟨0, -1⟩ := by
  obtain ⟨j, hj⟩ : ∃ j, L - 16 = j + 1 := ⟨L - 16 - 1, by omega⟩
  have h := scroll_head_down L h16 hL j (by omega)
  have e1 : 2 * (L - 16) = L - 16 + (j + 1) := by omega
  have e2 : L - 16 - (j + 1) = 0 := by omega
  rw [e1, h, e2]

theorem scroll_head_period (L : Nat) (h16 : 16 < L) (hL : L < 65536) :
    ∀ k, scroll_head L (k + 1 + 2 * (L - 16)) = scroll_head L (k + 1) := by
  intro k
  induction k with
  | zero =>
    have e : 0 + 1 + 2 * (L - 16) = 2 * (L - 16) + 1 := by omega
    rw [e]
    show scroll_iter L (scroll_head L (2 * (L - 16))) = scroll_iter L (scroll_head L 0)
    rw [scroll_head_two_max L h16 hL,
      scroll_iter_up L 0 (-1) h16 hL (by omega) (Or.inl rfl)]
    exact (scroll_iter_up L 0 1 h16 hL (by omega) (Or.inl rfl)).symm
  | succ k ih =>
    have e : k + 1 + 1 + 2 * (L - 16) = (k + 1 + 2 * (L - 16)) + 1 := by omega
    rw [e]
    show scroll_iter L (scroll_head L (k + 1 + 2 * (L - 16))) = scroll_iter L (scroll_head L (k + 1))
    rw [ih]

/-- The loop variables at the head of iteration `2 * (L - 16)` are `i = 0`
with `scroll_dir = -1`; the direction update of that iteration sets `+1`. -/
theorem scroll_head_after_cycle (L : Nat) (h16 : 16 < L) (hL : L < 65536) :
    scroll_head L (2 * (L - 16)) = ⟨0, -1⟩ ∧ scroll_send L (2 * (L - 16)) = ⟨0, 1⟩ := by
  have hM := max_index_eq L h16 hL
  have h0 : (0 : Nat) ≠ max_index L := by omega
  refine ⟨scroll_head_two_max L h16 hL, ?_⟩
  rw [scroll_send, scroll_head_two_max L h16 hL]
  simp [scroll_turn, h0]

theorem scroll_send_i_up (L k : Nat) (h16 : 16 < L) (hL : L < 65536) (hk : k ≤ L - 16) :
    (scroll_send L k).i = k := by
  rw [scroll_send, scroll_turn_i, scroll_head_up L h16 hL k hk]

theorem scroll_send_i_down (L k : Nat) (h16 : 16 < L) (hL : L < 65536) (hk : L - 16 ≤ k)
    (hk2 : k ≤ 2 * (L - 16)) : (scroll_send L k).i = 2 * (L - 16) - k := by
  rcases Nat.eq_or_lt_of_le hk with h | h
  · rw [scroll_send_i_up L k h16 hL (by omega)]; omega
  · obtain ⟨j, hj⟩ : ∃ j, k = L - 16 + (j + 1) := ⟨k - (L - 16) - 1, by omega⟩
    rw [scroll_send, scroll_turn_i, hj, scroll_head_down L h16 hL j (by omega)]
    show L - 16 - (j + 1) = _
    omega

/-- The banner of the firmware has 42 characters. -/
theorem strlen_man_text : strlen man_text = 42 := by decide

/-- C9: for a banner length `16 < L` (a `size_t`), the loop variables with
which iteration `k` builds its window, starting from `i = 0` and direction +1
in iteration 0, have index `k` for `k <= L - 16` and `2 * (L - 16) - k` for
`L - 16 <= k <= 2 * (L - 16)`; they are again `i = 0` with direction +1 in
iteration `2 * (L - 16)` and in no iteration in between, and the sequence
repeats with that period. -/
theorem scroll_reflecting_cycle (L : Nat) (h16 : 16 < L) (hL : L < 65536) :
    scroll_send L 0 = ⟨0, 1⟩ ∧
      (∀ k, k ≤ L - 16 → (scroll_send L k).i = k) ∧
      (∀ k, L - 16 ≤ k → k ≤ 2 * (L - 16) → (scroll_send L k).i = 2 * (L - 16) - k) ∧
      scroll_send L (2 * (L - 16)) = ⟨0, 1⟩ ∧
      (∀ k, 0 < k → k < 2 * (L - 16) → scroll_send L k ≠ ⟨0, 1⟩) ∧
      (∀ k, scroll_send L (k + 2 * (L - 16)) = scroll_send L k) := by
  have hM := max_index_eq L h16 hL
  have h0 : (0 : Nat) ≠ max_index L := by omega
  have hs0 : scroll_send L 0 = ⟨0, 1⟩ := by
    simp [scroll_send, scroll_head, scroll_turn, h0]
  have hs2 : scroll_send L (2 * (L - 16)) = ⟨0, 1⟩ := by
    rw [scroll_send, scroll_head_two_max L h16 hL]
    simp [scroll_turn, h0]
  refine ⟨hs0, fun k hk => scroll_send_i_up L k h16 hL hk,
    fun k hk hk2 => scroll_send_i_down L k h16 hL hk hk2, hs2, ?_, ?_⟩
  · intro k hk0 hk2 heq
    have hi : (scroll_send L k).i = 0 := by rw [heq]
    by_cases hk : k ≤ L - 16
    · rw [scroll_send_i_up L k h16 hL hk] at hi; omega
    · rw [scroll_send_i_down L k h16 hL (by omega) (by omega)] at hi; omega
  · intro k
    cases k with
    | zero => rw [Nat.zero_add, hs2, hs0]
    | succ k => rw [scroll_send, scroll_send, scroll_head_period L h16 hL k]

/-- Witness of C9: the banner of the firmware, 42 characters long. -/
theorem scroll_reflecting_cycle_witness :
    16 < 42 ∧ 42 < 65536 ∧
      (scroll_send 42 0 = ⟨0, 1⟩ ∧
      (∀ k, k ≤ 42 - 16 → (scroll_send 42 k).i = k) ∧
      (∀ k, 42 - 16 ≤ k → k ≤ 2 * (42 - 16) → (scroll_send 42 k).i = 2 * (42 - 16) - k) ∧
      scroll_send 42 (2 * (42 - 16)) = ⟨0, 1⟩ ∧
      (∀ k, 0 < k → k < 2 * (42 - 16) → scroll_send 42 k ≠ ⟨0, 1⟩) ∧
      (∀ k, scroll_send 42 (k + 2 * (42 - 16)) = scroll_send 42 k)) :=
  ⟨by decide, by decide, scroll_reflecting_cycle 42 (by decide) (by decide)⟩

theorem scroll_step_cases (L : Nat) (h16 : 16 < L) (hL : L < 65536) (st : ScrollState)
    (hi : st.i ≤ L - 16) (hd : st.scroll_dir = 1 ∨ st.scroll_dir = -1) :
    (scroll_turn L st = ⟨st.i, 1⟩ ∧ st.i < L - 16 ∧ scroll_iter L st = ⟨st.i + 1, 1⟩) ∨
      (scroll_turn L st = ⟨st.i, -1⟩ ∧ 0 < st.i ∧ scroll_iter L st = ⟨st.i - 1, -1⟩) := by
  obtain ⟨i, d⟩ := st
  have hM := max_index_eq L h16 hL
  dsimp only at hi hd ⊢
  by_cases hmax : i = L - 16
  · right
    refine ⟨?_, by omega, scroll_iter_down L i d h16 hL (by omega) hi (Or.inl hmax)⟩
    simp [scroll_turn, hM, hmax]
  · by_cases h0 : i = 0
    · left
      refine ⟨?_, by omega, scroll_iter_up L i d h16 hL (by omega) (Or.inl h0)⟩
      have : (0 : Nat) ≠ max_index L := by omega
      simp [scroll_turn, this, h0]
    · have hne : i ≠ max_index L := by omega
      rcases hd with h | h
      · left
        subst h
        refine ⟨?_, by omega, scroll_iter_up L i 1 h16 hL (by omega) (Or.inr rfl)⟩
        simp [scroll_turn, hne, h0]
      · right
        subst h
        refine ⟨?_, by omega, scroll_iter_down L i (-1) h16 hL (by omega) hi (Or.inr rfl)⟩
        simp [scroll_turn, hne, h0]

theorem scroll_head_inv (L : Nat) (h16 : 16 < L) (hL : L < 65536) :
    ∀ k, (scroll_head L k).i ≤ L - 16 ∧
      ((scroll_head L k).scroll_dir = 1 ∨ (scroll_head L k).scroll_dir = -1) := by
  intro k
  induction k with
  | zero => exact ⟨Nat.zero_le _, Or.inl rfl⟩
  | succ k ih =>
    show (scroll_iter L (scroll_head L k)).i ≤ L - 16 ∧ _
    rcases scroll_step_cases L h16 hL (scroll_head L k) ih.1 ih.2 with ⟨_, h2, h3⟩ | ⟨_, h2, h3⟩
    · show (scroll_iter L (scroll_head L k)).i ≤ L - 16 ∧
        ((scroll_iter L (scroll_head L k)).scroll_dir = 1 ∨
          (scroll_iter L (scroll_head L k)).scroll_dir = -1)
      rw [h3]; exact ⟨by show (scroll_head L k).i + 1 ≤ L - 16; omega, Or.inl rfl⟩
    · show (scroll_iter L (scroll_head L k)).i ≤ L - 16 ∧
        ((scroll_iter L (scroll_head L k)).scroll_dir = 1 ∨
          (scroll_iter L (scroll_head L k)).scroll_dir = -1)
      rw [h3]; exact ⟨by show (scroll_head L k).i - 1 ≤ L - 16; omega, Or.inr rfl⟩

theorem memcpy_window (banner junk : List Nat) (i : Nat) (hi : i + 16 ≤ banner.length)
    (hj : junk.length = 17) :
    memcpy junk ((banner ++ [0]).drop i) 16 = (banner.drop i).take 16 ++ junk.drop 16 := by
  have hsrc : ((banner ++ [0]).drop i).take 16 = (banner.drop i).take 16 := by
    rw [List.drop_append_of_le_length (by omega), List.take_append_of_le_length (by simp; omega)]
  have hlen : ((banner.drop i).take 16).length = 16 := by simp; omega
  have := storeBytes_at [] ((banner.drop i).take 16) junk (by omega)
  simp only [List.nil_append, List.length_nil, hlen] at this
  rw [memcpy, hsrc, this]

/-- C10: for a banner of `16 < L` characters (`L` a `size_t`), in every
iteration `k` of the scroll loop the index is at most `L - 16` and the
direction is +1 or -1, at the loop head and where the window is copied; the
increment `i += scroll_dir` does not wrap (the next index is the integer
`i + scroll_dir`, between 0 and `L - 16`); and the 16 bytes copied are the 16
banner characters from position `i`, which end within the banner. -/
theorem scroll_window_in_bounds (L k : Nat) (banner junk : List Nat)
    (h16 : 16 < L) (hL : L < 65536) (hb : banner.length = L) (hj : junk.length = 17) :
    ((scroll_head L k).i ≤ L - 16 ∧
        ((scroll_head L k).scroll_dir = 1 ∨ (scroll_head L k).scroll_dir = -1)) ∧
      ((scroll_send L k).i ≤ L - 16 ∧
        ((scroll_send L k).scroll_dir = 1 ∨ (scroll_send L k).scroll_dir = -1)) ∧
      (((scroll_head L (k + 1)).i : Int)
          = ((scroll_send L k).i : Int) + (scroll_send L k).scroll_dir ∧
        0 ≤ ((scroll_send L k).i : Int) + (scroll_send L k).scroll_dir ∧
        ((scroll_send L k).i : Int) + (scroll_send L k).scroll_dir ≤ ((L - 16 : Nat) : Int)) ∧
      ((scroll_send L k).i + 16 ≤ banner.length ∧
        (scroll_msg (banner ++ [0]) junk (scroll_send L k).i).text
          = (banner.drop (scroll_send L k).i).take 16 ++ junk.drop 16 ∧
        ((banner.drop (scroll_send L k).i).take 16).length = 16) := by
  have hinv := scroll_head_inv L h16 hL k
  have hsi : (scroll_send L k).i = (scroll_head L k).i := scroll_turn_i L _
  have hb16 : (scroll_head L k).i + 16 ≤ banner.length := by omega
  refine ⟨hinv, ?_, ?_, ?_⟩
  · rcases scroll_step_cases L h16 hL (scroll_head L k) hinv.1 hinv.2 with ⟨h1, _, _⟩ | ⟨h1, _, _⟩
    · rw [scroll_send, h1]; exact ⟨hinv.1, Or.inl rfl⟩
    · rw [scroll_send, h1]; exact ⟨hinv.1, Or.inr rfl⟩
  · show ((scroll_iter L (scroll_head L k)).i : Int) = _ ∧ _
    rcases scroll_step_cases L h16 hL (scroll_head L k) hinv.1 hinv.2 with
      ⟨h1, h2, h3⟩ | ⟨h1, h2, h3⟩
    · rw [scroll_send, h1, h3]
      refine ⟨by push_cast; rfl, by positivity, ?_⟩
      show ((scroll_head L k).i : Int) + 1 ≤ _
      omega
    · rw [scroll_send, h1, h3]
      refine ⟨?_, ?_, ?_⟩
      · show (((scroll_head L k).i - 1 : Nat) : Int) = ((scroll_head L k).i : Int) + -1
        omega
      · show 0 ≤ ((scroll_head L k).i : Int) + -1
        omega
      · show ((scroll_head L k).i : Int) + -1 ≤ _
        omega
  · rw [hsi]
    refine ⟨hb16, ?_, by simp; omega⟩
    exact memcpy_window banner junk _ hb16 hj

/-- Witness of C10: the banner of the firmware (42 characters) in iteration
30, with a `text` field holding `0xA5` bytes before the copy. -/
theorem scroll_window_in_bounds_witness :
    16 < 42 ∧ 42 < 65536 ∧ (man_text.take 42).length = 42 ∧
      (List.replicate 17 0xA5).length = 17 ∧
      (scroll_send 42 30).i ≤ 42 - 16 ∧
      (scroll_send 42 30).i + 16 ≤ (man_text.take 42).length ∧
      ((scroll_head 42 (30 + 1)).i : Int)
        = ((scroll_send 42 30).i : Int) + (scroll_send 42 30).scroll_dir :=
  ⟨by decide, by decide, by decide, by decide,
    (scroll_window_in_bounds 42 30 (man_text.take 42) (List.replicate 17 0xA5)
      (by decide) (by decide) (by decide) (by decide)).2.1.1,
    (scroll_window_in_bounds 42 30 (man_text.take 42) (List.replicate 17 0xA5)
      (by decide) (by decide) (by decide) (by decide)).2.2.2.1,
    (scroll_window_in_bounds 42 30 (man_text.take 42) (List.replicate 17 0xA5)
      (by decide) (by decide) (by decide) (by decide)).2.2.1.1⟩

/-! ## `lcd.c`: the start of the scroller -/

/-- C11: evaluation of the code at the failing input. With the three-character
banner "abc" the array `man_text` has 4 bytes; the scroller takes the
no-scroll branch, sends one message for line 1 and is deleted without entering
the loop, but its `memcpy` reads 16 bytes from the array: the 12 bytes stored
after the array (here 1..12) end up in the message text. -/
theorem lcd_scrolling_text_short_banner_copy :
    ([97, 98, 99, 0] : List Nat).length = 4 ∧
      strlen [97, 98, 99, 0] = 3 ∧
      (lcd_scrolling_text_start [97, 98, 99, 0] [1, 2, 3, 4, 5, 6, 7, 8, 9, 10, 11, 12, 13, 14]
          (List.replicate 17 0xA5) 5)
        = { sent := [{ line_num := 1,
                       text := [97, 98, 99, 0, 1, 2, 3, 4, 5, 6, 7, 8, 9, 10, 11, 12, 0xA5] }],
            deleted := true, src_read := 16, entered_loop := false } := by
  refine ⟨?_, ?_, ?_⟩ <;> decide

/-! ## `lcd.c`: the ADC reporter -/

theorem fmt_u_aux_value (fuel : Nat) : ∀ (n : Nat) (acc : List Nat), n < 10 ^ fuel →
    (fmt_u_aux fuel n acc).foldl (fun a c => a * 10 + (c - 48)) 0
      = acc.foldl (fun a c => a * 10 + (c - 48)) n := by
  induction fuel with
  | zero => intro n acc h; simp at h; subst h; rfl
  | succ fuel ih =>
    intro n acc h
    rw [fmt_u_aux]
    split
    · simp
    · rw [ih (n / 10) _ (by rw [pow_succ] at h; omega)]
      simp only [List.foldl_cons]
      congr 1
      omega

theorem fmt_u_aux_digits (fuel : Nat) : ∀ (n : Nat) (acc : List Nat),
    (∀ c ∈ acc, 48 ≤ c ∧ c ≤ 57) → ∀ c ∈ fmt_u_aux fuel n acc, 48 ≤ c ∧ c ≤ 57 := by
  induction fuel with
  | zero => intro n acc h; exact h
  | succ fuel ih =>
    intro n acc h
    rw [fmt_u_aux]
    split
    · intro c hc
      rcases List.mem_cons.1 hc with h1 | h1
      · omega
      · exact h c h1
    · apply ih
      intro c hc
      rcases List.mem_cons.1 hc with h1 | h1
      · omega
      · exact h c h1

theorem fmt_u_aux_length (fuel : Nat) : ∀ (k n : Nat) (acc : List Nat), n < 10 ^ k → 1 ≤ k →
    k ≤ fuel →
    acc.length + 1 ≤ (fmt_u_aux fuel n acc).length ∧
      (fmt_u_aux fuel n acc).length ≤ acc.length + k := by
  induction fuel with
  | zero => intro k n acc _ h1 h2; omega
  | succ fuel ih =>
    intro k n acc h h1 h2
    rw [fmt_u_aux]
    split
    · simp; omega
    · rename_i h10
      obtain ⟨j, rfl⟩ : ∃ j, k = j + 1 := ⟨k - 1, by omega⟩
      have hj : 1 ≤ j := by
        rcases Nat.eq_zero_or_pos j with h0 | h0
        · subst h0; simp at h; omega
        · exact h0
      have := ih j (n / 10) ((48 + n % 10) :: acc) (by rw [pow_succ] at h; omega) hj (by omega)
      simp only [List.length_cons] at this
      omega

theorem fmt_u_aux_spec (fuel : Nat) : ∀ (n : Nat) (acc : List Nat), 0 < n → n < 10 ^ fuel →
    fmt_u_aux fuel n acc = (Nat.digits 10 n).reverse.map (fun d => 48 + d) ++ acc := by
  induction fuel with
  | zero => intro n acc h0 h; simp at h; omega
  | succ fuel ih =>
    intro n acc h0 h
    rw [fmt_u_aux]
    split
    · rename_i h10
      rw [Nat.digits_of_lt 10 n (by omega) h10]
      simp
    · rw [ih (n / 10) _ (by omega) (by rw [pow_succ] at h; omega),
        Nat.digits_def' (by decide : 1 < 10) h0]
      simp

/-- The model of `%u` prints the decimal digits of a 16-bit value. -/
theorem fmt_u_eq_spec_decimal (n : Nat) (h : n < 65536) : fmt_u n = spec_decimal n := by
  have hm : n % 65536 = n := Nat.mod_eq_of_lt h
  unfold fmt_u spec_decimal
  rw [hm]
  split
  · rename_i h0; subst h0; rfl
  · rename_i h0
    rw [fmt_u_aux_spec 5 n [] (by omega) (by norm_num; omega)]
    simp

theorem fmt_u_parse (n : Nat) (h : n < 65536) : spec_parse_decimal (fmt_u n) = some n := by
  have hm : n % 65536 = n := Nat.mod_eq_of_lt h
  have hlen := (fmt_u_aux_length 5 5 n [] (by norm_num; omega) (by omega) (by omega)).1
  have hdig := fmt_u_aux_digits 5 n [] (by simp)
  have hval := fmt_u_aux_value 5 n [] (by norm_num; omega)
  have hne : fmt_u_aux 5 n [] ≠ [] := by
    intro h0; rw [h0] at hlen; simp at hlen
  have hall : (fmt_u_aux 5 n []).all (fun c => decide (48 ≤ c ∧ c ≤ 57)) = true := by
    rw [List.all_eq_true]
    intro c hc
    simpa using hdig c hc
  unfold spec_parse_decimal fmt_u
  rw [hm, if_pos ⟨hne, hall⟩, hval]
  rfl

theorem sprintf_out_channel (input a : Nat) (hin : input = LDR ∨ input = NTC ∨ input = POT) :
    sprintf_out (lcd_adc_report_format input) [a] = spec_label input ++ fmt_u a ++ spec_tail input := by
  rcases hin with h | h | h <;> subst h
  · have hf : lcd_adc_report_format LDR
        = [76, 68, 82, 32, 118, 97, 108, 117, 101, 58, 32, 37, 117, 32] := by decide
    have hl : spec_label LDR = [76, 68, 82, 32, 118, 97, 108, 117, 101, 58, 32] := by decide
    have ht : spec_tail LDR = [32] := by decide
    rw [hf, hl, ht]
    simp [sprintf_out]
  · have hf : lcd_adc_report_format NTC
        = [78, 84, 67, 32, 118, 97, 108, 117, 101, 58, 32, 37, 117, 32] := by decide
    have hl : spec_label NTC = [78, 84, 67, 32, 118, 97, 108, 117, 101, 58, 32] := by decide
    have ht : spec_tail NTC = [32] := by decide
    rw [hf, hl, ht]
    simp [sprintf_out]
  · have hf : lcd_adc_report_format POT
        = [80, 79, 84, 32, 118, 97, 108, 117, 101, 58, 32, 37, 117] := by decide
    have hl : spec_label POT = [80, 79, 84, 32, 118, 97, 108, 117, 101, 58, 32] := by decide
    have ht : spec_tail POT = [] := by decide
    rw [hf, hl, ht]
    simp [sprintf_out]

theorem spec_label_length (input : Nat) : (spec_label input).length = 11 := by
  unfold spec_label
  split
  · decide
  · split <;> decide

theorem spec_label_nonzero (input : Nat) : ∀ c ∈ spec_label input, c ≠ 0 := by
  unfold spec_label
  split
  · decide
  · split <;> decide

theorem fmt_u_nonzero (a : Nat) : ∀ c ∈ fmt_u a, c ≠ 0 := by
  intro c hc
  have := fmt_u_aux_digits 5 (a % 65536) [] (by simp) c hc
  omega

theorem sprintf_out_channel_nonzero (input a : Nat)
    (hin : input = LDR ∨ input = NTC ∨ input = POT) :
    ∀ c ∈ sprintf_out (lcd_adc_report_format input) [a], c ≠ 0 := by
  rw [sprintf_out_channel input a hin]
  intro c hc
  rcases List.mem_append.1 hc with h | h
  · rcases List.mem_append.1 h with h1 | h1
    · exact spec_label_nonzero input c h1
    · exact fmt_u_nonzero a c h1
  · unfold spec_tail at h
    split at h
    · simp at h
    · simp at h; omega

theorem sprintf_out_channel_length (input a k : Nat)
    (hin : input = LDR ∨ input = NTC ∨ input = POT) (ha : a < 10 ^ k) (hk1 : 1 ≤ k)
    (hk5 : k ≤ 5) :
    (sprintf_out (lcd_adc_report_format input) [a]).length
      ≤ 11 + k + (spec_tail input).length := by
  have hlen := (fmt_u_aux_length 5 k (a % 65536) []
    (lt_of_le_of_lt (Nat.mod_le _ _) ha) hk1 hk5).2
  rw [sprintf_out_channel input a hin]
  simp only [List.length_append, spec_label_length, fmt_u]
  simp only [List.length_nil] at hlen
  omega

theorem sprintf_fits (mem out_fmt args : List Nat) :
    (sprintf_out out_fmt args).length + 1 ≤ mem.length →
    sprintf mem out_fmt args
      = sprintf_out out_fmt args ++ 0 :: mem.drop ((sprintf_out out_fmt args).length + 1) := by
  intro h
  have hst := storeBytes_at [] (sprintf_out out_fmt args ++ [0]) mem (by simpa using h)
  simp only [List.nil_append, List.length_nil, List.length_append, List.length_singleton,
    List.append_assoc, List.singleton_append] at hst
  exact hst

theorem lcd_adc_report_msg_fits (input reading : Nat) (text beyond : List Nat)
    (ht : text.length = 17)
    (hlen : (sprintf_out (lcd_adc_report_format input) [reading]).length ≤ 16) :
    lcd_adc_report_msg input reading text beyond
      = (⟨0, sprintf_out (lcd_adc_report_format input) [reading]
            ++ 0 :: text.drop ((sprintf_out (lcd_adc_report_format input) [reading]).length + 1)⟩,
          beyond) := by
  unfold lcd_adc_report_msg
  rw [sprintf_fits _ _ _ (by simp; omega)]
  generalize sprintf_out (lcd_adc_report_format input) [reading] = out at hlen
  have hdrop : (text ++ beyond).drop (out.length + 1) = text.drop (out.length + 1) ++ beyond :=
    List.drop_append_of_le_length (by omega)
  have hl : (out ++ 0 :: text.drop (out.length + 1)).length = text.length := by
    simp; omega
  have he : out ++ 0 :: (text.drop (out.length + 1) ++ beyond)
      = (out ++ 0 :: text.drop (out.length + 1)) ++ beyond := by simp
  simp only [hdrop, he]
  rw [← hl, List.take_left, List.drop_left]

theorem spec_parse_LDR_text (ds : List Nat) :
    spec_parse_LDR (cstr "LDR value: " ++ ds ++ [32]) = spec_parse_decimal ds := by
  have hp : cstr "LDR value: " = [76, 68, 82, 32, 118, 97, 108, 117, 101, 58, 32] := by decide
  unfold spec_parse_LDR
  rw [hp]
  have h1 : ([76, 68, 82, 32, 118, 97, 108, 117, 101, 58, 32] ++ ds ++ [32]).take 11
      = [76, 68, 82, 32, 118, 97, 108, 117, 101, 58, 32] := by simp
  have h2 : ([76, 68, 82, 32, 118, 97, 108, 117, 101, 58, 32] ++ ds ++ [32]).getLast? = some 32 :=
    List.getLast?_concat _
  have h3 : (([76, 68, 82, 32, 118, 97, 108, 117, 101, 58, 32] ++ ds ++ [32]).drop 11).dropLast
      = ds := by
    simp [List.dropLast_concat]
  rw [if_pos ⟨h1, h2⟩, h3]

/-- C12: for every `n <= 1023` the characters `sprintf` produces for the LDR
channel are "LDR value: ", the decimal digits of `n` and one space; that is
the string the message text holds (line 0); and parsing the decimal number
between the prefix and the trailing space gives `n` back. -/
theorem lcd_adc_report_LDR_roundtrip (n : Nat) (text beyond : List Nat)
    (hn : n ≤ 1023) (ht : text.length = 17) :
    sprintf_out (lcd_adc_report_format LDR) [n] = cstr "LDR value: " ++ spec_decimal n ++ [32] ∧
      (lcd_adc_report_msg LDR n text beyond).1.line_num = 0 ∧
      (lcd_adc_report_msg LDR n text beyond).1.text.take
          (strlen (lcd_adc_report_msg LDR n text beyond).1.text)
        = cstr "LDR value: " ++ spec_decimal n ++ [32] ∧
      spec_parse_LDR (sprintf_out (lcd_adc_report_format LDR) [n]) = some n := by
  have hin : LDR = LDR ∨ LDR = NTC ∨ LDR = POT := Or.inl rfl
  have hout : sprintf_out (lcd_adc_report_format LDR) [n]
      = cstr "LDR value: " ++ spec_decimal n ++ [32] := by
    rw [sprintf_out_channel LDR n hin, fmt_u_eq_spec_decimal n (by omega)]
    rfl
  have hlen : (sprintf_out (lcd_adc_report_format LDR) [n]).length ≤ 16 := by
    have := sprintf_out_channel_length LDR n 4 hin (by norm_num; omega) (by omega) (by omega)
    have ht : (spec_tail LDR).length = 1 := by decide
    omega
  have hnz := sprintf_out_channel_nonzero LDR n hin
  refine ⟨hout, ?_, ?_, ?_⟩
  · rw [lcd_adc_report_msg_fits LDR n text beyond ht hlen]
  · rw [lcd_adc_report_msg_fits LDR n text beyond ht hlen]
    simp only []
    rw [strlen_append_zero _ _ hnz, List.take_left, hout]
  · rw [hout, spec_parse_LDR_text, ← fmt_u_eq_spec_decimal n (by omega), fmt_u_parse n (by omega)]

/-- Witness of C12: the reading 1023 into a `text` field holding `0xA5` bytes. -/
theorem lcd_adc_report_LDR_roundtrip_witness :
    1023 ≤ 1023 ∧ (List.replicate 17 0xA5).length = 17 ∧
      sprintf_out (lcd_adc_report_format LDR) [1023]
        = cstr "LDR value: " ++ spec_decimal 1023 ++ [32] ∧
      spec_parse_LDR (sprintf_out (lcd_adc_report_format LDR) [1023]) = some 1023 :=
  ⟨by decide, by decide,
    (lcd_adc_report_LDR_roundtrip 1023 (List.replicate 17 0xA5) [7, 7] (by decide) (by decide)).1,
    (lcd_adc_report_LDR_roundtrip 1023 (List.replicate 17 0xA5) [7, 7] (by decide)
      (by decide)).2.2.2⟩

/-- C13, as stated, fails: for the reading 10000 the LDR format gives 17
characters; nothing truncates them, the terminating zero is stored after the
17-byte field (the byte 7 that followed it is overwritten), the message text
holds no terminator, and for that message the marshaller sends 17 data bytes. -/
theorem lcd_adc_report_text_overflow :
    (sprintf_out (lcd_adc_report_format LDR) [10000]).length = 17 ∧
      lcd_adc_report_msg LDR 10000 (List.replicate 17 0xA5) [7, 7]
        = (⟨0, [76, 68, 82, 32, 118, 97, 108, 117, 101, 58, 32, 49, 48, 48, 48, 48, 32]⟩,
            [0, 7]) ∧
      (lcd_control_iter 17 (lcd_adc_report_msg LDR 10000 (List.replicate 17 0xA5) [7, 7]).1
          [0] ⟨0, 0, []⟩).map (fun s => dataCount s.bus) = some 17 := by
  refine ⟨?_, ?_, ?_⟩ <;> decide

/-- C13, amended: for every reading up to 9999 with the LDR and NTC formats,
and every 16-bit reading with the POT format, the characters `sprintf`
produces number at most 16; they and their terminator are stored inside the
17-byte text field, the memory after the field is left as it was, and for that
message the marshaller sends exactly 16 data bytes. -/
theorem lcd_adc_report_text_fits (input reading fuel : Nat) (text beyond after : List Nat)
    (s : Lcd) (hin : input = LDR ∨ input = NTC ∨ input = POT) (hr : reading < 65536)
    (hfit : reading ≤ 9999 ∨ input = POT) (ht : text.length = 17) (hfuel : 17 ≤ fuel) :
    (sprintf_out (lcd_adc_report_format input) [reading]).length ≤ 16 ∧
      (lcd_adc_report_msg input reading text beyond).1.text.length = 17 ∧
      strlen (lcd_adc_report_msg input reading text beyond).1.text
        = (sprintf_out (lcd_adc_report_format input) [reading]).length ∧
      (lcd_adc_report_msg input reading text beyond).2 = beyond ∧
      ∃ s', lcd_control_iter fuel (lcd_adc_report_msg input reading text beyond).1 after s
          = some s' ∧
        dataCount s'.bus = dataCount s.bus + 16 := by
  have hlen : (sprintf_out (lcd_adc_report_format input) [reading]).length ≤ 16 := by
    rcases hfit with h | h
    · have := sprintf_out_channel_length input reading 4 hin (by norm_num; omega) (by omega)
        (by omega)
      have ht : (spec_tail input).length ≤ 1 := by
        unfold spec_tail; split <;> simp
      omega
    · have := sprintf_out_channel_length input reading 5 hin (by norm_num; omega) (by omega)
        (by omega)
      have ht : (spec_tail input).length = 0 := by
        subst h; decide
      omega
  have hnz := sprintf_out_channel_nonzero input reading hin
  have hmsg := lcd_adc_report_msg_fits input reading text beyond ht hlen
  refine ⟨hlen, ?_, ?_, ?_, ?_⟩
  · rw [hmsg]; simp; omega
  · rw [hmsg]; exact strlen_append_zero _ _ hnz
  · rw [hmsg]
  · rw [hmsg]
    obtain ⟨s', h1, _, h3⟩ := lcd_control_iter_terminated
      (sprintf_out (lcd_adc_report_format input) [reading])
      (text.drop ((sprintf_out (lcd_adc_report_format input) [reading]).length + 1))
      after 0 fuel s hnz (by simp; omega) hfuel
    exact ⟨s', h1, h3⟩

/-- Witness of C13 (amended): the POT format with the largest 16-bit reading. -/
theorem lcd_adc_report_text_fits_witness :
    (POT = LDR ∨ POT = NTC ∨ POT = POT) ∧ 65535 < 65536 ∧ (65535 ≤ 9999 ∨ POT = POT) ∧
      (List.replicate 17 0xA5).length = 17 ∧ 17 ≤ 17 ∧
      (sprintf_out (lcd_adc_report_format POT) [65535]).length ≤ 16 ∧
      (lcd_adc_report_msg POT 65535 (List.replicate 17 0xA5) [7, 7]).2 = [7, 7] :=
  ⟨by decide, by decide, by decide, by decide, by decide,
    (lcd_adc_report_text_fits POT 65535 17 (List.replicate 17 0xA5) [7, 7] [0] ⟨0, 0, []⟩
      (by decide) (by decide) (by decide) (by decide) (by decide)).1,
    (lcd_adc_report_text_fits POT 65535 17 (List.replicate 17 0xA5) [7, 7] [0] ⟨0, 0, []⟩
      (by decide) (by decide) (by decide) (by decide) (by decide)).2.2.2.1⟩

/-! ## `uart.c`: the serial reporter -/

theorem usart_wait_ready (n : Nat) : ∀ (fuel : Nat) (u : Usart),
    u.dreif = false → u.tx_wait = n → n + 2 ≤ fuel →
    usart_wait fuel u = some { u with dreif := true, tx_wait := 0 } := by
  induction n with
  | zero =>
    intro fuel u hd hw hf
    obtain ⟨f, rfl⟩ : ∃ f, fuel = f + 2 := ⟨fuel - 2, by omega⟩
    obtain ⟨d, t, wr, wi⟩ := u
    simp only at hd hw
    subst hd hw
    simp [usart_wait, Usart.STATUS, usartTick, USART_DREIF_bm]
  | succ n ih =>
    intro fuel u hd hw hf
    obtain ⟨f, rfl⟩ : ∃ f, fuel = f + 1 := ⟨fuel - 1, by omega⟩
    obtain ⟨d, t, wr, wi⟩ := u
    simp only at hd hw
    subst hd hw
    rw [usart_wait]
    simp only [Usart.STATUS, USART_DREIF_bm, usartTick]
    rw [ih f _ rfl rfl (by omega)]
    simp

theorem usart_wait_some (fuel : Nat) (u : Usart)
    (hu : u.dreif = true ∨ u.tx_wait + 2 ≤ fuel) (hf : 1 ≤ fuel) :
    ∃ u', usart_wait fuel u = some u' ∧ u'.dreif = true ∧ u'.wire = u.wire ∧
      u'.written = u.written := by
  by_cases hd : u.dreif = true
  · obtain ⟨f, rfl⟩ : ∃ f, fuel = f + 1 := ⟨fuel - 1, by omega⟩
    refine ⟨u, ?_, hd, rfl, rfl⟩
    simp [usart_wait, Usart.STATUS, hd, USART_DREIF_bm]
  · have hd' : u.dreif = false := by simpa using hd
    have hw : u.tx_wait + 2 ≤ fuel := by
      rcases hu with h | h
      · exact absurd h hd
      · exact h
    exact ⟨_, usart_wait_ready u.tx_wait fuel u hd' rfl hw, rfl, rfl, rfl⟩

theorem getD_append_middle (pre tail : List Nat) (c : Nat) :
    (pre ++ c :: tail).getD pre.length 0 = c := by
  induction pre with
  | nil => rfl
  | cons p pre ih => simpa [List.getD] using ih

theorem uart_send_loop_sends (w : SerialLine) (pollFuel : Nat)
    (hpoll : ∀ k, w.latency k + 2 ≤ pollFuel) (rest : List Nat) :
    ∀ (pre tail : List Nat) (u : Usart) (loopFuel : Nat),
    (∀ c ∈ pre, c ≠ 0) → (∀ c ∈ rest, c ≠ 0) → rest.length < loopFuel →
    (u.dreif = true ∨ u.tx_wait + 2 ≤ pollFuel) →
    ∃ u', uart_send_loop w pollFuel loopFuel pre.length (pre ++ rest ++ 0 :: tail) u = some u' ∧
      u'.wire = u.wire ++ rest.map (fun c => c % 256) := by
  induction rest with
  | nil =>
    intro pre tail u loopFuel hpre _ hlf _
    obtain ⟨f, rfl⟩ : ∃ f, loopFuel = f + 1 := ⟨loopFuel - 1, by simp at hlf; omega⟩
    refine ⟨u, ?_, by simp⟩
    rw [uart_send_loop]
    simp only [List.append_nil]
    rw [strlen_append_zero pre tail hpre]
    simp
  | cons c rest ih =>
    intro pre tail u loopFuel hpre hrest hlf hu
    obtain ⟨f, rfl⟩ : ∃ f, loopFuel = f + 1 := ⟨loopFuel - 1, by omega⟩
    have hc : c ≠ 0 := hrest c (by simp)
    have hrest' : ∀ d ∈ rest, d ≠ 0 := fun d hd => hrest d (by simp [hd])
    have hall : ∀ d ∈ pre ++ c :: rest, d ≠ 0 := by
      intro d hd
      rcases List.mem_append.1 hd with h | h
      · exact hpre d h
      · exact hrest d h
    have hpre' : ∀ d ∈ pre ++ [c], d ≠ 0 := by
      intro d hd
      rcases List.mem_append.1 hd with h | h
      · exact hpre d h
      · simp at h; omega
    obtain ⟨u1, hw1, hd1, hwire1, hwr1⟩ := usart_wait_some pollFuel u hu (by have := hpoll 0; omega)
    have hsl : strlen (pre ++ c :: rest ++ 0 :: tail) = (pre ++ c :: rest).length := by
      have := strlen_append_zero (pre ++ c :: rest) tail hall
      simpa using this
    have hget : (pre ++ c :: rest ++ 0 :: tail).getD pre.length 0 = c := by
      have := getD_append_middle pre (rest ++ 0 :: tail) c
      simpa using this
    have hmem : pre ++ c :: rest ++ 0 :: tail = (pre ++ [c]) ++ rest ++ 0 :: tail := by simp
    have hlen : pre.length + 1 = (pre ++ [c]).length := by simp
    obtain ⟨u2, h2, hwire2⟩ := ih (pre ++ [c]) tail (writeTXDATAL w c u1) f hpre' hrest'
      (by simp at hlf; omega)
      (by right; simp only [writeTXDATAL, hd1, if_true]; exact hpoll _)
    refine ⟨u2, ?_, ?_⟩
    · rw [uart_send_loop, hsl, if_pos (by simp), hw1]
      simp only [hget]
      rw [hlen, hmem]
      exact h2
    · rw [hwire2]
      simp [writeTXDATAL, hd1, hwire1]

theorem sprintf_out_report (a b c : Nat) :
    sprintf_out uart_report_format [a, b, c]
      = cstr "LDR Value: " ++ fmt_u a ++ [13, 10]
        ++ (cstr "NTC Value: " ++ fmt_u b ++ [13, 10])
        ++ (cstr "POT Value: " ++ fmt_u c ++ [13, 10])
        ++ [10] := by
  have hf : uart_report_format
      = [76, 68, 82, 32, 86, 97, 108, 117, 101, 58, 32, 37, 117, 13, 10,
         78, 84, 67, 32, 86, 97, 108, 117, 101, 58, 32, 37, 117, 13, 10,
         80, 79, 84, 32, 86, 97, 108, 117, 101, 58, 32, 37, 117, 13, 10, 10] := by decide
  have h1 : cstr "LDR Value: " = [76, 68, 82, 32, 86, 97, 108, 117, 101, 58, 32] := by decide
  have h2 : cstr "NTC Value: " = [78, 84, 67, 32, 86, 97, 108, 117, 101, 58, 32] := by decide
  have h3 : cstr "POT Value: " = [80, 79, 84, 32, 86, 97, 108, 117, 101, 58, 32] := by decide
  rw [hf, h1, h2, h3]
  simp [sprintf_out]

theorem lf_follows_cr_line (xs : List Nat) (hx : ∀ c ∈ xs, c ≠ 10) :
    ∀ (p : Nat) (rest : List Nat),
    lf_follows_cr_from p (xs ++ 13 :: 10 :: rest) = lf_follows_cr_from 10 rest := by
  induction xs with
  | nil => intro p rest; simp [lf_follows_cr_from]
  | cons x xs ih =>
    intro p rest
    have hx0 : x ≠ 10 := hx x (by simp)
    have hxs : ∀ c ∈ xs, c ≠ 10 := fun c hc => hx c (by simp [hc])
    simp [lf_follows_cr_from, hx0, ih hxs]

theorem spec_decimal_digits (n : Nat) (h : n < 65536) : ∀ c ∈ spec_decimal n, 48 ≤ c ∧ c ≤ 57 := by
  rw [← fmt_u_eq_spec_decimal n h]
  exact fmt_u_aux_digits 5 (n % 65536) [] (by simp)

theorem spec_decimal_length (n : Nat) (h : n < 65536) : (spec_decimal n).length ≤ 5 := by
  rw [← fmt_u_eq_spec_decimal n h]
  have := (fmt_u_aux_length 5 5 (n % 65536) []
    (lt_of_le_of_lt (Nat.mod_le _ _) (by norm_num; omega)) (by omega) (by omega)).2
  simpa [fmt_u] using this

theorem spec_report_line_bytes (lab : List Nat) (n : Nat) (h : n < 65536)
    (hl : ∀ c ∈ lab, 32 ≤ c ∧ c < 128) : ∀ c ∈ lab ++ spec_decimal n, 32 ≤ c ∧ c < 128 := by
  intro c hc
  rcases List.mem_append.1 hc with h1 | h1
  · exact hl c h1
  · have := spec_decimal_digits n h c h1
    omega

theorem spec_report_bytes (ldr ntc pot : Nat) (h1 : ldr < 65536) (h2 : ntc < 65536)
    (h3 : pot < 65536) : ∀ c ∈ spec_report ldr ntc pot, 0 < c ∧ c < 128 := by
  have hl1 : ∀ c ∈ cstr "LDR Value: ", 32 ≤ c ∧ c < 128 := by decide
  have hl2 : ∀ c ∈ cstr "NTC Value: ", 32 ≤ c ∧ c < 128 := by decide
  have hl3 : ∀ c ∈ cstr "POT Value: ", 32 ≤ c ∧ c < 128 := by decide
  have a1 := spec_report_line_bytes _ ldr h1 hl1
  have a2 := spec_report_line_bytes _ ntc h2 hl2
  have a3 := spec_report_line_bytes _ pot h3 hl3
  intro c hc
  simp only [spec_report, List.mem_append, List.mem_cons, List.mem_singleton,
    List.not_mem_nil, or_false] at hc
  rcases hc with ((((hc | hc) | hc) | (hc | hc)) | (hc | hc)) | hc
  · exact ⟨by have := a1 c (List.mem_append.2 (Or.inl hc)); omega,
      (a1 c (List.mem_append.2 (Or.inl hc))).2⟩
  · exact ⟨by have := a1 c (List.mem_append.2 (Or.inr hc)); omega,
      (a1 c (List.mem_append.2 (Or.inr hc))).2⟩
  · rcases hc with hc | hc <;> omega
  · rcases hc with hc | hc
    · exact ⟨by have := a2 c (List.mem_append.2 (Or.inl hc)); omega,
        (a2 c (List.mem_append.2 (Or.inl hc))).2⟩
    · exact ⟨by have := a2 c (List.mem_append.2 (Or.inr hc)); omega,
        (a2 c (List.mem_append.2 (Or.inr hc))).2⟩
  · rcases hc with hc | hc <;> omega
  · rcases hc with hc | hc
    · exact ⟨by have := a3 c (List.mem_append.2 (Or.inl hc)); omega,
        (a3 c (List.mem_append.2 (Or.inl hc))).2⟩
    · exact ⟨by have := a3 c (List.mem_append.2 (Or.inr hc)); omega,
        (a3 c (List.mem_append.2 (Or.inr hc))).2⟩
  · rcases hc with hc | hc <;> omega
  · omega

theorem spec_report_lines (ldr ntc pot : Nat) (h1 : ldr < 65536) (h2 : ntc < 65536)
    (h3 : pot < 65536) :
    lf_follows_cr (spec_report ldr ntc pot).dropLast = true ∧
      (spec_report ldr ntc pot).getLast? = some 10 ∧
      (spec_report ldr ntc pot).dropLast.getLast? = some 10 := by
  have hl1 : ∀ c ∈ cstr "LDR Value: ", 32 ≤ c ∧ c < 128 := by decide
  have hl2 : ∀ c ∈ cstr "NTC Value: ", 32 ≤ c ∧ c < 128 := by decide
  have hl3 : ∀ c ∈ cstr "POT Value: ", 32 ≤ c ∧ c < 128 := by decide
  have a1 : ∀ c ∈ cstr "LDR Value: " ++ spec_decimal ldr, c ≠ 10 := fun c hc => by
    have := spec_report_line_bytes _ ldr h1 hl1 c hc; omega
  have a2 : ∀ c ∈ cstr "NTC Value: " ++ spec_decimal ntc, c ≠ 10 := fun c hc => by
    have := spec_report_line_bytes _ ntc h2 hl2 c hc; omega
  have a3 : ∀ c ∈ cstr "POT Value: " ++ spec_decimal pot, c ≠ 10 := fun c hc => by
    have := spec_report_line_bytes _ pot h3 hl3 c hc; omega
  have hdl : (spec_report ldr ntc pot).dropLast
      = (cstr "LDR Value: " ++ spec_decimal ldr) ++ 13 :: 10 ::
        ((cstr "NTC Value: " ++ spec_decimal ntc) ++ 13 :: 10 ::
          ((cstr "POT Value: " ++ spec_decimal pot) ++ 13 :: 10 :: [])) := by
    unfold spec_report
    rw [List.dropLast_concat]
    simp
  refine ⟨?_, ?_, ?_⟩
  · rw [hdl, lf_follows_cr, lf_follows_cr_line _ a1, lf_follows_cr_line _ a2,
      lf_follows_cr_line _ a3]
    rfl
  · unfold spec_report
    exact List.getLast?_concat _
  · rw [hdl]
    have e : (cstr "LDR Value: " ++ spec_decimal ldr) ++ 13 :: 10 ::
        ((cstr "NTC Value: " ++ spec_decimal ntc) ++ 13 :: 10 ::
          ((cstr "POT Value: " ++ spec_decimal pot) ++ 13 :: 10 :: []))
        = ((cstr "LDR Value: " ++ spec_decimal ldr) ++ 13 :: 10 ::
        ((cstr "NTC Value: " ++ spec_decimal ntc) ++ 13 :: 10 ::
          ((cstr "POT Value: " ++ spec_decimal pot) ++ [13]))) ++ [10] := by simp
    rw [e]
    exact List.getLast?_concat _

/-- C14, as stated, fails: for the readings 0, 5 and 1023 (data register empty
at the start) one pass of the reporter transmits the 46 bytes below; the last
byte is a line feed that follows a line feed, not a carriage return. -/
theorem uart_send_reports_bare_line_feed :
    (uart_send_reports_iter demoLine 60 0 5 1023 (List.replicate 60 0xA5) [7]
        ⟨true, 0, 0, []⟩).map (fun u => (u.wire, lf_follows_cr u.wire))
      = some ([76, 68, 82, 32, 86, 97, 108, 117, 101, 58, 32, 48, 13, 10,
               78, 84, 67, 32, 86, 97, 108, 117, 101, 58, 32, 53, 13, 10,
               80, 79, 84, 32, 86, 97, 108, 117, 101, 58, 32, 49, 48, 50, 51, 13, 10, 10],
              false) := by
  decide

/-- C14, amended: for all 16-bit readings, with enough polls, one pass of the
serial reporter returns and the bytes it transmits are, in order, the
formatted report: three lines (label, decimal digits, CR LF) and then one more
line feed. All bytes are ASCII; every line feed except that final one is
immediately preceded by a carriage return; the final line feed is preceded by
a line feed. -/
theorem uart_send_reports_iter_report (w : SerialLine) (fuel ldr ntc pot : Nat)
    (msg_string beyond : List Nat) (u : Usart)
    (h1 : ldr < 65536) (h2 : ntc < 65536) (h3 : pot < 65536)
    (hm : msg_string.length = 60) (hpoll : ∀ k, w.latency k + 2 ≤ fuel) (hloop : 56 ≤ fuel)
    (hu : u.dreif = true ∨ u.tx_wait + 2 ≤ fuel) :
    (∃ u', uart_send_reports_iter w fuel ldr ntc pot msg_string beyond u = some u' ∧
        u'.wire = u.wire ++ spec_report ldr ntc pot) ∧
      (∀ c ∈ spec_report ldr ntc pot, c < 128) ∧
      lf_follows_cr (spec_report ldr ntc pot).dropLast = true ∧
      (spec_report ldr ntc pot).getLast? = some 10 ∧
      (spec_report ldr ntc pot).dropLast.getLast? = some 10 := by
  have hbytes := spec_report_bytes ldr ntc pot h1 h2 h3
  have hout : sprintf_out uart_report_format [ldr, ntc, pot] = spec_report ldr ntc pot := by
    rw [sprintf_out_report, fmt_u_eq_spec_decimal ldr h1, fmt_u_eq_spec_decimal ntc h2,
      fmt_u_eq_spec_decimal pot h3]
    rfl
  have hlen : (spec_report ldr ntc pot).length ≤ 55 := by
    have l1 := spec_decimal_length ldr h1
    have l2 := spec_decimal_length ntc h2
    have l3 := spec_decimal_length pot h3
    have c1 : (cstr "LDR Value: ").length = 11 := by decide
    have c2 : (cstr "NTC Value: ").length = 11 := by decide
    have c3 : (cstr "POT Value: ").length = 11 := by decide
    simp only [spec_report, List.length_append, List.length_cons, List.length_nil, c1, c2, c3]
    omega
  have hnz : ∀ c ∈ spec_report ldr ntc pot, c ≠ 0 := fun c hc => by
    have := hbytes c hc; omega
  have hmap : (spec_report ldr ntc pot).map (fun c => c % 256) = spec_report ldr ntc pot := by
    conv_rhs => rw [← List.map_id (spec_report ldr ntc pot)]
    apply List.map_congr_left
    intro c hc
    have := hbytes c hc
    show c % 256 = c
    omega
  refine ⟨?_, fun c hc => (hbytes c hc).2, spec_report_lines ldr ntc pot h1 h2 h3⟩
  unfold uart_send_reports_iter
  rw [sprintf_fits _ _ _ (by rw [hout]; simp; omega), hout]
  obtain ⟨u', hu', hw'⟩ := uart_send_loop_sends w fuel hpoll (spec_report ldr ntc pot) []
    ((msg_string ++ beyond).drop ((spec_report ldr ntc pot).length + 1)) u fuel
    (by simp) hnz (by omega) hu
  refine ⟨u', ?_, ?_⟩
  · simpa using hu'
  · rw [hw', hmap]

/-- Witness of C14 (amended): the readings 0, 5 and 1023 on a line whose
data register is full for three more polls at the start. -/
theorem uart_send_reports_iter_report_witness :
    0 < 65536 ∧ 5 < 65536 ∧ 1023 < 65536 ∧ (List.replicate 60 0xA5).length = 60 ∧
      (∀ k, demoLine.latency k + 2 ≤ 60) ∧ 56 ≤ 60 ∧
      ((Usart.mk false 3 0 []).dreif = true ∨ (Usart.mk false 3 0 []).tx_wait + 2 ≤ 60) ∧
      (∃ u', uart_send_reports_iter demoLine 60 0 5 1023 (List.replicate 60 0xA5) [7]
          ⟨false, 3, 0, []⟩ = some u' ∧
        u'.wire = (Usart.mk false 3 0 []).wire ++ spec_report 0 5 1023) :=
  ⟨by decide, by decide, by decide, by decide,
    fun k => by show k % 4 + 2 ≤ 60; omega, by decide, by decide,
    (uart_send_reports_iter_report demoLine 60 0 5 1023 (List.replicate 60 0xA5) [7]
      ⟨false, 3, 0, []⟩ (by decide) (by decide) (by decide) (by decide)
      (fun k => by show k % 4 + 2 ≤ 60; omega) (by decide) (by decide)).1⟩

/-! ## Precursor exercises: glyph tables -/

/-- C16: the glyph tables of the exercises hold the bitmaps 0x3F, 0x06, 0x5B,
0x4F, 0x66, 0x6D, 0x7D, 0x07, 0x7F, 0x6F for 0..9 (the same in the tables of
W02, W03, W04 and W06), 0x77 for A at index 10 of the W04 table and 0x79 for E
at index 10 of the W06 table; and the mapping from the twelve symbols to
bitmaps is injective. -/
theorem glyph_tables :
    W02_led_configurations = [0x3F, 0x06, 0x5B, 0x4F, 0x66, 0x6D, 0x7D, 0x07, 0x7F, 0x6F] ∧
      W03_led_configurations = [0x3F, 0x06, 0x5B, 0x4F, 0x66, 0x6D, 0x7D, 0x07, 0x7F, 0x6F] ∧
      W04_led_configurations
        = [0x3F, 0x06, 0x5B, 0x4F, 0x66, 0x6D, 0x7D, 0x07, 0x7F, 0x6F, 0x77] ∧
      W06_led_configurations
        = [0x3F, 0x06, 0x5B, 0x4F, 0x66, 0x6D, 0x7D, 0x07, 0x7F, 0x6F, 0x79] ∧
      (List.range 12).map spec_glyph
        = [some 0x3F, some 0x06, some 0x5B, some 0x4F, some 0x66, some 0x6D, some 0x7D,
           some 0x07, some 0x7F, some 0x6F, some 0x77, some 0x79] ∧
      (∀ a < 12, ∀ b < 12, spec_glyph a = spec_glyph b → a = b) := by
  refine ⟨?_, ?_, ?_, ?_, ?_, ?_⟩ <;> decide

/-! ## Precursor exercises: the scoreboard -/

theorem usart_receive_digit_spec (b : Nat) (hb : b < 256) :
    usart_receive_digit b = (if 48 ≤ b ∧ b ≤ 57 then b - 48 else 10) := by
  unfold usart_receive_digit
  simp only []
  split <;> split <;> omega

theorem uart_send_loop_sends_ready (w : SerialLine) (pollFuel : Nat)
    (hpoll : ∀ k, w.latency k + 2 ≤ pollFuel) (rest : List Nat) :
    ∀ (pre tail : List Nat) (u : Usart) (loopFuel : Nat),
    (∀ c ∈ pre, c ≠ 0) → (∀ c ∈ rest, c ≠ 0) → rest.length < loopFuel →
    (u.dreif = true ∨ u.tx_wait + 2 ≤ pollFuel) →
    ∃ u', uart_send_loop w pollFuel loopFuel pre.length (pre ++ rest ++ 0 :: tail) u = some u' ∧
      u'.wire = u.wire ++ rest.map (fun c => c % 256) ∧
      (u'.dreif = true ∨ u'.tx_wait + 2 ≤ pollFuel) := by
  induction rest with
  | nil =>
    intro pre tail u loopFuel hpre _ hlf hu
    obtain ⟨f, rfl⟩ : ∃ f, loopFuel = f + 1 := ⟨loopFuel - 1, by simp at hlf; omega⟩
    refine ⟨u, ?_, by simp, hu⟩
    rw [uart_send_loop]
    simp only [List.append_nil]
    rw [strlen_append_zero pre tail hpre]
    simp
  | cons c rest ih =>
    intro pre tail u loopFuel hpre hrest hlf hu
    obtain ⟨f, rfl⟩ : ∃ f, loopFuel = f + 1 := ⟨loopFuel - 1, by omega⟩
    have hc : c ≠ 0 := hrest c (by simp)
    have hrest' : ∀ d ∈ rest, d ≠ 0 := fun d hd => hrest d (by simp [hd])
    have hall : ∀ d ∈ pre ++ c :: rest, d ≠ 0 := by
      intro d hd
      rcases List.mem_append.1 hd with h | h
      · exact hpre d h
      · exact hrest d h
    have hpre' : ∀ d ∈ pre ++ [c], d ≠ 0 := by
      intro d hd
      rcases List.mem_append.1 hd with h | h
      · exact hpre d h
      · simp at h; omega
    obtain ⟨u1, hw1, hd1, hwire1, hwr1⟩ := usart_wait_some pollFuel u hu (by have := hpoll 0; omega)
    have hsl : strlen (pre ++ c :: rest ++ 0 :: tail) = (pre ++ c :: rest).length := by
      have := strlen_append_zero (pre ++ c :: rest) tail hall
      simpa using this
    have hget : (pre ++ c :: rest ++ 0 :: tail).getD pre.length 0 = c := by
      have := getD_append_middle pre (rest ++ 0 :: tail) c
      simpa using this
    have hmem : pre ++ c :: rest ++ 0 :: tail = (pre ++ [c]) ++ rest ++ 0 :: tail := by simp
    have hlen : pre.length + 1 = (pre ++ [c]).length := by simp
    obtain ⟨u2, h2, hwire2, hready2⟩ := ih (pre ++ [c]) tail (writeTXDATAL w c u1) f hpre' hrest'
      (by simp at hlf; omega)
      (by right; simp only [writeTXDATAL, hd1, if_true]; exact hpoll _)
    refine ⟨u2, ?_, ?_, hready2⟩
    · rw [uart_send_loop, hsl, if_pos (by simp), hw1]
      simp only [hget]
      rw [hlen, hmem]
      exact h2
    · rw [hwire2]
      simp [writeTXDATAL, hd1, hwire1]

theorem usart_send_msg_string_sent (w : SerialLine) (fuel digit : Nat) (u : Usart)
    (hpoll : ∀ k, w.latency k + 2 ≤ fuel) (hloop : 28 ≤ fuel)
    (hu : u.dreif = true ∨ u.tx_wait + 2 ≤ fuel) :
    ∃ u', uart_send_loop w fuel fuel 0 (usart_send_msg_string digit) u = some u' ∧
      u'.wire = u.wire ++ (if digit = 10 then cstr "Error! Not a valid digit.\r\n"
        else cstr "Number received!\r\n") ∧
      (u'.dreif = true ∨ u'.tx_wait + 2 ≤ fuel) := by
  by_cases hd : digit = 10
  · obtain ⟨u', h1, h2, h3⟩ := uart_send_loop_sends_ready w fuel hpoll
      (cstr "Error! Not a valid digit.\r\n") [] [] u fuel (by simp) (by decide)
      (by have : (cstr "Error! Not a valid digit.\r\n").length = 27 := by decide
          omega) hu
    refine ⟨u', ?_, ?_, h3⟩
    · simpa [usart_send_msg_string, hd] using h1
    · rw [h2, if_pos hd]
      have : (cstr "Error! Not a valid digit.\r\n").map (fun c => c % 256)
          = cstr "Error! Not a valid digit.\r\n" := by decide
      rw [this]
  · obtain ⟨u', h1, h2, h3⟩ := uart_send_loop_sends_ready w fuel hpoll
      (cstr "Number received!\r\n") [] [] u fuel (by simp) (by decide)
      (by have : (cstr "Number received!\r\n").length = 18 := by decide
          omega) hu
    refine ⟨u', ?_, ?_, h3⟩
    · simpa [usart_send_msg_string, hd] using h1
    · rw [h2, if_neg hd]
      have : (cstr "Number received!\r\n").map (fun c => c % 256)
          = cstr "Number received!\r\n" := by decide
      rw [this]

theorem usart_send_iter_pops (w : SerialLine) (fuel : Nat) (s : W06) (digit : Nat)
    (queue : List Nat) (hpoll : ∀ k, w.latency k + 2 ≤ fuel) (hloop : 28 ≤ fuel)
    (hu : s.usart.dreif = true ∨ s.usart.tx_wait + 2 ≤ fuel)
    (hq : s.queue_A = digit :: queue) :
    ∃ s', usart_send_iter w fuel s = some s' ∧ s'.queue_A = queue ∧
      s'.queue_B = s.queue_B ∧ s'.PORTC_OUT = s.PORTC_OUT ∧
      s'.usart.wire = s.usart.wire ++ (if digit = 10 then cstr "Error! Not a valid digit.\r\n"
        else cstr "Number received!\r\n") ∧
      (s'.usart.dreif = true ∨ s'.usart.tx_wait + 2 ≤ fuel) := by
  obtain ⟨u', h1, h2, h3⟩ := usart_send_msg_string_sent w fuel digit s.usart hpoll hloop hu
  refine ⟨{ s with queue_A := queue, usart := u' }, ?_, rfl, rfl, rfl, h2, h3⟩
  unfold usart_send_iter
  rw [hq]
  simp only [h1]

theorem usart_send_iter_some (w : SerialLine) (fuel : Nat) (s : W06)
    (hpoll : ∀ k, w.latency k + 2 ≤ fuel) (hloop : 28 ≤ fuel)
    (hu : s.usart.dreif = true ∨ s.usart.tx_wait + 2 ≤ fuel) :
    ∃ s', usart_send_iter w fuel s = some s' ∧
      s'.queue_B = s.queue_B ∧ s'.PORTC_OUT = s.PORTC_OUT ∧
      (s'.usart.dreif = true ∨ s'.usart.tx_wait + 2 ≤ fuel) := by
  cases hq : s.queue_A with
  | nil =>
    refine ⟨s, ?_, rfl, rfl, hu⟩
    unfold usart_send_iter
    rw [hq]
  | cons digit queue =>
    obtain ⟨s', h1, _, h3, h4, _, h6⟩ := usart_send_iter_pops w fuel s digit queue hpoll hloop hu hq
    exact ⟨s', h1, h3, h4, h6⟩

theorem xQueueSend10_behind (pre post : List Nat) (d item : Nat) :
    ∃ post', xQueueSend10 (pre ++ d :: post) item = pre ++ d :: post' := by
  unfold xQueueSend10
  split
  · exact ⟨post ++ [item], by simp⟩
  · exact ⟨post, rfl⟩

theorem w06_run_append (w : SerialLine) (fuel : Nat) (a b : List W06Step) :
    ∀ (s s' : W06), w06_run w fuel a s = some s' →
      w06_run w fuel (a ++ b) s = w06_run w fuel b s' := by
  induction a with
  | nil =>
    intro s s' h
    simp only [w06_run, Option.some.injEq] at h
    rw [h]; rfl
  | cons e a ih =>
    intro s s' h
    simp only [w06_run, List.cons_append] at h ⊢
    cases hs : w06_step w fuel e s with
    | none => rw [hs] at h; simp at h
    | some s1 =>
      rw [hs] at h
      exact ih s1 s' h

theorem w06_run_display_fifo (w : SerialLine) (fuel : Nat)
    (hpoll : ∀ k, w.latency k + 2 ≤ fuel) (hloop : 28 ≤ fuel) :
    ∀ (es : List W06Step) (pre post : List Nat) (d : Nat) (s : W06),
    s.queue_B = pre ++ d :: post →
    (s.usart.dreif = true ∨ s.usart.tx_wait + 2 ≤ fuel) →
    es.count W06Step.display = pre.length →
    ∃ s' post', w06_run w fuel es s = some s' ∧ s'.queue_B = d :: post' := by
  intro es
  induction es with
  | nil =>
    intro pre post d s hq _ hc
    have hpre : pre = [] := by
      cases pre with
      | nil => rfl
      | cons p pre => simp at hc
    subst hpre
    exact ⟨s, post, rfl, hq⟩
  | cons e es ih =>
    intro pre post d s hq hu hc
    cases e with
    | receive rxdata =>
      obtain ⟨post1, hp1⟩ := xQueueSend10_behind pre post d (usart_receive_digit rxdata)
      have hq1 : (usart_receive_iter rxdata s).queue_B = pre ++ d :: post1 := by
        show xQueueSend10 s.queue_B (usart_receive_digit rxdata) = _
        rw [hq, hp1]
      have hc1 : es.count W06Step.display = pre.length := by
        simpa [List.count_cons] using hc
      obtain ⟨s', post', h1, h2⟩ := ih pre post1 d (usart_receive_iter rxdata s) hq1 hu hc1
      exact ⟨s', post', h1, h2⟩
    | send =>
      obtain ⟨s1, hs1, hb1, _, hu1⟩ := usart_send_iter_some w fuel s hpoll hloop hu
      have hc1 : es.count W06Step.display = pre.length := by
        simpa [List.count_cons] using hc
      obtain ⟨s', post', h1, h2⟩ := ih pre post d s1 (by rw [hb1, hq]) hu1 hc1
      refine ⟨s', post', ?_, h2⟩
      show (match usart_send_iter w fuel s with
        | none => none
        | some s => w06_run w fuel es s) = some s'
      rw [hs1]
      exact h1
    | display =>
      cases pre with
      | nil => simp [List.count_cons] at hc
      | cons p pre =>
        have hc1 : es.count W06Step.display = pre.length := by
          simpa [List.count_cons] using hc
        have hq1 : (display_score_iter s).queue_B = pre ++ d :: post := by
          unfold display_score_iter
          rw [hq]
          rfl
        have hu1 : (display_score_iter s).usart = s.usart := by
          unfold display_score_iter
          rw [hq]
          rfl
        obtain ⟨s', post', h1, h2⟩ := ih pre post d (display_score_iter s) hq1
          (by rw [hu1]; exact hu) hc1
        exact ⟨s', post', h1, h2⟩

theorem w06_run_send_fifo (w : SerialLine) (fuel : Nat)
    (hpoll : ∀ k, w.latency k + 2 ≤ fuel) (hloop : 28 ≤ fuel) :
    ∀ (es : List W06Step) (pre post : List Nat) (d : Nat) (s : W06),
    s.queue_A = pre ++ d :: post →
    (s.usart.dreif = true ∨ s.usart.tx_wait + 2 ≤ fuel) →
    es.count W06Step.send = pre.length →
    ∃ s' post', w06_run w fuel es s = some s' ∧ s'.queue_A = d :: post' ∧
      (s'.usart.dreif = true ∨ s'.usart.tx_wait + 2 ≤ fuel) := by
  intro es
  induction es with
  | nil =>
    intro pre post d s hq hu hc
    have hpre : pre = [] := by
      cases pre with
      | nil => rfl
      | cons p pre => simp at hc
    subst hpre
    exact ⟨s, post, rfl, hq, hu⟩
  | cons e es ih =>
    intro pre post d s hq hu hc
    cases e with
    | receive rxdata =>
      obtain ⟨post1, hp1⟩ := xQueueSend10_behind pre post d (usart_receive_digit rxdata)
      have hq1 : (usart_receive_iter rxdata s).queue_A = pre ++ d :: post1 := by
        show xQueueSend10 s.queue_A (usart_receive_digit rxdata) = _
        rw [hq, hp1]
      have hc1 : es.count W06Step.send = pre.length := by
        simpa [List.count_cons] using hc
      obtain ⟨s', post', h1, h2, h3⟩ := ih pre post1 d (usart_receive_iter rxdata s) hq1 hu hc1
      exact ⟨s', post', h1, h2, h3⟩
    | send =>
      cases pre with
      | nil => simp [List.count_cons] at hc
      | cons p pre =>
        have hc1 : es.count W06Step.send = pre.length := by
          simpa [List.count_cons] using hc
        obtain ⟨s1, hs1, hq1, _, _, _, hu1⟩ := usart_send_iter_pops w fuel s p (pre ++ d :: post)
          hpoll hloop hu hq
        obtain ⟨s', post', h1, h2, h3⟩ := ih pre post d s1 hq1 hu1 hc1
        refine ⟨s', post', ?_, h2, h3⟩
        show (match usart_send_iter w fuel s with
          | none => none
          | some s => w06_run w fuel es s) = some s'
        rw [hs1]
        exact h1
    | display =>
      have hc1 : es.count W06Step.send = pre.length := by
        simpa [List.count_cons] using hc
      have hq1 : (display_score_iter s).queue_A = pre ++ d :: post := by
        unfold display_score_iter
        split
        · exact hq
        · exact hq
      have hu1 : (display_score_iter s).usart = s.usart := by
        unfold display_score_iter
        split <;> rfl
      obtain ⟨s', post', h1, h2, h3⟩ := ih pre post d (display_score_iter s) hq1
        (by rw [hu1]; exact hu) hc1
      exact ⟨s', post', h1, h2, h3⟩

-- A pass of `display_score` does not depend on `queue_A` and leaves it as it is.
theorem display_score_iter_apart (s : W06) (queue : List Nat) :
    display_score_iter { s with queue_A := queue }
      = { display_score_iter s with queue_A := queue } := by
  obtain ⟨qa, qb, o, u⟩ := s
  cases qb <;> rfl

-- A pass of `usart_send` does not depend on `queue_B` and leaves it as it is.
theorem usart_send_iter_apart (w : SerialLine) (fuel : Nat) (s : W06) (queue : List Nat) :
    usart_send_iter w fuel { s with queue_B := queue }
      = (usart_send_iter w fuel s).map (fun s' => { s' with queue_B := queue }) := by
  obtain ⟨qa, qb, o, u⟩ := s
  cases qa with
  | nil => rfl
  | cons digit rest =>
    cases h : uart_send_loop w fuel fuel 0 (usart_send_msg_string digit) u with
    | none => simp [usart_send_iter, h]
    | some v => simp [usart_send_iter, h]

/-- C17, as stated, fails for a byte that arrives while ten values are still
pending: from the start, eleven bytes are received before `usart_send` and
`display_score` run. The first ten (here the letter x, queued as 10) fill both
queues; for the eleventh, the digit 7, both queue sends leave the full queue
as it is, so the byte changes nothing: the value 7 is in neither queue, and
the passes of `display_score` that follow never write the glyph of 7 (0x07). -/
theorem scoreboard_full_queue_drops_byte :
    usart_receive_digit 55 = 7 ∧
      w06_run demoLine 40 (List.replicate 10 (W06Step.receive 120)) W06.init
        = some { W06.init with queue_A := List.replicate 10 10,
                               queue_B := List.replicate 10 10 } ∧
      w06_run demoLine 40 (List.replicate 10 (W06Step.receive 120) ++ [W06Step.receive 55])
          W06.init
        = w06_run demoLine 40 (List.replicate 10 (W06Step.receive 120)) W06.init ∧
      (∀ n < 13, (w06_run demoLine 40
          (List.replicate 10 (W06Step.receive 120) ++ [W06Step.receive 55]
            ++ List.replicate n W06Step.display) W06.init).map (fun s => s.PORTC_OUT)
        ≠ some 0x07) ∧
      (w06_run demoLine 40
          (List.replicate 10 (W06Step.receive 120) ++ [W06Step.receive 55]
            ++ List.replicate 10 W06Step.display) W06.init).map (fun s => s.queue_B)
        = some [] := by
  refine ⟨by decide, by decide, by decide, by decide, by decide⟩

/-- C17, amended: for every received byte `b` and every state of the two
queues: the value passed to both queue sends is `b - '0'` for a digit character
and 10 otherwise, and is a valid index of the 11-entry table; a queue holding
fewer than 10 values takes it at its tail, a queue holding 10 stays as it is
(the result of `xQueueSend` is not looked at, the byte is dropped). When
`queue_B` took the value, then in every order of later task passes, whatever
bytes are received meanwhile, the pass of `display_score` that comes after as
many passes of it as values were pending writes the glyph of that digit, or
the glyph of E (0x79), to the segment port. When `queue_A` took the value, the
pass of `usart_send` that comes after as many passes of it as values were
pending transmits "Number received!\r\n" for a digit and
"Error! Not a valid digit.\r\n" otherwise. -/
theorem scoreboard_byte (b fuel : Nat) (w : SerialLine) (s : W06)
    (hb : b < 256)
    (hpoll : ∀ k, w.latency k + 2 ≤ fuel) (hloop : 28 ≤ fuel)
    (hu : s.usart.dreif = true ∨ s.usart.tx_wait + 2 ≤ fuel) :
    usart_receive_digit b = (if 48 ≤ b ∧ b ≤ 57 then b - 48 else 10) ∧
      usart_receive_digit b < W06_led_configurations.length ∧
      (usart_receive_iter b s).queue_A
        = (if s.queue_A.length < 10 then s.queue_A ++ [usart_receive_digit b]
           else s.queue_A) ∧
      (usart_receive_iter b s).queue_B
        = (if s.queue_B.length < 10 then s.queue_B ++ [usart_receive_digit b]
           else s.queue_B) ∧
      (s.queue_B.length < 10 → ∀ es : List W06Step,
        es.count W06Step.display = s.queue_B.length →
        ∃ s', w06_run w fuel (W06Step.receive b :: es ++ [W06Step.display]) s = some s' ∧
          some s'.PORTC_OUT = spec_glyph (if 48 ≤ b ∧ b ≤ 57 then b - 48 else 11) ∧
          ((¬(48 ≤ b ∧ b ≤ 57)) → s'.PORTC_OUT = 0x79)) ∧
      (s.queue_A.length < 10 → ∀ es : List W06Step,
        es.count W06Step.send = s.queue_A.length →
        ∃ s0 s', w06_run w fuel (W06Step.receive b :: es) s = some s0 ∧
          w06_run w fuel (W06Step.receive b :: es ++ [W06Step.send]) s = some s' ∧
          s'.usart.wire = s0.usart.wire ++
            (if 48 ≤ b ∧ b ≤ 57 then cstr "Number received!\r\n"
             else cstr "Error! Not a valid digit.\r\n")) := by
  have hd := usart_receive_digit_spec b hb
  have hus : (usart_receive_iter b s).usart = s.usart := rfl
  refine ⟨hd, ?_, rfl, rfl, ?_, ?_⟩
  · rw [hd]
    split
    · show b - 48 < 11; omega
    · decide
  · intro hB es hc
    have hq : (usart_receive_iter b s).queue_B = s.queue_B ++ usart_receive_digit b :: [] := by
      show xQueueSend10 s.queue_B (usart_receive_digit b) = _
      unfold xQueueSend10
      rw [if_pos hB]
    obtain ⟨s1, post', h1, h2⟩ := w06_run_display_fifo w fuel hpoll hloop es s.queue_B []
      (usart_receive_digit b) (usart_receive_iter b s) hq hu hc
    have hrun : w06_run w fuel (W06Step.receive b :: es ++ [W06Step.display]) s
        = some (display_score_iter s1) := by
      have := w06_run_append w fuel es [W06Step.display] (usart_receive_iter b s) s1 h1
      show w06_run w fuel (es ++ [W06Step.display]) (usart_receive_iter b s) = _
      rw [this]
      rfl
    have hout : (display_score_iter s1).PORTC_OUT
        = glyphAt W06_led_configurations (usart_receive_digit b) := by
      unfold display_score_iter
      rw [h2]
    refine ⟨display_score_iter s1, hrun, ?_, ?_⟩
    · rw [hout, hd]
      split
      · rename_i h
        obtain ⟨k, hk, hkb⟩ : ∃ k, k < 10 ∧ b - 48 = k := ⟨b - 48, by omega, rfl⟩
        rw [hkb]
        interval_cases k <;> rfl
      · rfl
    · intro hnd
      rw [hout, hd, if_neg hnd]
      rfl
  · intro hA es hc
    have hq : (usart_receive_iter b s).queue_A = s.queue_A ++ usart_receive_digit b :: [] := by
      show xQueueSend10 s.queue_A (usart_receive_digit b) = _
      unfold xQueueSend10
      rw [if_pos hA]
    obtain ⟨s1, post', h1, h2, h3⟩ := w06_run_send_fifo w fuel hpoll hloop es s.queue_A []
      (usart_receive_digit b) (usart_receive_iter b s) hq hu hc
    obtain ⟨s2, hs2, _, _, _, hwire, _⟩ := usart_send_iter_pops w fuel s1
      (usart_receive_digit b) post' hpoll hloop h3 h2
    refine ⟨s1, s2, h1, ?_, ?_⟩
    · have := w06_run_append w fuel es [W06Step.send] (usart_receive_iter b s) s1 h1
      show w06_run w fuel (es ++ [W06Step.send]) (usart_receive_iter b s) = _
      rw [this]
      show (match usart_send_iter w fuel s1 with
        | none => none
        | some s => w06_run w fuel [] s) = some s2
      rw [hs2]
      rfl
    · rw [hwire, hd]
      by_cases h : 48 ≤ b ∧ b ≤ 57
      · have : b - 48 ≠ 10 := by omega
        simp [h, this]
      · simp [h]

/-- Witness of C17: the byte '7' (55) arrives while the value 3 is pending in
`queue_A` and the value 10 in `queue_B`; the letter x (120) arrives later. The
second pass of `display_score` shows the glyph of 7 and the second pass of
`usart_send` transmits "Number received!\r\n". -/
theorem scoreboard_byte_witness :
    55 < 256 ∧ (∀ k, demoLine.latency k + 2 ≤ 40) ∧ 28 ≤ 40 ∧
      usart_receive_digit 55 = 7 ∧
      (usart_receive_iter 55 ⟨[3], [10], 0, ⟨true, 0, 0, []⟩⟩).queue_B = [10, 7] ∧
      (∃ s', w06_run demoLine 40
          (W06Step.receive 55 :: [W06Step.display, W06Step.receive 120, W06Step.send]
            ++ [W06Step.display]) ⟨[3], [10], 0, ⟨true, 0, 0, []⟩⟩ = some s' ∧
        some s'.PORTC_OUT = some 0x07 ∧ ((¬(48 ≤ 55 ∧ 55 ≤ 57)) → s'.PORTC_OUT = 0x79)) ∧
      (∃ s0 s', w06_run demoLine 40
          (W06Step.receive 55 :: [W06Step.send, W06Step.receive 120])
          ⟨[3], [10], 0, ⟨true, 0, 0, []⟩⟩ = some s0 ∧
        w06_run demoLine 40
          (W06Step.receive 55 :: [W06Step.send, W06Step.receive 120] ++ [W06Step.send])
          ⟨[3], [10], 0, ⟨true, 0, 0, []⟩⟩ = some s' ∧
        s'.usart.wire = s0.usart.wire ++ cstr "Number received!\r\n") :=
  ⟨by decide, fun k => by show k % 4 + 2 ≤ 40; omega, by decide,
    (scoreboard_byte 55 40 demoLine ⟨[3], [10], 0, ⟨true, 0, 0, []⟩⟩ (by decide)
      (fun k => by show k % 4 + 2 ≤ 40; omega) (by decide) (Or.inl rfl)).1,
    (scoreboard_byte 55 40 demoLine ⟨[3], [10], 0, ⟨true, 0, 0, []⟩⟩ (by decide)
      (fun k => by show k % 4 + 2 ≤ 40; omega) (by decide) (Or.inl rfl)).2.2.2.1,
    (scoreboard_byte 55 40 demoLine ⟨[3], [10], 0, ⟨true, 0, 0, []⟩⟩ (by decide)
      (fun k => by show k % 4 + 2 ≤ 40; omega) (by decide) (Or.inl rfl)).2.2.2.2.1
      (by decide) [W06Step.display, W06Step.receive 120, W06Step.send] (by decide),
    (scoreboard_byte 55 40 demoLine ⟨[3], [10], 0, ⟨true, 0, 0, []⟩⟩ (by decide)
      (fun k => by show k % 4 + 2 ≤ 40; omega) (by decide) (Or.inl rfl)).2.2.2.2.2
      (by decide) [W06Step.send, W06Step.receive 120] (by decide)⟩

/-! ## Precursor exercises: the countdowns -/

theorem forall_mem_concat {α : Type} (P : α → Prop) (l : List α) (x : α)
    (hl : ∀ i ∈ l, P i) (hx : P x) : ∀ i ∈ l ++ [x], P i := by
  intro i hi
  rcases List.mem_append.1 hi with h | h
  · exact hl i h
  · rw [List.mem_singleton.1 h]; exact hx

theorem w02_main_head (s : W02) (hpc : s.pc = W02Pc.head) :
    w02_main s = { s with pc := W02Pc.decided (decide (s.g_running ≠ 0)) } := by
  unfold w02_main
  rw [hpc]

theorem w02_main_decided (s : W02) (taken : Bool) (hpc : s.pc = W02Pc.decided taken) :
    w02_main s
      = { (w02_blink (if taken then w02_decrement s else s)) with pc := W02Pc.head } := by
  unfold w02_main
  rw [hpc]

theorem w03_main_head (s : W03) (hpc : s.pc = W03Pc.head) :
    w03_main s = (if s.g_running ≠ 0 then { s with pc := W03Pc.flag_seen }
      else { s with pc := W03Pc.decided false }) := by
  unfold w03_main
  rw [hpc]

theorem w03_main_flag_seen (s : W03) (hpc : s.pc = W03Pc.flag_seen) :
    w03_main s = { s with pc := W03Pc.decided (decide (s.g_clockticks = 0)) } := by
  unfold w03_main
  rw [hpc]

theorem w03_main_decided (s : W03) (taken : Bool) (hpc : s.pc = W03Pc.decided taken) :
    w03_main s
      = { (w03_blink (if taken then w03_decrement s else s)) with pc := W03Pc.head } := by
  unfold w03_main
  rw [hpc]

theorem w02_blink_halted (s : W02) (hn : s.number ≠ 0) : w02_blink s = s := by
  simp [w02_blink, hn]

theorem w03_blink_halted (s : W03) (hn : s.number ≠ 0) : w03_blink s = s := by
  simp [w03_blink, hn]

theorem w02_step_halted (e : W02Step) (s : W02) (hr : s.g_running = 0) (hn : s.number ≠ 0)
    (hp : s.pc ≠ W02Pc.decided true) :
    (w02_step e s).g_running = 0 ∧ (w02_step e s).number = s.number ∧
      (w02_step e s).pc ≠ W02Pc.decided true ∧
      (w02_step e s).PORTC_OUT = s.PORTC_OUT ∧ (w02_step e s).indexed = s.indexed ∧
      (w02_step e s).shown = s.shown := by
  cases e with
  | wire => exact ⟨rfl, rfl, hp, rfl, rfl, rfl⟩
  | main =>
    show (w02_main s).g_running = 0 ∧ (w02_main s).number = s.number ∧
      (w02_main s).pc ≠ W02Pc.decided true ∧
      (w02_main s).PORTC_OUT = s.PORTC_OUT ∧ (w02_main s).indexed = s.indexed ∧
      (w02_main s).shown = s.shown
    cases hpc : s.pc with
    | head =>
      rw [w02_main_head s hpc]
      refine ⟨hr, rfl, ?_, rfl, rfl, rfl⟩
      simp [hr]
    | decided taken =>
      have ht : taken = false := by
        cases taken
        · rfl
        · exact absurd hpc hp
      subst ht
      have hb : (if false = true then w02_decrement s else s) = s := if_neg (by decide)
      rw [w02_main_decided s false hpc, hb, w02_blink_halted s hn]
      exact ⟨hr, rfl, by simp, rfl, rfl, rfl⟩

theorem w02_run_halted (es : List W02Step) : ∀ (s : W02), s.g_running = 0 → s.number ≠ 0 →
    s.pc ≠ W02Pc.decided true →
    (w02_run es s).g_running = 0 ∧ (w02_run es s).number = s.number ∧
      (w02_run es s).PORTC_OUT = s.PORTC_OUT ∧ (w02_run es s).indexed = s.indexed ∧
      (w02_run es s).shown = s.shown := by
  induction es with
  | nil => intro s hr _ _; exact ⟨hr, rfl, rfl, rfl, rfl⟩
  | cons e es ih =>
    intro s hr hn hp
    obtain ⟨h1, h2, h3, h4, h5, h6⟩ := w02_step_halted e s hr hn hp
    have := ih (w02_step e s) h1 (by rw [h2]; exact hn) h3
    rw [w02_run]
    rw [h2, h4, h5, h6] at this
    exact this

theorem w03_step_halted (e : W03Step) (s : W03) (hr : s.g_running = 0) (hn : s.number ≠ 0)
    (hp : s.pc = W03Pc.head ∨ s.pc = W03Pc.decided false) :
    (w03_step e s).g_running = 0 ∧ (w03_step e s).number = s.number ∧
      ((w03_step e s).pc = W03Pc.head ∨ (w03_step e s).pc = W03Pc.decided false) ∧
      (w03_step e s).PORTC_OUT = s.PORTC_OUT ∧ (w03_step e s).indexed = s.indexed ∧
      (w03_step e s).shown = s.shown := by
  cases e with
  | wire => exact ⟨rfl, rfl, hp, rfl, rfl, rfl⟩
  | pit => exact ⟨hr, rfl, hp, rfl, rfl, rfl⟩
  | main =>
    show (w03_main s).g_running = 0 ∧ (w03_main s).number = s.number ∧
      ((w03_main s).pc = W03Pc.head ∨ (w03_main s).pc = W03Pc.decided false) ∧
      (w03_main s).PORTC_OUT = s.PORTC_OUT ∧ (w03_main s).indexed = s.indexed ∧
      (w03_main s).shown = s.shown
    rcases hp with hpc | hpc
    · rw [w03_main_head s hpc, if_neg (not_not.mpr hr)]
      exact ⟨hr, rfl, Or.inr rfl, rfl, rfl, rfl⟩
    · have hb : (if false = true then w03_decrement s else s) = s := if_neg (by decide)
      rw [w03_main_decided s false hpc, hb, w03_blink_halted s hn]
      exact ⟨hr, rfl, Or.inl rfl, rfl, rfl, rfl⟩

theorem w03_run_halted (es : List W03Step) : ∀ (s : W03), s.g_running = 0 → s.number ≠ 0 →
    (s.pc = W03Pc.head ∨ s.pc = W03Pc.decided false) →
    (w03_run es s).g_running = 0 ∧ (w03_run es s).number = s.number ∧
      (w03_run es s).PORTC_OUT = s.PORTC_OUT ∧ (w03_run es s).indexed = s.indexed ∧
      (w03_run es s).shown = s.shown := by
  induction es with
  | nil => intro s hr _ _; exact ⟨hr, rfl, rfl, rfl, rfl⟩
  | cons e es ih =>
    intro s hr hn hp
    obtain ⟨h1, h2, h3, h4, h5, h6⟩ := w03_step_halted e s hr hn hp
    have := ih (w03_step e s) h1 (by rw [h2]; exact hn) h3
    rw [w03_run]
    rw [h2, h4, h5, h6] at this
    exact this

set_option maxRecDepth 20000 in
/-- C18, as stated, fails: the port-edge interrupt routine can run after the
main loop has tested the running flag and before it decrements. In W02, seven
passes from the start of `main` leave the number 3 and the glyph of 3 (0x4F) on
the segment port; the next pass tests the flag, the routine clears it, and the
pass still decrements and writes the glyph of 2 (0x5B). In W03 the same happens
in the pass after the 56th periodic interrupt. Afterwards the number stays 2
with the running flag clear. -/
theorem countdown_decrement_after_wire_cut :
    ((w02_run (List.replicate 14 W02Step.main) W02.init).number = 3 ∧
        (w02_run (List.replicate 14 W02Step.main) W02.init).PORTC_OUT = 0x4F ∧
        (w02_run (List.replicate 14 W02Step.main ++ [W02Step.main, W02Step.wire])
          W02.init).g_running = 0 ∧
        (w02_run (List.replicate 14 W02Step.main ++ [W02Step.main, W02Step.wire])
          W02.init).number = 3 ∧
        (w02_run (List.replicate 14 W02Step.main ++ [W02Step.main, W02Step.wire])
          W02.init).PORTC_OUT = 0x4F ∧
        (w02_run (List.replicate 14 W02Step.main
            ++ [W02Step.main, W02Step.wire, W02Step.main]) W02.init).g_running = 0 ∧
        (w02_run (List.replicate 14 W02Step.main
            ++ [W02Step.main, W02Step.wire, W02Step.main]) W02.init).number = 2 ∧
        (w02_run (List.replicate 14 W02Step.main
            ++ [W02Step.main, W02Step.wire, W02Step.main]) W02.init).PORTC_OUT = 0x5B) ∧
      ((w03_run (w03_uncut 55) W03.init).number = 3 ∧
        (w03_run (w03_uncut 55) W03.init).PORTC_OUT = 0x4F ∧
        (w03_run (w03_uncut 55 ++ [W03Step.pit, W03Step.main, W03Step.main, W03Step.wire])
          W03.init).g_running = 0 ∧
        (w03_run (w03_uncut 55 ++ [W03Step.pit, W03Step.main, W03Step.main, W03Step.wire])
          W03.init).number = 3 ∧
        (w03_run (w03_uncut 55 ++ [W03Step.pit, W03Step.main, W03Step.main, W03Step.wire])
          W03.init).PORTC_OUT = 0x4F ∧
        (w03_run (w03_uncut 55
            ++ [W03Step.pit, W03Step.main, W03Step.main, W03Step.wire, W03Step.main])
          W03.init).g_running = 0 ∧
        (w03_run (w03_uncut 55
            ++ [W03Step.pit, W03Step.main, W03Step.main, W03Step.wire, W03Step.main])
          W03.init).number = 2 ∧
        (w03_run (w03_uncut 55
            ++ [W03Step.pit, W03Step.main, W03Step.main, W03Step.wire, W03Step.main])
          W03.init).PORTC_OUT = 0x5B) := by
  refine ⟨⟨rfl, rfl, rfl, rfl, rfl, rfl, rfl, rfl⟩, ⟨rfl, rfl, rfl, rfl, rfl, rfl, rfl, rfl⟩⟩

theorem w02_decrement_fields (s : W02) (h1 : 1 ≤ s.number) (h10 : s.number ≤ 10)
    (hr : s.g_running = 0) :
    (w02_decrement s).number = s.number - 1 ∧
      (w02_decrement s).PORTC_OUT = glyphAt W02_led_configurations (s.number - 1) ∧
      (w02_decrement s).g_running = 0 := by
  unfold w02_decrement
  have hw : wrap_int16 (s.number - 1) = s.number - 1 := by
    unfold wrap_int16; omega
  simp only [hw]
  split
  · exact ⟨rfl, rfl, hr⟩
  · exact ⟨rfl, rfl, rfl⟩

theorem w02_blink_fields (s : W02) :
    (w02_blink s).number = s.number ∧ (w02_blink s).g_running = s.g_running ∧
      (s.number ≠ 0 → (w02_blink s).PORTC_OUT = s.PORTC_OUT) := by
  unfold w02_blink
  split
  · rename_i h
    exact ⟨rfl, rfl, fun hn => absurd h hn⟩
  · exact ⟨rfl, rfl, fun _ => rfl⟩

theorem w02_step_cut (n : Int) (e : W02Step) (s : W02) (hn1 : 1 ≤ n) (hn9 : n ≤ 9)
    (hr : s.g_running = 0)
    (hs : (s.number = n ∧ s.PORTC_OUT = glyphAt W02_led_configurations n) ∨
      (s.number = n - 1 ∧ s.pc ≠ W02Pc.decided true ∧
        (1 ≤ s.number → s.PORTC_OUT = glyphAt W02_led_configurations (n - 1)))) :
    (w02_step e s).g_running = 0 ∧
      (((w02_step e s).number = n ∧
          (w02_step e s).PORTC_OUT = glyphAt W02_led_configurations n) ∨
        ((w02_step e s).number = n - 1 ∧ (w02_step e s).pc ≠ W02Pc.decided true ∧
          (1 ≤ (w02_step e s).number →
            (w02_step e s).PORTC_OUT = glyphAt W02_led_configurations (n - 1)))) := by
  cases e with
  | wire => exact ⟨rfl, hs⟩
  | main =>
    show (w02_main s).g_running = 0 ∧
      (((w02_main s).number = n ∧
          (w02_main s).PORTC_OUT = glyphAt W02_led_configurations n) ∨
        ((w02_main s).number = n - 1 ∧ (w02_main s).pc ≠ W02Pc.decided true ∧
          (1 ≤ (w02_main s).number →
            (w02_main s).PORTC_OUT = glyphAt W02_led_configurations (n - 1))))
    cases hpc : s.pc with
    | head =>
      rw [w02_main_head s hpc]
      refine ⟨hr, ?_⟩
      rcases hs with h | ⟨h1, _, h3⟩
      · exact Or.inl h
      · exact Or.inr ⟨h1, by simp [hr], h3⟩
    | decided taken =>
      rw [w02_main_decided s taken hpc]
      cases taken with
      | false =>
        have hb : (if false = true then w02_decrement s else s) = s := if_neg (by decide)
        rw [hb]
        obtain ⟨b1, b2, b3⟩ := w02_blink_fields s
        refine ⟨by show (w02_blink s).g_running = 0; rw [b2]; exact hr, ?_⟩
        rcases hs with ⟨h1, h2⟩ | ⟨h1, _, h3⟩
        · left
          exact ⟨by show (w02_blink s).number = n; rw [b1]; exact h1,
            by show (w02_blink s).PORTC_OUT = _; rw [b3 (by omega)]; exact h2⟩
        · right
          refine ⟨by show (w02_blink s).number = n - 1; rw [b1]; exact h1, by simp, ?_⟩
          intro hpos
          have hpos' : 1 ≤ s.number := by rw [← b1]; exact hpos
          show (w02_blink s).PORTC_OUT = _
          rw [b3 (by omega)]
          exact h3 hpos'
      | true =>
        have hb : (if true = true then w02_decrement s else s) = w02_decrement s := if_pos rfl
        rw [hb]
        rcases hs with ⟨h1, h2⟩ | ⟨_, hp, _⟩
        · obtain ⟨d1, d2, d3⟩ := w02_decrement_fields s (by omega) (by omega) hr
          obtain ⟨b1, b2, b3⟩ := w02_blink_fields (w02_decrement s)
          refine ⟨by show (w02_blink (w02_decrement s)).g_running = 0; rw [b2]; exact d3,
            Or.inr ⟨?_, by simp, ?_⟩⟩
          · show (w02_blink (w02_decrement s)).number = n - 1
            rw [b1, d1, h1]
          · intro hpos
            have hpos' : 1 ≤ (w02_decrement s).number := by rw [← b1]; exact hpos
            show (w02_blink (w02_decrement s)).PORTC_OUT = _
            rw [b3 (by omega), d2, h1]
        · exact absurd hpc hp

theorem w02_run_cut (n : Int) (hn1 : 1 ≤ n) (hn9 : n ≤ 9) (es : List W02Step) :
    ∀ (s : W02), s.g_running = 0 →
    ((s.number = n ∧ s.PORTC_OUT = glyphAt W02_led_configurations n) ∨
      (s.number = n - 1 ∧ s.pc ≠ W02Pc.decided true ∧
        (1 ≤ s.number → s.PORTC_OUT = glyphAt W02_led_configurations (n - 1)))) →
    (w02_run es s).g_running = 0 ∧
      ((w02_run es s).number = n ∨ (w02_run es s).number = n - 1) ∧
      (1 ≤ (w02_run es s).number →
        (w02_run es s).PORTC_OUT = glyphAt W02_led_configurations (w02_run es s).number) := by
  induction es with
  | nil =>
    intro s hr hs
    refine ⟨hr, ?_, ?_⟩
    · rcases hs with h | h
      · exact Or.inl h.1
      · exact Or.inr h.1
    · intro hpos
      rcases hs with ⟨h1, h2⟩ | ⟨h1, _, h3⟩
      · show s.PORTC_OUT = glyphAt W02_led_configurations s.number
        rw [h1]; exact h2
      · show s.PORTC_OUT = glyphAt W02_led_configurations s.number
        rw [h1]; exact h3 hpos
  | cons e es ih =>
    intro s hr hs
    obtain ⟨a, b⟩ := w02_step_cut n e s hn1 hn9 hr hs
    exact ih _ a b

theorem w03_decrement_fields (s : W03) (h1 : 1 ≤ s.number) (h10 : s.number ≤ 10)
    (hr : s.g_running = 0) :
    (w03_decrement s).number = s.number - 1 ∧
      (w03_decrement s).PORTC_OUT = glyphAt W03_led_configurations ((s.number - 1 : Nat) : Int) ∧
      (w03_decrement s).g_running = 0 := by
  unfold w03_decrement
  have hw : (s.number + 255) % 256 = s.number - 1 := by omega
  simp only [hw]
  split
  · exact ⟨rfl, rfl, rfl⟩
  · exact ⟨rfl, rfl, hr⟩

theorem w03_blink_fields (s : W03) :
    (w03_blink s).number = s.number ∧ (w03_blink s).g_running = s.g_running ∧
      (w03_blink s).PORTC_OUT = s.PORTC_OUT := by
  unfold w03_blink
  split
  · exact ⟨rfl, rfl, rfl⟩
  · exact ⟨rfl, rfl, rfl⟩

theorem w03_step_cut (n : Nat) (e : W03Step) (s : W03) (hn1 : 1 ≤ n) (hn9 : n ≤ 9)
    (hr : s.g_running = 0)
    (hs : (s.number = n ∧ s.PORTC_OUT = glyphAt W03_led_configurations n) ∨
      (s.number = n - 1 ∧ (s.pc = W03Pc.head ∨ s.pc = W03Pc.decided false) ∧
        s.PORTC_OUT = glyphAt W03_led_configurations ((n - 1 : Nat) : Int))) :
    (w03_step e s).g_running = 0 ∧
      (((w03_step e s).number = n ∧
          (w03_step e s).PORTC_OUT = glyphAt W03_led_configurations n) ∨
        ((w03_step e s).number = n - 1 ∧
          ((w03_step e s).pc = W03Pc.head ∨ (w03_step e s).pc = W03Pc.decided false) ∧
          (w03_step e s).PORTC_OUT = glyphAt W03_led_configurations ((n - 1 : Nat) : Int))) := by
  cases e with
  | wire => exact ⟨rfl, hs⟩
  | pit => exact ⟨hr, hs⟩
  | main =>
    show (w03_main s).g_running = 0 ∧
      (((w03_main s).number = n ∧
          (w03_main s).PORTC_OUT = glyphAt W03_led_configurations n) ∨
        ((w03_main s).number = n - 1 ∧
          ((w03_main s).pc = W03Pc.head ∨ (w03_main s).pc = W03Pc.decided false) ∧
          (w03_main s).PORTC_OUT = glyphAt W03_led_configurations ((n - 1 : Nat) : Int)))
    cases hpc : s.pc with
    | head =>
      rw [w03_main_head s hpc, if_neg (not_not.mpr hr)]
      refine ⟨hr, ?_⟩
      rcases hs with h | ⟨h1, _, h3⟩
      · exact Or.inl h
      · exact Or.inr ⟨h1, Or.inr rfl, h3⟩
    | flag_seen =>
      rw [w03_main_flag_seen s hpc]
      refine ⟨hr, ?_⟩
      rcases hs with h | ⟨_, hp, _⟩
      · exact Or.inl h
      · rw [hpc] at hp
        rcases hp with hp | hp <;> cases hp
    | decided taken =>
      rw [w03_main_decided s taken hpc]
      cases taken with
      | false =>
        have hb : (if false = true then w03_decrement s else s) = s := if_neg (by decide)
        rw [hb]
        obtain ⟨b1, b2, b3⟩ := w03_blink_fields s
        refine ⟨by show (w03_blink s).g_running = 0; rw [b2]; exact hr, ?_⟩
        rcases hs with ⟨h1, h2⟩ | ⟨h1, _, h3⟩
        · left
          exact ⟨by show (w03_blink s).number = n; rw [b1]; exact h1,
            by show (w03_blink s).PORTC_OUT = _; rw [b3]; exact h2⟩
        · right
          exact ⟨by show (w03_blink s).number = n - 1; rw [b1]; exact h1, Or.inl rfl,
            by show (w03_blink s).PORTC_OUT = _; rw [b3]; exact h3⟩
      | true =>
        have hb : (if true = true then w03_decrement s else s) = w03_decrement s := if_pos rfl
        rw [hb]
        rcases hs with ⟨h1, h2⟩ | ⟨_, hp, _⟩
        · obtain ⟨d1, d2, d3⟩ := w03_decrement_fields s (by omega) (by omega) hr
          obtain ⟨b1, b2, b3⟩ := w03_blink_fields (w03_decrement s)
          refine ⟨by show (w03_blink (w03_decrement s)).g_running = 0; rw [b2]; exact d3,
            Or.inr ⟨?_, Or.inl rfl, ?_⟩⟩
          · show (w03_blink (w03_decrement s)).number = n - 1
            rw [b1, d1, h1]
          · show (w03_blink (w03_decrement s)).PORTC_OUT = _
            rw [b3, d2, h1]
        · rw [hpc] at hp
          rcases hp with hp | hp <;> cases hp

theorem w03_run_cut (n : Nat) (hn1 : 1 ≤ n) (hn9 : n ≤ 9) (es : List W03Step) :
    ∀ (s : W03), s.g_running = 0 →
    ((s.number = n ∧ s.PORTC_OUT = glyphAt W03_led_configurations n) ∨
      (s.number = n - 1 ∧ (s.pc = W03Pc.head ∨ s.pc = W03Pc.decided false) ∧
        s.PORTC_OUT = glyphAt W03_led_configurations ((n - 1 : Nat) : Int))) →
    (w03_run es s).g_running = 0 ∧
      ((w03_run es s).number = n ∨ (w03_run es s).number = n - 1) ∧
      (w03_run es s).PORTC_OUT = glyphAt W03_led_configurations (w03_run es s).number := by
  induction es with
  | nil =>
    intro s hr hs
    refine ⟨hr, ?_, ?_⟩
    · rcases hs with h | h
      · exact Or.inl h.1
      · exact Or.inr h.1
    · rcases hs with ⟨h1, h2⟩ | ⟨h1, _, h3⟩
      · show s.PORTC_OUT = glyphAt W03_led_configurations s.number
        rw [h1]; exact h2
      · show s.PORTC_OUT = glyphAt W03_led_configurations s.number
        rw [h1]; exact h3
  | cons e es ih =>
    intro s hr hs
    obtain ⟨a, b⟩ := w03_step_cut n e s hn1 hn9 hr hs
    exact ih _ a b

/-- C18, amended: in both countdowns, once the port-edge interrupt routine
has run while the number is `n` with `1 <= n <= 9` and the segment port holds
the glyph of `n`, after every sequence of later main-loop steps and
interrupts the running flag is clear and at most one more decrement has
happened: the number is `n` or `n - 1`, and the segment port holds the glyph
of the number (in W02 while the number is at least 1; at 0 the display
blinks). When the routine runs while the main loop is not between its test
of the running flag and the decrement (W02: it has not just found the flag
set; W03: it is at the head of the loop, asleep, or has found the test false),
the number stays `n`, the segment port stays at the glyph of `n`, and nothing
more is indexed or written to the segment port. -/
theorem countdown_frozen_after_wire_cut (n : Nat) (s2 : W02) (es2 : List W02Step) (s3 : W03)
    (es3 : List W03Step) (hn1 : 1 ≤ n) (hn9 : n ≤ 9)
    (h2n : s2.number = n) (h2o : s2.PORTC_OUT = glyphAt W02_led_configurations n)
    (h3n : s3.number = n) (h3o : s3.PORTC_OUT = glyphAt W03_led_configurations n) :
    ((w02_run es2 (w02_port_isr s2)).g_running = 0 ∧
        ((w02_run es2 (w02_port_isr s2)).number = n ∨
          (w02_run es2 (w02_port_isr s2)).number = (n : Int) - 1) ∧
        (1 ≤ (w02_run es2 (w02_port_isr s2)).number →
          (w02_run es2 (w02_port_isr s2)).PORTC_OUT
            = glyphAt W02_led_configurations (w02_run es2 (w02_port_isr s2)).number) ∧
        (s2.pc ≠ W02Pc.decided true →
          (w02_run es2 (w02_port_isr s2)).number = n ∧
          (w02_run es2 (w02_port_isr s2)).PORTC_OUT = glyphAt W02_led_configurations n ∧
          (w02_run es2 (w02_port_isr s2)).indexed = s2.indexed ∧
          (w02_run es2 (w02_port_isr s2)).shown = s2.shown)) ∧
      ((w03_run es3 (w03_port_isr s3)).g_running = 0 ∧
        ((w03_run es3 (w03_port_isr s3)).number = n ∨
          (w03_run es3 (w03_port_isr s3)).number = n - 1) ∧
        (w03_run es3 (w03_port_isr s3)).PORTC_OUT
          = glyphAt W03_led_configurations (w03_run es3 (w03_port_isr s3)).number ∧
        (s3.pc = W03Pc.head ∨ s3.pc = W03Pc.decided false →
          (w03_run es3 (w03_port_isr s3)).number = n ∧
          (w03_run es3 (w03_port_isr s3)).PORTC_OUT = glyphAt W03_led_configurations n ∧
          (w03_run es3 (w03_port_isr s3)).indexed = s3.indexed ∧
          (w03_run es3 (w03_port_isr s3)).shown = s3.shown)) := by
  constructor
  · obtain ⟨c1, c2, c3⟩ := w02_run_cut (n : Int) (by omega) (by omega) es2 (w02_port_isr s2) rfl
      (Or.inl ⟨h2n, h2o⟩)
    refine ⟨c1, c2, c3, ?_⟩
    intro h2p
    have hne : (w02_port_isr s2).number ≠ 0 := by
      show s2.number ≠ 0
      rw [h2n]; omega
    obtain ⟨_, h2, h3, h4, h5⟩ := w02_run_halted es2 (w02_port_isr s2) rfl hne h2p
    exact ⟨by rw [h2]; exact h2n, by rw [h3]; exact h2o, h4, h5⟩
  · obtain ⟨c1, c2, c3⟩ := w03_run_cut n hn1 hn9 es3 (w03_port_isr s3) rfl
      (Or.inl ⟨h3n, h3o⟩)
    refine ⟨c1, c2, c3, ?_⟩
    intro h3p
    have hne : (w03_port_isr s3).number ≠ 0 := by
      show s3.number ≠ 0
      rw [h3n]; omega
    obtain ⟨_, h2, h3, h4, h5⟩ := w03_run_halted es3 (w03_port_isr s3) rfl hne h3p
    exact ⟨by rw [h2]; exact h3n, by rw [h3]; exact h3o, h4, h5⟩

/-- Witness of C18: the wire is cut while both countdowns show 3 (glyph 0x4F)
with the main loop at its head (W02 in the delay, W03 asleep); afterwards
main-loop steps, periodic interrupts and further edges follow. Last, the wire
is cut in W02 after the test has found the flag set: the number ends 3 or 2. -/
theorem countdown_frozen_after_wire_cut_witness :
    1 ≤ 3 ∧ 3 ≤ 9 ∧
      (W02.mk 1 3 0x4F 7000 [] [] W02Pc.head).number = (3 : Nat) ∧
      (W02.mk 1 3 0x4F 7000 [] [] W02Pc.head).PORTC_OUT
        = glyphAt W02_led_configurations (3 : Nat) ∧
      (W03.mk 1 2 3 0x4F 0x20 50 [] [] W03Pc.head).number = 3 ∧
      (W03.mk 1 2 3 0x4F 0x20 50 [] [] W03Pc.head).PORTC_OUT
        = glyphAt W03_led_configurations (3 : Nat) ∧
      (w02_run [W02Step.main, W02Step.main, W02Step.wire, W02Step.main, W02Step.main]
          (w02_port_isr (W02.mk 1 3 0x4F 7000 [] [] W02Pc.head))).PORTC_OUT
        = glyphAt W02_led_configurations (3 : Nat) ∧
      (w03_run [W03Step.pit, W03Step.main, W03Step.main, W03Step.pit, W03Step.main,
            W03Step.wire, W03Step.main]
          (w03_port_isr (W03.mk 1 2 3 0x4F 0x20 50 [] [] W03Pc.head))).number = 3 ∧
      ((w02_run [W02Step.main, W02Step.main]
          (w02_port_isr (W02.mk 1 3 0x4F 7000 [] [] (W02Pc.decided true)))).number = (3 : Nat) ∨
        (w02_run [W02Step.main, W02Step.main]
          (w02_port_isr (W02.mk 1 3 0x4F 7000 [] [] (W02Pc.decided true)))).number
            = ((3 : Nat) : Int) - 1) :=
  ⟨by decide, by decide, by decide, by decide, by decide, by decide,
    ((countdown_frozen_after_wire_cut 3 (W02.mk 1 3 0x4F 7000 [] [] W02Pc.head)
      [W02Step.main, W02Step.main, W02Step.wire, W02Step.main, W02Step.main]
      (W03.mk 1 2 3 0x4F 0x20 50 [] [] W03Pc.head)
      [W03Step.pit, W03Step.main, W03Step.main, W03Step.pit, W03Step.main, W03Step.wire,
        W03Step.main]
      (by decide) (by decide) (by decide) (by decide) (by decide) (by decide)).1.2.2.2
      (by decide)).2.1,
    ((countdown_frozen_after_wire_cut 3 (W02.mk 1 3 0x4F 7000 [] [] W02Pc.head)
      [W02Step.main, W02Step.main, W02Step.wire, W02Step.main, W02Step.main]
      (W03.mk 1 2 3 0x4F 0x20 50 [] [] W03Pc.head)
      [W03Step.pit, W03Step.main, W03Step.main, W03Step.pit, W03Step.main, W03Step.wire,
        W03Step.main]
      (by decide) (by decide) (by decide) (by decide) (by decide) (by decide)).2.2.2.2
      (Or.inl rfl)).1,
    (countdown_frozen_after_wire_cut 3 (W02.mk 1 3 0x4F 7000 [] [] (W02Pc.decided true))
      [W02Step.main, W02Step.main]
      (W03.mk 1 2 3 0x4F 0x20 50 [] [] W03Pc.head) []
      (by decide) (by decide) (by decide) (by decide) (by decide) (by decide)).1.2.1⟩

theorem w02_decrement_inv (s : W02)
    (hn : 0 ≤ s.number ∧ s.number ≤ 10) (h1 : 1 ≤ s.number)
    (hi : ∀ i ∈ s.indexed, 0 ≤ i ∧ i ≤ 9) :
    (0 ≤ (w02_decrement s).number ∧ (w02_decrement s).number ≤ 10) ∧
      ((w02_decrement s).g_running ≠ 0 → 1 ≤ (w02_decrement s).number) ∧
      (∀ i ∈ (w02_decrement s).indexed, 0 ≤ i ∧ i ≤ 9) := by
  unfold w02_decrement
  have hw : wrap_int16 (s.number - 1) = s.number - 1 := by
    unfold wrap_int16; omega
  simp only [hw]
  split
  · rename_i hpos
    exact ⟨⟨by show 0 ≤ s.number - 1; omega, by show s.number - 1 ≤ 10; omega⟩,
      fun _ => by show 1 ≤ s.number - 1; omega,
      forall_mem_concat _ _ _ hi (by omega)⟩
  · exact ⟨⟨by show 0 ≤ s.number - 1; omega, by show s.number - 1 ≤ 10; omega⟩,
      fun h => absurd rfl h,
      forall_mem_concat _ _ _ hi (by omega)⟩

theorem w02_blink_inv (s : W02)
    (hn : 0 ≤ s.number ∧ s.number ≤ 10) (hr : s.g_running ≠ 0 → 1 ≤ s.number)
    (hi : ∀ i ∈ s.indexed, 0 ≤ i ∧ i ≤ 9) :
    (0 ≤ (w02_blink s).number ∧ (w02_blink s).number ≤ 10) ∧
      ((w02_blink s).g_running ≠ 0 → 1 ≤ (w02_blink s).number) ∧
      (∀ i ∈ (w02_blink s).indexed, 0 ≤ i ∧ i ≤ 9) := by
  unfold w02_blink
  split
  · exact ⟨hn, hr, forall_mem_concat _ _ _ hi (by omega)⟩
  · exact ⟨hn, hr, hi⟩

theorem w02_step_inv (e : W02Step) (s : W02)
    (hn : 0 ≤ s.number ∧ s.number ≤ 10) (hr : s.g_running ≠ 0 → 1 ≤ s.number)
    (hp : s.pc = W02Pc.decided true → 1 ≤ s.number)
    (hi : ∀ i ∈ s.indexed, 0 ≤ i ∧ i ≤ 9) :
    (0 ≤ (w02_step e s).number ∧ (w02_step e s).number ≤ 10) ∧
      ((w02_step e s).g_running ≠ 0 → 1 ≤ (w02_step e s).number) ∧
      ((w02_step e s).pc = W02Pc.decided true → 1 ≤ (w02_step e s).number) ∧
      (∀ i ∈ (w02_step e s).indexed, 0 ≤ i ∧ i ≤ 9) := by
  cases e with
  | wire => exact ⟨hn, fun h => absurd rfl h, hp, hi⟩
  | main =>
    show (0 ≤ (w02_main s).number ∧ (w02_main s).number ≤ 10) ∧
      ((w02_main s).g_running ≠ 0 → 1 ≤ (w02_main s).number) ∧
      ((w02_main s).pc = W02Pc.decided true → 1 ≤ (w02_main s).number) ∧
      (∀ i ∈ (w02_main s).indexed, 0 ≤ i ∧ i ≤ 9)
    cases hpc : s.pc with
    | head =>
      rw [w02_main_head s hpc]
      refine ⟨hn, hr, ?_, hi⟩
      intro h
      have hg : s.g_running ≠ 0 := by simpa using h
      exact hr hg
    | decided taken =>
      rw [w02_main_decided s taken hpc]
      cases taken with
      | false =>
        obtain ⟨a, b, c⟩ := w02_blink_inv s hn hr hi
        exact ⟨a, b, fun h => by simp at h, c⟩
      | true =>
        obtain ⟨a, b, c⟩ := w02_decrement_inv s hn (hp hpc) hi
        obtain ⟨a', b', c'⟩ := w02_blink_inv _ a b c
        exact ⟨a', b', fun h => by simp at h, c'⟩

theorem w02_run_inv (es : List W02Step) : ∀ (s : W02),
    (0 ≤ s.number ∧ s.number ≤ 10) → (s.g_running ≠ 0 → 1 ≤ s.number) →
    (s.pc = W02Pc.decided true → 1 ≤ s.number) →
    (∀ i ∈ s.indexed, 0 ≤ i ∧ i ≤ 9) →
    (0 ≤ (w02_run es s).number ∧ (w02_run es s).number ≤ 10) ∧
      ((w02_run es s).g_running ≠ 0 → 1 ≤ (w02_run es s).number) ∧
      (∀ i ∈ (w02_run es s).indexed, 0 ≤ i ∧ i ≤ 9) := by
  induction es with
  | nil => intro s h1 h2 _ h3; exact ⟨h1, h2, h3⟩
  | cons e es ih =>
    intro s h1 h2 hp h3
    obtain ⟨a, b, p, c⟩ := w02_step_inv e s h1 h2 hp h3
    exact ih _ a b p c

theorem w03_decrement_inv (s : W03)
    (hn : s.number ≤ 10) (h1 : 1 ≤ s.number)
    (hi : ∀ i ∈ s.indexed, i ≤ 9) :
    (w03_decrement s).number ≤ 10 ∧
      ((w03_decrement s).g_running ≠ 0 → 1 ≤ (w03_decrement s).number) ∧
      (∀ i ∈ (w03_decrement s).indexed, i ≤ 9) := by
  unfold w03_decrement
  have hw : (s.number + 255) % 256 = s.number - 1 := by omega
  simp only [hw]
  split
  · exact ⟨by show s.number - 1 ≤ 10; omega, fun h => absurd rfl h,
      forall_mem_concat _ _ _ hi (by omega)⟩
  · rename_i h0
    exact ⟨by show s.number - 1 ≤ 10; omega, fun _ => by show 1 ≤ s.number - 1; omega,
      forall_mem_concat _ _ _ hi (by omega)⟩

theorem w03_blink_inv (s : W03)
    (hn : s.number ≤ 10) (hr : s.g_running ≠ 0 → 1 ≤ s.number)
    (hi : ∀ i ∈ s.indexed, i ≤ 9) :
    (w03_blink s).number ≤ 10 ∧
      ((w03_blink s).g_running ≠ 0 → 1 ≤ (w03_blink s).number) ∧
      (∀ i ∈ (w03_blink s).indexed, i ≤ 9) := by
  unfold w03_blink
  split
  · exact ⟨hn, hr, hi⟩
  · exact ⟨hn, hr, hi⟩

theorem w03_step_inv (e : W03Step) (s : W03)
    (hn : s.number ≤ 10) (hr : s.g_running ≠ 0 → 1 ≤ s.number)
    (hp : s.pc = W03Pc.flag_seen ∨ s.pc = W03Pc.decided true → 1 ≤ s.number)
    (hi : ∀ i ∈ s.indexed, i ≤ 9) :
    (w03_step e s).number ≤ 10 ∧
      ((w03_step e s).g_running ≠ 0 → 1 ≤ (w03_step e s).number) ∧
      ((w03_step e s).pc = W03Pc.flag_seen ∨ (w03_step e s).pc = W03Pc.decided true
        → 1 ≤ (w03_step e s).number) ∧
      (∀ i ∈ (w03_step e s).indexed, i ≤ 9) := by
  cases e with
  | wire => exact ⟨hn, fun h => absurd rfl h, hp, hi⟩
  | pit => exact ⟨hn, hr, hp, hi⟩
  | main =>
    show (w03_main s).number ≤ 10 ∧
      ((w03_main s).g_running ≠ 0 → 1 ≤ (w03_main s).number) ∧
      ((w03_main s).pc = W03Pc.flag_seen ∨ (w03_main s).pc = W03Pc.decided true
        → 1 ≤ (w03_main s).number) ∧
      (∀ i ∈ (w03_main s).indexed, i ≤ 9)
    cases hpc : s.pc with
    | head =>
      rw [w03_main_head s hpc]
      by_cases hg : s.g_running ≠ 0
      · rw [if_pos hg]
        exact ⟨hn, hr, fun _ => hr hg, hi⟩
      · rw [if_neg hg]
        exact ⟨hn, hr, fun h => by simp at h, hi⟩
    | flag_seen =>
      rw [w03_main_flag_seen s hpc]
      exact ⟨hn, hr, fun _ => hp (Or.inl hpc), hi⟩
    | decided taken =>
      rw [w03_main_decided s taken hpc]
      cases taken with
      | false =>
        obtain ⟨a, b, c⟩ := w03_blink_inv s hn hr hi
        exact ⟨a, b, fun h => by simp at h, c⟩
      | true =>
        obtain ⟨a, b, c⟩ := w03_decrement_inv s hn (hp (Or.inr hpc)) hi
        obtain ⟨a', b', c'⟩ := w03_blink_inv _ a b c
        exact ⟨a', b', fun h => by simp at h, c'⟩

theorem w03_run_inv (es : List W03Step) : ∀ (s : W03),
    s.number ≤ 10 → (s.g_running ≠ 0 → 1 ≤ s.number) →
    (s.pc = W03Pc.flag_seen ∨ s.pc = W03Pc.decided true → 1 ≤ s.number) →
    (∀ i ∈ s.indexed, i ≤ 9) →
    (w03_run es s).number ≤ 10 ∧
      ((w03_run es s).g_running ≠ 0 → 1 ≤ (w03_run es s).number) ∧
      (∀ i ∈ (w03_run es s).indexed, i ≤ 9) := by
  induction es with
  | nil => intro s h1 h2 _ h3; exact ⟨h1, h2, h3⟩
  | cons e es ih =>
    intro s h1 h2 hp h3
    obtain ⟨a, b, p, c⟩ := w03_step_inv e s h1 h2 hp h3
    exact ih _ a b p c

/-- C20: in both countdowns, after every sequence of main-loop steps and
interrupts from the start of `main` (an interrupt may fall between the test of
the running flag and the decrement), every index that has been used on the
10-entry table `led_configurations` lies in 0..9, the number lies in 0..10,
and the running flag is set only while the number is at least 1: no decrement
starts from 0, so the `int` of W02 does not go negative and the `uint8_t` of
W03 does not wrap. -/
theorem countdown_index_in_range (es2 : List W02Step) (es3 : List W03Step) :
    ((∀ i ∈ (w02_run es2 W02.init).indexed, 0 ≤ i ∧ i ≤ 9) ∧
        (0 ≤ (w02_run es2 W02.init).number ∧ (w02_run es2 W02.init).number ≤ 10) ∧
        ((w02_run es2 W02.init).g_running ≠ 0 → 1 ≤ (w02_run es2 W02.init).number)) ∧
      ((∀ i ∈ (w03_run es3 W03.init).indexed, i ≤ 9) ∧
        (w03_run es3 W03.init).number ≤ 10 ∧
        ((w03_run es3 W03.init).g_running ≠ 0 → 1 ≤ (w03_run es3 W03.init).number)) := by
  constructor
  · obtain ⟨a, b, c⟩ := w02_run_inv es2 W02.init (by decide) (fun _ => by decide)
      (fun _ => by decide) (fun i hi => by simp [W02.init] at hi)
    exact ⟨c, a, b⟩
  · obtain ⟨a, b, c⟩ := w03_run_inv es3 W03.init (by decide) (fun _ => by decide)
      (fun _ => by decide) (fun i hi => by simp [W03.init] at hi)
    exact ⟨c, a, b⟩

theorem first_shown_append (v : Nat) (l l' : List (Nat × Nat)) (t : Nat)
    (h : first_shown v l = some t) : first_shown v (l ++ l') = some t := by
  induction l with
  | nil => simp [first_shown] at h
  | cons p l ih =>
    obtain ⟨t0, x⟩ := p
    by_cases hx : x = v
    · simpa [first_shown, hx] using h
    · simp only [first_shown, hx, if_false, List.cons_append] at h ⊢
      exact ih h

theorem w02_run_append (a b : List W02Step) (s : W02) :
    w02_run (a ++ b) s = w02_run b (w02_run a s) := by
  induction a generalizing s with
  | nil => rfl
  | cons e a ih => exact ih (w02_step e s)

theorem w03_run_append (a b : List W03Step) (s : W03) :
    w03_run (a ++ b) s = w03_run b (w03_run a s) := by
  induction a generalizing s with
  | nil => rfl
  | cons e a ih => exact ih (w03_step e s)

theorem w02_decrement_shown (s : W02) : ∃ l, (w02_decrement s).shown = s.shown ++ l := by
  unfold w02_decrement
  dsimp only
  split
  · exact ⟨_, rfl⟩
  · exact ⟨_, rfl⟩

theorem w02_blink_shown (s : W02) : ∃ l, (w02_blink s).shown = s.shown ++ l := by
  unfold w02_blink
  split
  · exact ⟨_, rfl⟩
  · exact ⟨[], by simp⟩

theorem w02_step_shown (e : W02Step) (s : W02) : ∃ l, (w02_step e s).shown = s.shown ++ l := by
  cases e with
  | wire => exact ⟨[], by simp [w02_step, w02_port_isr]⟩
  | main =>
    show ∃ l, (w02_main s).shown = s.shown ++ l
    cases hpc : s.pc with
    | head =>
      rw [w02_main_head s hpc]
      exact ⟨[], by simp⟩
    | decided taken =>
      rw [w02_main_decided s taken hpc]
      cases taken with
      | false =>
        obtain ⟨l, hl⟩ := w02_blink_shown s
        exact ⟨l, hl⟩
      | true =>
        obtain ⟨l1, hl1⟩ := w02_decrement_shown s
        obtain ⟨l2, hl2⟩ := w02_blink_shown (w02_decrement s)
        exact ⟨l1 ++ l2, by
          show (w02_blink (w02_decrement s)).shown = _
          rw [hl2, hl1]; simp⟩

theorem w02_run_shown (es : List W02Step) : ∀ s : W02,
    ∃ l, (w02_run es s).shown = s.shown ++ l := by
  induction es with
  | nil => intro s; exact ⟨[], by simp [w02_run]⟩
  | cons e es ih =>
    intro s
    obtain ⟨l1, h1⟩ := w02_step_shown e s
    obtain ⟨l2, h2⟩ := ih (w02_step e s)
    exact ⟨l1 ++ l2, by rw [w02_run, h2, h1]; simp⟩

theorem w03_decrement_shown (s : W03) : ∃ l, (w03_decrement s).shown = s.shown ++ l := by
  unfold w03_decrement
  dsimp only
  split
  · exact ⟨_, rfl⟩
  · exact ⟨_, rfl⟩

theorem w03_blink_shown (s : W03) : (w03_blink s).shown = s.shown := by
  unfold w03_blink
  split <;> rfl

theorem w03_step_shown (e : W03Step) (s : W03) : ∃ l, (w03_step e s).shown = s.shown ++ l := by
  cases e with
  | wire => exact ⟨[], by simp [w03_step, w03_port_isr]⟩
  | pit => exact ⟨[], by simp [w03_step, w03_pit_isr]⟩
  | main =>
    show ∃ l, (w03_main s).shown = s.shown ++ l
    cases hpc : s.pc with
    | head =>
      rw [w03_main_head s hpc]
      by_cases hg : s.g_running ≠ 0
      · rw [if_pos hg]; exact ⟨[], by simp⟩
      · rw [if_neg hg]; exact ⟨[], by simp⟩
    | flag_seen =>
      rw [w03_main_flag_seen s hpc]
      exact ⟨[], by simp⟩
    | decided taken =>
      rw [w03_main_decided s taken hpc]
      cases taken with
      | false => exact ⟨[], by show (w03_blink s).shown = _; rw [w03_blink_shown]; simp⟩
      | true =>
        obtain ⟨l1, hl1⟩ := w03_decrement_shown s
        exact ⟨l1, by show (w03_blink (w03_decrement s)).shown = _; rw [w03_blink_shown, hl1]⟩

theorem w03_run_shown (es : List W03Step) : ∀ s : W03,
    ∃ l, (w03_run es s).shown = s.shown ++ l := by
  induction es with
  | nil => intro s; exact ⟨[], by simp [w03_run]⟩
  | cons e es ih =>
    intro s
    obtain ⟨l1, h1⟩ := w03_step_shown e s
    obtain ⟨l2, h2⟩ := ih (w03_step e s)
    exact ⟨l1 ++ l2, by rw [w03_run, h2, h1]; simp⟩

theorem w03_uncut_add (n k : Nat) : ∃ es, w03_uncut (n + k) = w03_uncut n ++ es := by
  induction k with
  | zero => exact ⟨[], by simp⟩
  | succ k ih =>
    obtain ⟨es, h⟩ := ih
    exact ⟨es ++ [W03Step.pit, W03Step.main, W03Step.main, W03Step.main], by
      show w03_uncut (n + k) ++ [W03Step.pit, W03Step.main, W03Step.main, W03Step.main] = _
      rw [h]; simp⟩

theorem w02_shown_ten : (w02_run (List.replicate 20 W02Step.main) W02.init).shown
    = [(0, 0x6F), (1000, 0x7F), (2000, 0x07), (3000, 0x7D), (4000, 0x6D), (5000, 0x66),
       (6000, 0x4F), (7000, 0x5B), (8000, 0x06), (9000, 0x3F), (9333, 0)] := by
  decide

set_option maxRecDepth 40000 in
theorem w03_shown_nine_seconds : (w03_run (w03_uncut 72) W03.init).shown
    = [(0, 0x6F), (8, 0x7F), (16, 0x07), (24, 0x7D), (32, 0x6D), (40, 0x66),
       (48, 0x4F), (56, 0x5B), (64, 0x06), (72, 0x3F)] := by
  rfl

/-- C19, as stated, fails: with no wire cut, W02 first writes the glyph of 9
(0x6F) when no delay has elapsed yet and the glyph of 0 (0x3F) after 9000 ms of
delays, not after 1000 ms and 10000 ms; W03 first writes the glyph of 9 in the
pass before the first periodic interrupt and the glyph of 0 in the pass after
the 72nd (72 * 125 ms = 9000 ms). A pass of W02 is two steps of the main
loop. -/
theorem countdown_first_nine_at_power_up :
    first_shown 0x6F (w02_run (List.replicate 20 W02Step.main) W02.init).shown = some 0 ∧
      first_shown 0x6F (w02_run (List.replicate 20 W02Step.main) W02.init).shown ≠ some 1000 ∧
      first_shown 0x3F (w02_run (List.replicate 20 W02Step.main) W02.init).shown = some 9000 ∧
      first_shown 0x3F (w02_run (List.replicate 20 W02Step.main) W02.init).shown
        ≠ some 10000 ∧
      first_shown 0x6F (w03_run (w03_uncut 72) W03.init).shown = some 0 ∧
      first_shown 0x3F (w03_run (w03_uncut 72) W03.init).shown = some 72 ∧
      72 * 125 = 9000 := by
  rw [w02_shown_ten, w03_shown_nine_seconds]
  decide

/-- C19, amended: with no wire cut, however long the countdown is left to
run, the glyph of each digit `d` of 0..9 is first written to the segment port
when `(9 - d) * 1000` ms have passed: the 9 at power-up, one digit lower each
following second, the 0 at 9 s. Time is the sum of the delays in W02 and 125 ms
per periodic interrupt in W03. A pass of W02 is two steps of the main loop. -/
theorem countdown_timeline (k : Nat) :
    (∀ d < 10, first_shown (glyphAt W02_led_configurations (d : Nat))
        (w02_run (List.replicate (20 + k) W02Step.main) W02.init).shown
          = some ((9 - d) * 1000)) ∧
      (∀ d < 10, (first_shown (glyphAt W03_led_configurations (d : Nat))
        (w03_run (w03_uncut (72 + k)) W03.init).shown).map (fun t => t * 125)
          = some ((9 - d) * 1000)) := by
  constructor
  · intro d hd
    obtain ⟨l, hl⟩ := w02_run_shown (List.replicate k W02Step.main)
      (w02_run (List.replicate 20 W02Step.main) W02.init)
    rw [List.replicate_add, w02_run_append, hl, w02_shown_ten]
    apply first_shown_append
    interval_cases d <;> rfl
  · intro d hd
    obtain ⟨es, hes⟩ := w03_uncut_add 72 k
    obtain ⟨l, hl⟩ := w03_run_shown es (w03_run (w03_uncut 72) W03.init)
    rw [hes, w03_run_append, hl, w03_shown_nine_seconds]
    have : first_shown (glyphAt W03_led_configurations (d : Nat))
        [(0, 0x6F), (8, 0x7F), (16, 0x07), (24, 0x7D), (32, 0x6D), (40, 0x66),
         (48, 0x4F), (56, 0x5B), (64, 0x06), (72, 0x3F)] = some ((9 - d) * 8) := by
      interval_cases d <;> rfl
    rw [first_shown_append _ _ _ _ this]
    show some ((9 - d) * 8 * 125) = some ((9 - d) * 1000)
    congr 1
    omega

/-! ## `adc.c`: tasks calling `adc_read` concurrently -/

theorem adc_caller_step_inv (w : Analog) (tid : Nat) (st : AdcShared)
    (h : ∀ t, (st.callers t).pc.holding = true → st.holder = some t) :
    ∀ t, ((adc_caller_step w tid st).callers t).pc.holding = true →
      (adc_caller_step w tid st).holder = some t := by
  intro t
  have hself := h tid
  have hother := h t
  cases hpc : (st.callers tid).pc <;> rw [hpc] at hself
  case take =>
    cases hh : st.holder with
    | some o =>
      simp only [adc_caller_step, hpc, hh]
      rw [hh] at hother
      exact hother
    | none =>
      simp only [adc_caller_step, hpc, hh]
      rw [hh] at hother
      by_cases htt : t = tid
      · subst htt; intro _; rfl
      · rw [Function.update_noteq htt]
        intro ht
        exact absurd (hother ht) (by simp)
  case returned =>
    simp only [adc_caller_step, hpc]
    exact hother
  case give =>
    simp only [adc_caller_step, hpc]
    have hown := hself rfl
    by_cases htt : t = tid
    · subst htt
      rw [Function.update_same]
      intro ht
      simp [AdcPc.holding] at ht
    · rw [Function.update_noteq htt]
      intro ht
      have := hother ht
      rw [hown] at this
      exact absurd (Option.some.inj this).symm htt
  all_goals
    simp only [adc_caller_step, hpc]
    have hown := hself rfl
    by_cases htt : t = tid
    · subst htt; intro _; exact hown
    · rw [Function.update_noteq htt]; exact hother

theorem adc_schedule_inv (w : Analog) (sched : List Nat) : ∀ (st : AdcShared),
    (∀ t, (st.callers t).pc.holding = true → st.holder = some t) →
    ∀ t, ((adc_schedule w sched st).callers t).pc.holding = true →
      (adc_schedule w sched st).holder = some t := by
  induction sched with
  | nil => intro st h; exact h
  | cons tid sched ih =>
    intro st h
    exact ih _ (adc_caller_step_inv w tid st h)

/-- Mutual exclusion: whatever the schedule, a task that is between the mutex
take and the mutex give of `adc_read` holds the mutex, so two tasks are never
both there. -/
theorem adc_mutex_exclusive (w : Analog) (sched : List Nat) (hw : AdcSys) (inputs : Nat → Nat)
    (t1 t2 : Nat)
    (h1 : ((adc_schedule w sched (AdcShared.start hw inputs)).callers t1).pc.holding = true)
    (h2 : ((adc_schedule w sched (AdcShared.start hw inputs)).callers t2).pc.holding = true) :
    t1 = t2 := by
  have hinv := adc_schedule_inv w sched (AdcShared.start hw inputs)
    (fun t ht => by simp [AdcShared.start, AdcPc.holding] at ht)
  have a := hinv t1 h1
  have b := hinv t2 h2
  rw [a] at b
  exact Option.some.inj b

/-- One task stepping alone through `adc_read` performs the operations of the
sequential embedding and obtains its value (here for the POT channel). -/
theorem adc_schedule_alone :
    ((adc_schedule probeAnalog (List.replicate 12 0)
        (AdcShared.start (adc_init AdcSys.reset) (fun _ => POT))).callers 0).final_result
        = 912 ∧
      (adc_read probeAnalog 8 POT (adc_init AdcSys.reset)).map
          (fun r => (r.1, r.2.trace))
        = some (912, (adc_schedule probeAnalog (List.replicate 12 0)
            (AdcShared.start (adc_init AdcSys.reset) (fun _ => POT))).hw.trace) := by
  constructor <;> decide

/-- C15: evaluation of the code at the failing input. Task 0 calls
`adc_read(POT)` and task 1 calls `adc_read(LDR)` at the same time, on the
registers `adc_init` leaves after reset, in a world whose samples show the
settings they were taken with, the scheduler alternating between the two.
Task 1 waits for the mutex and then converts with its own multiplexer input
(AIN8), but with the reference field left by task 0 (0x10, VDD): it returns
`8 * 64 + 16 = 528`, not the `8 * 64 + 0 = 512` of a conversion with the
reference of its own channel. -/
theorem adc_read_concurrent_reference_cross_talk :
    ((adc_schedule probeAnalog (alternate 24)
        (AdcShared.start (adc_init AdcSys.reset) (fun tid => if tid = 0 then POT else LDR))
      ).callers 0) = { input := POT, pc := AdcPc.returned, final_result := 912 } ∧
      ((adc_schedule probeAnalog (alternate 24)
        (AdcShared.start (adc_init AdcSys.reset) (fun tid => if tid = 0 then POT else LDR))
      ).callers 1) = { input := LDR, pc := AdcPc.returned, final_result := 528 } ∧
      (adc_schedule probeAnalog (alternate 24)
        (AdcShared.start (adc_init AdcSys.reset) (fun tid => if tid = 0 then POT else LDR))
      ).hw.trace
        = [Op.semTake, Op.wrMUXPOS 14, Op.wrCTRLC 0x13,
           Op.wrCOMMAND 1, Op.rdINTFLAGS 0, Op.rdINTFLAGS 1, Op.rdRES 912,
           Op.wrCOMMAND 1, Op.rdINTFLAGS 0, Op.rdINTFLAGS 1, Op.rdRES 912, Op.semGive,
           Op.semTake, Op.wrMUXPOS 8, Op.wrCTRLC 0x13,
           Op.wrCOMMAND 1, Op.rdINTFLAGS 0, Op.rdINTFLAGS 1, Op.rdRES 528,
           Op.wrCOMMAND 1, Op.rdINTFLAGS 0, Op.rdINTFLAGS 1, Op.rdRES 528, Op.semGive] ∧
      probeAnalog.sample 3 (spec_mux LDR) (0x03 ||| spec_ref LDR) = 512 := by
  refine ⟨?_, ?_, ?_, ?_⟩ <;> decide

/-! ## `lcd.c`: the no-scroll branch of the scroller -/

/-- With a banner of at most 16 characters, or a scroll speed of 0 or less, the
scroller passes one message for line 1 to the queue and is deleted without
entering the scroll loop; its `memcpy` always reads 16 bytes from `man_text`. -/
theorem lcd_scrolling_text_start_once (arr after junk : List Nat) (speed : Int)
    (h : strlen arr ≤ 16 ∨ speed ≤ 0) :
    lcd_scrolling_text_start arr after junk speed
      = { sent := [{ line_num := 1, text := memcpy junk (arr ++ after) 16 }],
          deleted := true, src_read := 16, entered_loop := false } := by
  unfold lcd_scrolling_text_start
  simp only []
  rw [if_pos h]

/-! ## Precursor exercises: the threshold display of W04 -/

theorem adc0_read_eq (w : Analog) (fuel : Nat) (s : AdcSys) :
    adc0_read w fuel s = adc_converse w fuel s := rfl

/-- With the converter idle and enough polls, `trimpot_read` returns, and its
value is the 10-bit result of its second conversion: at most 1023. -/
theorem trimpot_read_range (w : Analog) (fuel : Nat) (s : AdcSys)
    (hb : s.busy = none) (hr : s.resrdy = false)
    (hf1 : w.latency s.started + 2 ≤ fuel) (hf2 : w.latency (s.started + 1) + 2 ≤ fuel) :
    ∃ s', trimpot_read w fuel s
        = some (w.sample (s.started + 1) ADC_MUXPOS_AIN14_gc ADC_REFSEL_VDDREF_gc % 1024, s') ∧
      w.sample (s.started + 1) ADC_MUXPOS_AIN14_gc ADC_REFSEL_VDDREF_gc % 1024 ≤ 1023 := by
  have h1 := adc_converse_done w fuel (trimpot_select s)
    (by simp [trimpot_select, AdcSys.log, hb]) (by simp [trimpot_select, AdcSys.log, hr])
    (by simpa [trimpot_select, AdcSys.log] using hf1)
  simp only [trimpot_read, adc0_read_eq, h1]
  rw [adc_converse_done w fuel _ (by simp) (by simp)
    (by simpa [trimpot_select, AdcSys.log] using hf2)]
  exact ⟨_, rfl, by omega⟩

/-- C21: for every potentiometer reading `t <= 1023`, the index `t / 100` used
on the 11-entry table of W04 is at most 10, inside the table; the segment
port receives the entry at that index, which is the glyph of the hundreds
digit of `t` for `t <= 999` and the glyph of A (0x77) for `t` in 1000..1023. -/
theorem w04_display_in_bounds (t : Nat) (s : W04) (ht : t ≤ 1023) :
    t / 100 ≤ 10 ∧ t / 100 < W04_led_configurations.length ∧
      (w04_display t s).indexed = s.indexed ++ [t / 100] ∧
      some (w04_display t s).PORTC_OUT = W04_led_configurations.get? (t / 100) ∧
      some (w04_display t s).PORTC_OUT = spec_glyph (if t ≤ 999 then t / 100 % 10 else 10) ∧
      (1000 ≤ t → (w04_display t s).PORTC_OUT = 0x77) := by
  have hm : t % 65536 = t := Nat.mod_eq_of_lt (by omega)
  have hout : (w04_display t s).PORTC_OUT = glyphAt W04_led_configurations ((t / 100 : Nat) : Int) := by
    simp only [w04_display, hm]
  have hk : t / 100 ≤ 10 := by omega
  refine ⟨hk, ?_, ?_, ?_, ?_, ?_⟩
  · show t / 100 < 11; omega
  · simp only [w04_display, hm]
  · rw [hout]
    generalize t / 100 = k at hk
    interval_cases k <;> rfl
  · rw [hout]
    by_cases h9 : t ≤ 999
    · rw [if_pos h9]
      have hk9 : t / 100 ≤ 9 := by omega
      have hmod : t / 100 % 10 = t / 100 := by omega
      rw [hmod]
      generalize t / 100 = k at hk9
      interval_cases k <;> rfl
    · rw [if_neg h9]
      have hk10 : t / 100 = 10 := by omega
      rw [hk10]
      rfl
  · intro h1000
    rw [hout]
    have hk10 : t / 100 = 10 := by omega
    rw [hk10]
    rfl

/-- Witness of C21: the readings 1023 (shown as A) and 345 (shown as 3). -/
theorem w04_display_in_bounds_witness :
    1023 ≤ 1023 ∧ 345 ≤ 1023 ∧
      (w04_display 1023 ⟨adc_init AdcSys.reset, 0, 0, []⟩).PORTC_OUT = 0x77 ∧
      (w04_display 1023 ⟨adc_init AdcSys.reset, 0, 0, []⟩).indexed = [] ++ [1023 / 100] ∧
      some (w04_display 345 ⟨adc_init AdcSys.reset, 0, 0, []⟩).PORTC_OUT = some 0x4F :=
  ⟨by decide, by decide,
    (w04_display_in_bounds 1023 ⟨adc_init AdcSys.reset, 0, 0, []⟩ (by decide)).2.2.2.2.2
      (by decide),
    (w04_display_in_bounds 1023 ⟨adc_init AdcSys.reset, 0, 0, []⟩ (by decide)).2.2.1,
    (w04_display_in_bounds 345 ⟨adc_init AdcSys.reset, 0, 0, []⟩ (by decide)).2.2.2.1⟩

/-- The loop head of W04 on the registers after reset, in a world whose second
sample is 1023 after a first, discarded, sample of 7: the port shows A. -/
theorem w04_loop_head_example :
    (w04_loop_head { latency := fun _ => 1, sample := fun k _ _ => if k = 0 then 7 else 1023 } 8
        ⟨AdcSys.reset, 0, 0, []⟩).map (fun s => (s.threshold_value, s.PORTC_OUT, s.indexed))
      = some (1023, 0x77, [10]) := by
  decide

end DTEK0068
